import Mathlib

/-!
Ghostbaby/cmdb: service-tree crawler, client and tree model

A shallow embedding of the Go sources under `cmdb-go/internal` and the
properties of the request signer, the service client, the node assembler and
the crawl orchestrator.

Conventions of the embedding

* Go `int` is `Int`.  The only arithmetic performed on these values is `+ 1`
  on tree levels and sums of slice lengths, far away from the 64-bit bounds;
  the conversion of a `float64` to `int` and `strconv.Atoi` keep to the
  64-bit range.
* Go `string` is `String`; `a + b` is `++`, `strings.Join` is
  `String.intercalate`, `strconv.Itoa` is the decimal rendering of an `Int`.
* Go `map[string]string` is an association list `List (String × String)`;
  the order of the list is the (unspecified) iteration order of the map, and
  a well-formed map has pairwise distinct keys (`MapWF`).
* Pointers to tree nodes are replaced by values: a node owns its children.
* Library calls whose result is fixed by the library (`crypto/sha1`,
  `net/url`) and the HTTP round trip of `resty` are parameters.
* The remote service is a function of the requests sent so far and of the
  request at hand; the crawler functions thread the list of requests sent.
* A crawl that does not return (a panic, or root tasks that wait for ever)
  has `none` in place of the returned value.
-/

namespace CMDB

/-! ## Go runtime helpers -/

/-- Go `strconv.Itoa`: decimal rendering, with a leading `-` for negatives. -/
def itoa (n : Int) : String :=
  match n with
  | Int.ofNat m => Nat.repr m
  | Int.negSucc m => "-" ++ Nat.repr (m + 1)

/-- Go `strings.Join(elems, sep)`. -/
def stringsJoin (elems : List String) (sep : String) : String :=
  String.intercalate sep elems

/-- The loop of Go `strings.Split` for a non-empty separator, on characters:
`cur` holds the piece being read, last character first, and `skip` counts the
characters of a separator just matched that are still to be passed over. The
leftmost occurrence of the separator ends the piece. -/
def stringsSplit.loop (sep : List Char) : Nat → List Char → List Char → List (List Char)
  | _, cur, [] => [cur.reverse]
  | skip + 1, cur, _ :: rest => stringsSplit.loop sep skip cur rest
  | 0, cur, ch :: rest =>
    if sep.isPrefixOf (ch :: rest) then
      cur.reverse :: stringsSplit.loop sep (sep.length - 1) [] rest
    else
      stringsSplit.loop sep 0 (ch :: cur) rest

/-- Go `strings.Split(s, sep)`: the pieces of `s` between the occurrences of
`sep`; an empty `sep` splits after each character. -/
def stringsSplit (s sep : String) : List String :=
  if sep = "" then
    s.toList.map (fun ch => String.mk [ch])
  else
    (stringsSplit.loop sep.toList 0 [] s.toList).map String.mk

/-- The digit loop of Go `strconv.Atoi`: `none` at a character that is not a
decimal digit. -/
def atoi.digits : List Char → Nat → Option Nat
  | [], n => some n
  | ch :: rest, n =>
    if ch.isDigit then atoi.digits rest (n * 10 + (ch.toNat - 48)) else none

/-- Go `strconv.Atoi` with a 64-bit `int`: an optional sign, then at least one
decimal digit and nothing else; `none` is the error (syntax or range). -/
def atoi (s : String) : Option Int :=
  let chars := s.toList
  let signed := chars.head? = some '-' ∨ chars.head? = some '+'
  let body := if signed then chars.tail else chars
  if body = [] then
    none
  else
    match atoi.digits body 0 with
    | none => none
    | some n =>
      let v : Int := if chars.head? = some '-' then -(n : Int) else n
      if v < -9223372036854775808 ∨ v > 9223372036854775807 then none else some v

/-- A Go map with string keys: the list order stands for the iteration order. -/
abbrev GoMap (β : Type) := List (String × β)

/-- The keys visited by `for k := range m`. -/
def mapKeys {β : Type} (m : GoMap β) : List String := m.map Prod.fst

/-- A well-formed map holds each key once. -/
def MapWF {β : Type} (m : GoMap β) : Prop := (mapKeys m).Nodup

instance MapWF_decidable {β : Type} (m : GoMap β) : Decidable (MapWF m) :=
  inferInstanceAs (Decidable (mapKeys m).Nodup)

/-- The lookup `v, ok := m[k]`. -/
def mapLookup {β : Type} (m : GoMap β) (k : String) : Option β :=
  match m with
  | [] => none
  | (k1, v) :: rest => if k1 = k then some v else mapLookup rest k

/-- The expression `m[k]` on a `map[string]string`: the zero value when absent. -/
def mapGet (m : GoMap String) (k : String) : String := (mapLookup m k).getD ""

/-- The assignment `m[k] = v`. -/
def mapSet {β : Type} (m : GoMap β) (k : String) (v : β) : GoMap β :=
  match m with
  | [] => [(k, v)]
  | (k1, v1) :: rest => if k1 = k then (k, v) :: rest else (k1, v1) :: mapSet rest k v

/-- Go compares strings byte by byte; on UTF-8 text that is the code point order. -/
def stringLE (a b : String) : Prop := a.toList ≤ b.toList

instance stringLE_decidable : DecidableRel stringLE := fun a b =>
  inferInstanceAs (Decidable (a.toList ≤ b.toList))

/-- Go `sort.Strings`: ascending order. -/
def sortStrings (keys : List String) : List String := List.insertionSort stringLE keys

/-- One byte under the verb `%x`: two lowercase hexadecimal digits. -/
def hexByte (b : Fin 256) : List Char :=
  ["0123456789abcdef".toList.getD (b.val / 16) '0', "0123456789abcdef".toList.getD (b.val % 16) '0']

/-- Go `fmt.Sprintf("%x", bytes)`. -/
def sprintfHex (bytes : List (Fin 256)) : String :=
  String.mk (bytes.flatMap hexByte)

/-- A dynamically typed Go value (`interface{}`): what `encoding/json` decodes
(`nil`, `bool`, `float64`, `string`, slices, maps) and the static types the
crawler itself stores in parameter maps (`int`, `[]int`, `[]string`). A finite
`float64` is represented by the rational number it denotes. -/
inductive Any where
  | null
  | bool (b : Bool)
  | float64 (x : Rat)
  | int (n : Int)
  | str (s : String)
  | ints (xs : List Int)
  | strs (xs : List String)
  | arr (xs : List Any)
  | obj (kvs : List (String × Any))

/-! ## `internal/models/service_tree.go` -/

/-- Struct `models.CIType`. -/
structure CIType where
  ID : Int
  Name : String
  Alias : String
  UniqueName : String
  ShowName : String

/-- Struct `models.ServiceTreeOption`; the field `Sort` is spelled `Sort_`. -/
structure ServiceTreeOption where
  IsShowLeafNode : Bool
  IsShowTreeNode : Bool
  Sort_ : Int
  IsPublic : Bool

/-- Struct `models.ServiceTreeView`; the field `Option` is spelled `Option_`. -/
structure ServiceTreeView where
  Topo : List (List Int)
  TopoFlatten : List Int
  Leaf : List Int
  Leaf2ShowTypes : GoMap (List Int)
  Node2ShowTypes : GoMap (List CIType)
  Level2Constraint : GoMap String
  Option_ : ServiceTreeOption
  IsPublic : Bool
  ShowTypes : List CIType

/-- Struct `models.RelationViewResponse`. -/
structure RelationViewResponse where
  Views : GoMap ServiceTreeView
  ID2Type : GoMap CIType
  Name2ID : List (List Any)

/-- Struct `models.CIInstance`; the field `Type` is spelled `Type_`. -/
structure CIInstance where
  ID : Int
  Type_ : Int
  Name : String
  Unique : String
  Attrs : GoMap Any
  TypeName : String

/-- Struct `models.CISearchResponse`. -/
structure CISearchResponse where
  Result : List CIInstance
  NumFound : Int
  Total : Int
  Page : Int

/-- Struct `models.CIRelationSearchResponse`. -/
structure CIRelationSearchResponse where
  Result : List CIInstance
  NumFound : Int
  Total : Int
  Page : Int
  Counter : Any
  Facet : Any

/-- Struct `models.StatisticsResponse`; a nil map is `none`. -/
structure StatisticsResponse where
  Data : Option (GoMap Any)
  Detail : Option (GoMap Any)

/-- Struct `models.ServiceTreeNode`; the field `Type` is spelled `Type_`, a nil
`Statistics` map is `none`, and a child pointer is the child itself. -/
structure ServiceTreeNode where
  ID : Int
  Type_ : Int
  TypeName : String
  Name : String
  Path : String
  Level : Int
  Children : List ServiceTreeNode
  ChildCount : Int
  IsLeaf : Bool
  Attributes : GoMap Any
  Statistics : Option (GoMap Int)

/-- Struct `models.ServiceTreeData` without the wall-clock stamp `CrawledAt`. -/
structure ServiceTreeData where
  ViewName : String
  ViewID : Int
  Config : ServiceTreeView
  RootNodes : List ServiceTreeNode
  TotalNodes : Int
  MaxDepth : Int

/-- Method `ServiceTreeNode.BuildTreePath`. -/
def BuildTreePath (node : ServiceTreeNode) : String :=
  if node.Path = "" then node.Name else node.Path ++ " > " ++ node.Name

/-- Method `ServiceTreeNode.AddChild`: the method writes `Path` and `Level` through the
child pointer and appends that pointer to the receiver; the pair returned is
the receiver and the child after the call. -/
def AddChild (node child : ServiceTreeNode) : ServiceTreeNode × ServiceTreeNode :=
  let child1 := { child with Path := BuildTreePath node, Level := node.Level + 1 }
  let node1 := { node with Children := node.Children ++ [child1] }
  (node1, child1)

mutual
/-- Method `ServiceTreeNode.GetAllDescendants`. -/
def GetAllDescendants (node : ServiceTreeNode) : List ServiceTreeNode :=
  match node with
  | ServiceTreeNode.mk _ _ _ _ _ _ children _ _ _ _ => GetAllDescendants.loop children []
/-- The `for _, child := range node.Children` loop of `GetAllDescendants`,
with the slice `descendants` built so far. -/
def GetAllDescendants.loop (children descendants : List ServiceTreeNode) :
    List ServiceTreeNode :=
  match children with
  | [] => descendants
  | child :: rest =>
    GetAllDescendants.loop rest ((descendants ++ [child]) ++ GetAllDescendants child)
end

/-- Method `ServiceTreeData.CountNodes`: the count returned and the data with
`TotalNodes` stored. -/
def CountNodes (data : ServiceTreeData) : Int × ServiceTreeData :=
  let count := data.RootNodes.foldl
    (fun count root => count + ((GetAllDescendants root).length : Int))
    (data.RootNodes.length : Int)
  (count, { data with TotalNodes := count })

mutual
/-- The function `calculateNodeDepth`. -/
def calculateNodeDepth (node : ServiceTreeNode) (currentDepth : Int) : Int :=
  match node with
  | ServiceTreeNode.mk _ _ _ _ _ _ children _ _ _ _ =>
    if children.length = 0 then currentDepth
    else calculateNodeDepth.loop children currentDepth currentDepth
/-- The loop over the children in `calculateNodeDepth`, with the running
`maxChildDepth`. -/
def calculateNodeDepth.loop (children : List ServiceTreeNode)
    (currentDepth maxChildDepth : Int) : Int :=
  match children with
  | [] => maxChildDepth
  | child :: rest =>
    let childDepth := calculateNodeDepth child (currentDepth + 1)
    calculateNodeDepth.loop rest currentDepth
      (if childDepth > maxChildDepth then childDepth else maxChildDepth)
end

/-- Method `ServiceTreeData.CalculateMaxDepth`: the depth returned and the data with
`MaxDepth` stored. -/
def CalculateMaxDepth (data : ServiceTreeData) : Int × ServiceTreeData :=
  let maxDepth := data.RootNodes.foldl
    (fun maxDepth root =>
      let depth := calculateNodeDepth root 1
      if depth > maxDepth then depth else maxDepth)
    (0 : Int)
  (maxDepth, { data with MaxDepth := maxDepth })

/-- The Go conversion `int(x)` of a finite `float64` to the 64-bit `int`:
truncation toward zero when the truncated value is an `int`. Outside that
range Go leaves the result to the implementation; this is the amd64 result,
the least `int`. -/
def float64ToInt (x : Rat) : Int :=
  let truncated := Int.tdiv x.num (x.den : Int)
  if -9223372036854775808 ≤ truncated ∧ truncated ≤ 9223372036854775807 then
    truncated
  else
    -9223372036854775808

/-- Method `StatisticsResponse.GetCount`. -/
def GetCount (s : StatisticsResponse) (rootID : String) : Int :=
  match s.Data with
  | none => 0
  | some data =>
    match mapLookup data rootID with
    | some (Any.float64 intCount) => float64ToInt intCount
    | some (Any.int intCount) => intCount
    | _ => 0

/-- Method `CIInstance.GetDisplayName`. -/
def GetDisplayName (ci : CIInstance) : String :=
  if ci.Name ≠ "" then ci.Name
  else
    match mapLookup ci.Attrs ci.Unique with
    | some (Any.str str) => str
    | _ => ""

/-! ## `internal/client/cmdb_client.go` -/

/-- The library functions the client calls: `crypto/sha1` (the 20-byte digest
of a string), `net/url` (`url.Parse(u)` followed by `.Path`, `none` when the
parse fails) and `fmt.Sprintf("%v", v)`. -/
structure Lib where
  sha1Sum : String → List (Fin 256)
  urlParsePath : String → Option String
  sprintV : Any → String

/-- Struct `client.CMDBClient`: the fields that carry data. -/
structure CMDBClient where
  baseURL : String
  apiVersion : String
  apiKey : String
  apiSecret : String

/-- Steps 1 to 4 of `CMDBClient.buildSignature`: the local `signStr`. -/
def buildSignature.signStr (c : CMDBClient) (urlPath : String)
    (params : GoMap String) : String :=
  let keys := (mapKeys params).filter (fun k => k != "_key" && k != "_secret")
  let keys := sortStrings keys
  let values := keys.map (fun k => mapGet params k)
  let paramValues := stringsJoin values ""
  urlPath ++ c.apiSecret ++ paramValues

/-- Method `CMDBClient.buildSignature`: step 5, the digest of `signStr` under `%x`. -/
def buildSignature (lib : Lib) (c : CMDBClient) (urlPath : String)
    (params : GoMap String) : String :=
  sprintfHex (lib.sha1Sum (buildSignature.signStr c urlPath params))

/-- Method `CMDBClient.addAPIAuth`; a nil map is the empty map. -/
def addAPIAuth (lib : Lib) (c : CMDBClient) (urlPath : String)
    (params : GoMap String) : GoMap String :=
  if c.apiKey = "" ∨ c.apiSecret = "" then
    params
  else
    let params1 := mapSet params "_key" c.apiKey
    let params2 := mapSet params1 "_secret" (buildSignature lib c urlPath params1)
    params2

/-- Method `CMDBClient.buildURL`. -/
def buildURL (c : CMDBClient) (endpoint : String) : String :=
  let endpoint1 :=
    match endpoint.toList with
    | '/' :: rest => String.mk rest
    | _ => endpoint
  c.baseURL ++ "/" ++ c.apiVersion ++ "/" ++ endpoint1

/-- Method `CMDBClient.getURLPath`. -/
def getURLPath (lib : Lib) (fullURL : String) : String :=
  match lib.urlParsePath fullURL with
  | none => ""
  | some path => path

/-- A GET request handed to `resty`: the URL and the query parameters. -/
structure Request where
  url : String
  params : GoMap String

/-- What `resty` hands back when the transport succeeds: the status code, the
raw body, and the value it left in the result holder set by `SetResult`. -/
structure Response (α : Type) where
  StatusCode : Int
  Body : String
  Result : α

/-- The HTTP round trip `c.client.R()...Get(fullURL)`, retries included: an
error of the transport, or a response. -/
abbrev Transport (α : Type) := Request → Except String (Response α)

/-- The outcome of a client operation: the requests it handed to the
transport, in order, and the value or error it returned. -/
structure Call (α : Type) where
  requests : List Request
  result : Except String α

/-- The tail shared by the four operations once `params` is built: the GET,
the `err != nil` branch and the `resp.StatusCode() != 200` branch. The
string `what` is the operation part of the wrapped transport error. -/
def doGet {α : Type} (tr : Transport α) (what : String) (fullURL : String)
    (params : GoMap String) : Call α :=
  match tr ⟨fullURL, params⟩ with
  | Except.error err =>
    ⟨[⟨fullURL, params⟩], Except.error ("failed to " ++ what ++ ": " ++ err)⟩
  | Except.ok resp =>
    if resp.StatusCode ≠ 200 then
      ⟨[⟨fullURL, params⟩],
        Except.error ("API returned status " ++ itoa resp.StatusCode ++ ": " ++ resp.Body)⟩
    else
      ⟨[⟨fullURL, params⟩], Except.ok resp.Result⟩

/-- Method `CMDBClient.GetRelationViews`. -/
def GetRelationViews (lib : Lib) (c : CMDBClient) (tr : Transport RelationViewResponse) :
    Call RelationViewResponse :=
  let fullURL := buildURL c "preference/relation/view"
  let urlPath := getURLPath lib fullURL
  let params := addAPIAuth lib c urlPath []
  doGet tr "get relation views" fullURL params

/-- Method `CMDBClient.SearchCI`. -/
def SearchCI (lib : Lib) (c : CMDBClient) (tr : Transport CISearchResponse)
    (query : String) (count : Int) (useIDFilter : Bool) : Call CISearchResponse :=
  let fullURL := buildURL c "ci/s"
  let urlPath := getURLPath lib fullURL
  let params0 : GoMap String := [("q", query), ("count", itoa count)]
  let params1 := if useIDFilter then mapSet params0 "use_id_filter" "1" else params0
  let params := addAPIAuth lib c urlPath params1
  doGet tr "search CI instances" fullURL params

/-- The type switch that turns one `interface{}` parameter into a string. -/
def paramString (lib : Lib) (v : Any) : String :=
  match v with
  | Any.str val => val
  | Any.int val => itoa val
  | Any.ints val => stringsJoin (val.map itoa) ","
  | Any.strs val => stringsJoin val ","
  | val => lib.sprintV val

/-- The loop `for k, v := range queryParams` filling `params`. -/
def convertParams (lib : Lib) (queryParams : GoMap Any) : GoMap String :=
  queryParams.foldl (fun params kv => mapSet params kv.1 (paramString lib kv.2)) []

/-- Method `CMDBClient.SearchCIRelation`. -/
def SearchCIRelation (lib : Lib) (c : CMDBClient) (tr : Transport CIRelationSearchResponse)
    (queryParams : GoMap Any) : Call CIRelationSearchResponse :=
  let fullURL := buildURL c "ci_relations/s"
  let urlPath := getURLPath lib fullURL
  let params := addAPIAuth lib c urlPath (convertParams lib queryParams)
  doGet tr "search CI relations" fullURL params

/-- Method `CMDBClient.GetCIRelationStatistics`. -/
def GetCIRelationStatistics (lib : Lib) (c : CMDBClient) (tr : Transport StatisticsResponse)
    (queryParams : GoMap Any) : Call StatisticsResponse :=
  let fullURL := buildURL c "ci_relations/statistics"
  let urlPath := getURLPath lib fullURL
  let params := addAPIAuth lib c urlPath (convertParams lib queryParams)
  doGet tr "get CI relation statistics" fullURL params

/-- Method `CMDBClient.ValidateResponse`: `none` is the nil error. -/
def ValidateResponse {α : Type} (resp : Response α) : Option String :=
  if resp.StatusCode < 200 ∨ resp.StatusCode ≥ 300 then
    some ("API returned status " ++ itoa resp.StatusCode ++ ": " ++ resp.Body)
  else
    none

/-- Method `CMDBClient.BuildCITypeQuery`. -/
def BuildCITypeQuery (typeIDs : List Int) : String :=
  if typeIDs.length = 0 then
    ""
  else
    let strs := typeIDs.map itoa
    "_type:(" ++ stringsJoin strs ";" ++ ")"

/-- Struct `client.TreeKeySegment`. -/
structure TreeKeySegment where
  CIID : Int
  TypeID : Int
  Meta : String

/-- The body of the loop of `ParseTreeKey` for one segment. -/
def ParseTreeKey.segment (segment : String) : Except String TreeKeySegment :=
  match stringsSplit segment "%" with
  | [part0, part1, part2] =>
    match atoi part0 with
    | none => Except.error ("invalid CI ID in segment: " ++ part0)
    | some ciID =>
      match atoi part1 with
      | none => Except.error ("invalid type ID in segment: " ++ part1)
      | some typeID => Except.ok ⟨ciID, typeID, part2⟩
  | _ => Except.error ("invalid tree key segment: " ++ segment)

/-- The loop `for i, segment := range segments` of `ParseTreeKey`: the first
segment that fails ends the call with its error. -/
def ParseTreeKey.loop : List String → Except String (List TreeKeySegment)
  | [] => Except.ok []
  | segment :: rest =>
    match ParseTreeKey.segment segment with
    | Except.error err => Except.error err
    | Except.ok seg =>
      match ParseTreeKey.loop rest with
      | Except.error err => Except.error err
      | Except.ok segs => Except.ok (seg :: segs)

/-- Method `CMDBClient.ParseTreeKey`; the nil slice is the empty list. -/
def ParseTreeKey (key : String) : Except String (List TreeKeySegment) :=
  if key = "" then
    Except.ok []
  else
    ParseTreeKey.loop (stringsSplit key "@^@")

/-- Method `CMDBClient.BuildTreeKey`. -/
def BuildTreeKey (segments : List TreeKeySegment) : String :=
  if segments.length = 0 then
    ""
  else
    let parts := segments.map
      (fun seg => itoa seg.CIID ++ "%" ++ itoa seg.TypeID ++ "%" ++ seg.Meta)
    stringsJoin parts "@^@"

/-! ## `internal/crawler/service_tree_crawler.go`

The remote service is a `Server`: for each endpoint, the answer of the HTTP
round trip as a function of the requests sent so far and of the request at
hand, so that any sequence of answers and failures is some server. Every
crawler function takes the list of requests sent so far and returns it
extended by its own requests. The goroutines that `CrawlServiceTree` starts
per root work on disjoint subtrees; with a positive worker limit they are run
here one after the other in root order, and with a worker limit of zero or
less the call does not return. `time.Sleep` and the context have no effect
on the values computed. -/

/-- Struct `crawler.ServiceTreeCrawler` without its logger; `requestInterval`
in nanoseconds. -/
structure ServiceTreeCrawler where
  client : CMDBClient
  maxDepth : Int
  pageSize : Int
  maxWorkers : Int
  includeStats : Bool
  requestInterval : Int

/-- The remote service behind the four endpoints. -/
structure Server where
  views : List Request → Transport RelationViewResponse
  search : List Request → Transport CISearchResponse
  related : List Request → Transport CIRelationSearchResponse
  statistics : List Request → Transport StatisticsResponse

/-- The block `ciType, exists := id2Type[strconv.Itoa(ci.Type)]` with the
assignments to the local `typeName`, as `CrawlServiceTree` and
`crawlNodeChildren` both run it for an instance. -/
def typeNameOf (id2Type : GoMap CIType) (ci : CIInstance) : String :=
  match mapLookup id2Type (itoa ci.Type_) with
  | some ciType => if ciType.Alias = "" then ciType.Name else ciType.Alias
  | none => ""

/-- The literal `&models.ServiceTreeNode{...}` that `CrawlServiceTree` (with
`Level: 0`) and `crawlNodeChildren` (with `Level: currentLevel`) build for an
instance. -/
def newNode (id2Type : GoMap CIType) (ci : CIInstance) (level : Int) : ServiceTreeNode :=
  { ID := ci.ID
    Type_ := ci.Type_
    TypeName := typeNameOf id2Type ci
    Name := GetDisplayName ci
    Path := ""
    Level := level
    Children := []
    ChildCount := 0
    IsLeaf := false
    Attributes := ci.Attrs
    Statistics := none }

/-- The local `params` of `crawlNodeChildren`, with `descendant_ids` added
when `len(viewConfig.TopoFlatten) > currentLevel+1`. -/
def crawlNodeChildren.params (c : ServiceTreeCrawler) (node : ServiceTreeNode)
    (viewConfig : ServiceTreeView) (currentLevel : Nat) : GoMap Any :=
  let childTypeIDs := viewConfig.Topo.getD currentLevel []
  let params : GoMap Any :=
    [("q", Any.str (BuildCITypeQuery childTypeIDs)),
     ("root_id", Any.int node.ID),
     ("level", Any.int 1),
     ("count", Any.int c.pageSize)]
  if viewConfig.TopoFlatten.length > currentLevel + 1 then
    let descendantIDs := viewConfig.TopoFlatten.drop (currentLevel + 1)
    let descendantStrs := descendantIDs.map itoa
    mapSet params "descendant_ids" (Any.str (stringsJoin descendantStrs ","))
  else
    params

/-- The loop `for _, ci := range childResp.Result` of `crawlNodeChildren`,
with the recursive call passed as `descend`. After `node.AddChild(child)` the
recursive call works through the child pointer, so the child that ends up
last in `node.Children` is the child as the recursive call left it. -/
def crawlNodeChildren.loop (id2Type : GoMap CIType) (currentLevel : Nat)
    (descend : ServiceTreeNode → List Request →
      ServiceTreeNode × Option String × List Request)
    (result : List CIInstance) (node : ServiceTreeNode) (log : List Request) :
    ServiceTreeNode × List Request :=
  result.foldl
    (fun (acc : ServiceTreeNode × List Request) ci =>
      let child := newNode id2Type ci currentLevel
      let attached := AddChild acc.1 child
      let r := descend attached.2 acc.2
      ({ attached.1 with Children := acc.1.Children ++ [r.1] }, r.2.2))
    (node, log)

/-- Method `ServiceTreeCrawler.crawlNodeChildren` with a recursion budget:
the node after the call, the error returned (`none` is nil) and the requests
sent so far. `currentLevel` starts at 1 and only grows, so it is a natural
number. The budget is consumed by the recursive call only; a budget of
`len(viewConfig.Topo) - currentLevel` is never exhausted. -/
def crawlNodeChildrenFuel (lib : Lib) (c : ServiceTreeCrawler) (srv : Server)
    (viewConfig : ServiceTreeView) (id2Type : GoMap CIType) :
    Nat → ServiceTreeNode → Nat → List Request →
      ServiceTreeNode × Option String × List Request
  | fuel, node, currentLevel, log =>
    if c.maxDepth > 0 ∧ (currentLevel : Int) ≥ c.maxDepth then
      (node, none, log)
    else if currentLevel ≥ viewConfig.Topo.length then
      ({ node with IsLeaf := true }, none, log)
    else
      let childTypeIDs := viewConfig.Topo.getD currentLevel []
      if childTypeIDs.length = 0 then
        ({ node with IsLeaf := true }, none, log)
      else
        let params := crawlNodeChildren.params c node viewConfig currentLevel
        let call := SearchCIRelation lib c.client (srv.related log) params
        let log1 := log ++ call.requests
        match call.result with
        | Except.error err =>
          (node, some ("failed to search children for node " ++ itoa node.ID ++ ": " ++ err),
            log1)
        | Except.ok childResp =>
          if childResp.Result.length = 0 then
            ({ node with IsLeaf := true }, none, log1)
          else
            match fuel with
            | 0 => (node, some "recursion budget exhausted", log1)
            | fuel1 + 1 =>
              let loop := crawlNodeChildren.loop id2Type currentLevel
                (fun child log2 =>
                  crawlNodeChildrenFuel lib c srv viewConfig id2Type fuel1
                    child (currentLevel + 1) log2)
                childResp.Result node log1
              ({ loop.1 with ChildCount := loop.1.Children.length }, none, loop.2)

/-- Method `ServiceTreeCrawler.crawlNodeChildren`. -/
def crawlNodeChildren (lib : Lib) (c : ServiceTreeCrawler) (srv : Server)
    (node : ServiceTreeNode) (viewConfig : ServiceTreeView) (id2Type : GoMap CIType)
    (currentLevel : Nat) (log : List Request) :
    ServiceTreeNode × Option String × List Request :=
  crawlNodeChildrenFuel lib c srv viewConfig id2Type
    (viewConfig.Topo.length - currentLevel) node currentLevel log

/-- Method `ServiceTreeCrawler.loadRootNodeStatistics`: the roots after the
call, the error returned and the requests sent so far. -/
def loadRootNodeStatistics (lib : Lib) (c : ServiceTreeCrawler) (srv : Server)
    (rootNodes : List ServiceTreeNode) (viewConfig : ServiceTreeView)
    (log : List Request) : List ServiceTreeNode × Option String × List Request :=
  if rootNodes.length = 0 ∨ viewConfig.Leaf.length = 0 then
    (rootNodes, none, log)
  else
    let rootIDs := rootNodes.map (fun node => itoa node.ID)
    let level : Int := viewConfig.TopoFlatten.length
    let params : GoMap Any :=
      [("root_ids", Any.str (stringsJoin rootIDs ",")),
       ("level", Any.int level),
       ("type_ids", Any.ints viewConfig.Leaf),
       ("has_m2m", Any.int 0)]
    let call := GetCIRelationStatistics lib c.client (srv.statistics log) params
    let log1 := log ++ call.requests
    match call.result with
    | Except.error err => (rootNodes, some ("failed to get statistics: " ++ err), log1)
    | Except.ok stats =>
      (rootNodes.map (fun node =>
        { node with
          Statistics := some [("total_descendants", GetCount stats (itoa node.ID))] }),
        none, log1)

/-- Method `ServiceTreeCrawler.CrawlServiceTree`: what the call returns (the
result or the error), and the requests sent so far. The first component is
`none` when the call does not return: with a negative `maxWorkers` the
statement `make(chan struct{}, c.maxWorkers)` panics, and with `maxWorkers`
zero the channel is unbuffered, so every root task waits forever at
`semaphore <- struct{}{}` and `wg.Wait()` never comes back. Errors of the
root tasks are logged only. -/
def CrawlServiceTree (lib : Lib) (c : ServiceTreeCrawler) (srv : Server)
    (viewName : String) (viewID : Int) (viewConfig : ServiceTreeView)
    (id2Type : GoMap CIType) (log : List Request) :
    Option (Except String ServiceTreeData) × List Request :=
  if viewConfig.Topo.length = 0 then
    (some (Except.error "service tree has no levels defined"), log)
  else
    let treeData : ServiceTreeData := ⟨viewName, viewID, viewConfig, [], 0, 0⟩
    let rootTypeIDs := viewConfig.Topo.getD 0 []
    let query := BuildCITypeQuery rootTypeIDs
    let call := SearchCI lib c.client (srv.search log) query c.pageSize false
    let log1 := log ++ call.requests
    match call.result with
    | Except.error err => (some (Except.error ("failed to search root nodes: " ++ err)), log1)
    | Except.ok rootResp =>
      if rootResp.Result.length = 0 then
        (some (Except.ok treeData), log1)
      else
        let rootNodes := rootResp.Result.map (fun ci => newNode id2Type ci 0)
        let stats :=
          if c.includeStats = true ∧ viewConfig.Leaf.length > 0 then
            loadRootNodeStatistics lib c srv rootNodes viewConfig log1
          else
            (rootNodes, none, log1)
        if c.maxWorkers ≤ 0 then
          (none, stats.2.2)
        else
          let expanded := stats.1.foldl
            (fun (acc : List ServiceTreeNode × List Request) rootNode =>
              let r := crawlNodeChildren lib c srv rootNode viewConfig id2Type 1 acc.2
              (acc.1 ++ [r.1], r.2.2))
            ([], stats.2.2)
          let treeData1 := { treeData with RootNodes := expanded.1 }
          let treeData2 := (CountNodes treeData1).2
          let treeData3 := (CalculateMaxDepth treeData2).2
          (some (Except.ok treeData3), expanded.2)

/-- The body of the loop of `findViewIDByName` for one pair: `some id` when
it returns `id`, `none` when the loop goes on. -/
def findViewIDByName.step (viewName : String) (pair : List Any) : Option Int :=
  match pair with
  | first :: second :: _ =>
    match first with
    | Any.str name =>
      if name = viewName then
        match second with
        | Any.float64 id => some (float64ToInt id)
        | _ => none
      else none
    | _ => none
  | _ => none

/-- Method `ServiceTreeCrawler.findViewIDByName`. -/
def findViewIDByName (viewName : String) (name2id : List (List Any)) : Int :=
  match name2id with
  | [] => -1
  | pair :: rest =>
    match findViewIDByName.step viewName pair with
    | some id => id
    | none => findViewIDByName viewName rest

/-- The body of the loop `for viewName, viewConfig := range viewsResp.Views`
shared by `CrawlAllServiceTrees` (every view selected) and
`CrawlSpecificViews` (the views in `targetSet` selected), on the results and
requests so far: a view whose crawl fails is skipped. The results are `none`
once a call of `CrawlServiceTree` has not returned; the loop then gets no
further. -/
def crawlViews.step (lib : Lib) (c : ServiceTreeCrawler) (srv : Server)
    (viewsResp : RelationViewResponse) (selected : String → Bool)
    (acc : Option (List ServiceTreeData) × List Request) (view : String × ServiceTreeView) :
    Option (List ServiceTreeData) × List Request :=
  match acc.1 with
  | none => acc
  | some results =>
    if selected view.1 = false then acc
    else
      let viewID := findViewIDByName view.1 viewsResp.Name2ID
      let r := CrawlServiceTree lib c srv view.1 viewID view.2 viewsResp.ID2Type acc.2
      match r.1 with
      | none => (none, r.2)
      | some (Except.error _) => (some results, r.2)
      | some (Except.ok treeData) => (some (results ++ [treeData]), r.2)

/-- The loop `for viewName, viewConfig := range viewsResp.Views`. -/
def crawlViews (lib : Lib) (c : ServiceTreeCrawler) (srv : Server)
    (viewsResp : RelationViewResponse) (selected : String → Bool)
    (log : List Request) : Option (List ServiceTreeData) × List Request :=
  viewsResp.Views.foldl (crawlViews.step lib c srv viewsResp selected) (some [], log)

/-- Method `ServiceTreeCrawler.CrawlAllServiceTrees`; `none` when a call of
`CrawlServiceTree` does not return. -/
def CrawlAllServiceTrees (lib : Lib) (c : ServiceTreeCrawler) (srv : Server)
    (log : List Request) : Option (Except String (List ServiceTreeData)) × List Request :=
  let call := GetRelationViews lib c.client (srv.views log)
  let log1 := log ++ call.requests
  match call.result with
  | Except.error err => (some (Except.error ("failed to get relation views: " ++ err)), log1)
  | Except.ok viewsResp =>
    if viewsResp.Views.length = 0 then
      (some (Except.ok []), log1)
    else
      let r := crawlViews lib c srv viewsResp (fun _ => true) log1
      match r.1 with
      | none => (none, r.2)
      | some results => (some (Except.ok results), r.2)

/-- Method `ServiceTreeCrawler.CrawlSpecificViews`; the closing loop over
`targetViews` only writes warnings. `none` when a call of `CrawlServiceTree`
does not return. -/
def CrawlSpecificViews (lib : Lib) (c : ServiceTreeCrawler) (srv : Server)
    (targetViews : List String) (log : List Request) :
    Option (Except String (List ServiceTreeData)) × List Request :=
  if targetViews.length = 0 then
    CrawlAllServiceTrees lib c srv log
  else
    let call := GetRelationViews lib c.client (srv.views log)
    let log1 := log ++ call.requests
    match call.result with
    | Except.error err => (some (Except.error ("failed to get relation views: " ++ err)), log1)
    | Except.ok viewsResp =>
      let targetSet : GoMap Bool := targetViews.foldl (fun m view => mapSet m view true) []
      let r := crawlViews lib c srv viewsResp
        (fun viewName => (mapLookup targetSet viewName).getD false) log1
      match r.1 with
      | none => (none, r.2)
      | some results => (some (Except.ok results), r.2)

/-! ## Reference notions and sample data -/

/-- The parameters that take part in a signature: every entry whose name is
neither `_key` nor `_secret`. -/
def signedParams (params : GoMap String) : GoMap String :=
  params.filter (fun kv => decide (kv.1 ≠ "_key" ∧ kv.1 ≠ "_secret"))

/-- A stand-in digest for evaluating the client on concrete inputs: the
length of the signing string as a single byte. -/
def sampleLib : Lib where
  sha1Sum := fun s => [Fin.ofNat s.length]
  urlParsePath := fun u => some u
  sprintV := fun _ => "?"

/-- A client with both credentials set. -/
def sampleClient : CMDBClient := ⟨"http://cmdb", "api/v0.1", "k1", "s3cret"⟩

/-- A client whose credentials were never set. -/
def bareClient : CMDBClient := ⟨"http://cmdb", "api/v0.1", "", ""⟩

/-- The parameters of a root search, in one iteration order. -/
def sampleParams : GoMap String := [("q", "_type:(1)"), ("count", "10")]

/-- The same parameters in another iteration order. -/
def sampleParamsSwapped : GoMap String := [("count", "10"), ("q", "_type:(1)")]

/-- A transport that answers every root search with status 200 and an empty
result page. -/
def okSearchTransport : Transport CISearchResponse :=
  fun _ => Except.ok ⟨200, "ok", ⟨[], 0, 0, 0⟩⟩

/-- A transport that answers every root search with status 201 (Created). -/
def createdSearchTransport : Transport CISearchResponse :=
  fun _ => Except.ok ⟨201, "created", ⟨[], 0, 0, 0⟩⟩

/-- What the four operations do with a response the transport delivered: an
error naming the status code and the raw body unless the status is exactly
200, and the decoded value at 200. -/
def StatusRule {α : Type} (resp : Response α) (result : Except String α) : Prop :=
  (resp.StatusCode ≠ 200 → result =
    Except.error ("API returned status " ++ itoa resp.StatusCode ++ ": " ++ resp.Body)) ∧
  (resp.StatusCode = 200 → result = Except.ok resp.Result)

mutual
/-- The number of nodes of the tree rooted at a node. -/
def nodeCount : ServiceTreeNode → Nat
  | ServiceTreeNode.mk _ _ _ _ _ _ children _ _ _ _ => 1 + forestCount children
/-- The number of nodes of a forest. -/
def forestCount : List ServiceTreeNode → Nat
  | [] => 0
  | c :: cs => nodeCount c + forestCount cs
end

mutual
/-- The reference recursion for the depth of a node: 1 without children,
otherwise 1 plus the largest depth among the children. -/
def depth : ServiceTreeNode → Int
  | ServiceTreeNode.mk _ _ _ _ _ _ children _ _ _ _ =>
    if children.isEmpty then 1 else 1 + depthMax children
/-- The largest depth among the nodes of a list (0 for the empty list). -/
def depthMax : List ServiceTreeNode → Int
  | [] => 0
  | c :: cs => max (depth c) (depthMax cs)
end

mutual
/-- An unbranched chain: every node has at most one child. -/
def isChain : ServiceTreeNode → Bool
  | ServiceTreeNode.mk _ _ _ _ _ _ children _ _ _ _ => isChainList children
/-- The child list of a node of an unbranched chain. -/
def isChainList : List ServiceTreeNode → Bool
  | [] => true
  | c :: cs => cs.isEmpty && isChain c
end

/-- A node with the given id, name and children and zero values elsewhere. -/
def mkNode (id : Int) (name : String) (children : List ServiceTreeNode) : ServiceTreeNode :=
  ⟨id, 0, "", name, "", 0, children, 0, false, [], none⟩

/-- A view configuration with the given topology and zero values elsewhere. -/
def mkView (topo : List (List Int)) : ServiceTreeView :=
  ⟨topo, topo.flatten, [], [], [], [], ⟨false, false, 0, false⟩, false, []⟩

/-- A result holding the given roots, before the totals are computed. -/
def mkData (roots : List ServiceTreeNode) : ServiceTreeData :=
  ⟨"view", 1, mkView [[1], [2], [3]], roots, 0, 0⟩

/-- The unbranched chain with `d + 1` nodes. -/
def chainOf : Nat → ServiceTreeNode
  | 0 => mkNode 0 "n0" []
  | d + 1 => mkNode (d + 1) "n" [chainOf d]

mutual
/-- Every node of the tree rooted at a node satisfies `P`. -/
def AllNodes (P : ServiceTreeNode → Prop) : ServiceTreeNode → Prop
  | ServiceTreeNode.mk id ty tn name path level children cc leaf attrs stats =>
    P (ServiceTreeNode.mk id ty tn name path level children cc leaf attrs stats) ∧
      AllNodesList P children
/-- Every node of a forest satisfies `P`. -/
def AllNodesList (P : ServiceTreeNode → Prop) : List ServiceTreeNode → Prop
  | [] => True
  | c :: cs => AllNodes P c ∧ AllNodesList P cs
end

/-- Two nodes agree on every field that `crawlNodeChildren` leaves alone. -/
def SameFrame (a b : ServiceTreeNode) : Prop :=
  a.ID = b.ID ∧ a.Type_ = b.Type_ ∧ a.TypeName = b.TypeName ∧ a.Name = b.Name ∧
  a.Path = b.Path ∧ a.Level = b.Level ∧ a.Attributes = b.Attributes ∧
  a.Statistics = b.Statistics

/-- The type display name as the specification words it: the alias of the
table entry for the type id if that alias is non-empty, else the internal
name of the entry, and the empty string when the table has no entry. -/
def typeDisplayName (id2Type : GoMap CIType) (typeID : Int) : String :=
  match mapLookup id2Type (itoa typeID) with
  | none => ""
  | some entry => if entry.Alias ≠ "" then entry.Alias else entry.Name

/-- What holds of each node of a crawled tree, for a topology of `topoLen`
levels and a depth limit `maxDepth`: the type display name is resolved from
the table, the recorded child count is the length of the child list, a node
with children is not marked leaf, each child sits one level below its
parent, and the level is within the topology and within the depth limit. -/
def NodeOK (id2Type : GoMap CIType) (topoLen : Nat) (maxDepth : Int)
    (n : ServiceTreeNode) : Prop :=
  n.TypeName = typeDisplayName id2Type n.Type_ ∧
  n.ChildCount = n.Children.length ∧
  (n.Children ≠ [] → n.IsLeaf = false) ∧
  (∀ c ∈ n.Children, c.Level = n.Level + 1) ∧
  0 ≤ n.Level ∧ n.Level < topoLen ∧ (maxDepth > 0 → n.Level < maxDepth)

/-- An instance record with the given id, type id and name. -/
def mkInstance (id ty : Int) (name : String) : CIInstance := ⟨id, ty, name, "", [], ""⟩

/-- A crawler with the defaults of `NewServiceTreeCrawler` (no depth limit). -/
def sampleCrawler : ServiceTreeCrawler := ⟨sampleClient, -1, 1000, 10, true, 100000000⟩

/-- The crawler of the test suite: depth limit 2. -/
def depth2Crawler : ServiceTreeCrawler := ⟨sampleClient, 2, 100, 5, true, 200000000⟩

/-- The server of the end-to-end scenario: the root search returns instances
10 and 11, the related search from 10 returns instance 20, every other
related search returns none, and the statistics endpoint is down. -/
def scenarioServer : Server where
  views := fun _ _ => Except.error "unused"
  search := fun _ _ =>
    Except.ok ⟨200, "ok", ⟨[mkInstance 10 1 "a", mkInstance 11 1 "b"], 2, 2, 1⟩⟩
  related := fun _ req =>
    if mapLookup req.params "root_id" = some "10" then
      Except.ok ⟨200, "ok", ⟨[mkInstance 20 2 "c"], 1, 1, 1, Any.null, Any.null⟩⟩
    else
      Except.ok ⟨200, "ok", ⟨[], 0, 0, 1, Any.null, Any.null⟩⟩
  statistics := fun _ _ => Except.error "down"

/-- The children that the loop of `crawlNodeChildren` appends to `node` for
the instances `result`, in order, each as its own descent left it, and the
requests sent so far after the last of them. -/
def crawlKids (id2Type : GoMap CIType) (currentLevel : Nat)
    (descend : ServiceTreeNode → List Request →
      ServiceTreeNode × Option String × List Request)
    (node : ServiceTreeNode) :
    List CIInstance → List Request → List ServiceTreeNode × List Request
  | [], log => ([], log)
  | ci :: rest, log =>
    let r := descend (AddChild node (newNode id2Type ci currentLevel)).2 log
    let tail := crawlKids id2Type currentLevel descend node rest r.2.2
    (r.1 :: tail.1, tail.2)

/-- The roots after the expansion phase of `CrawlServiceTree`, in order, and
the requests sent so far after the last of them. -/
def expandRoots (lib : Lib) (c : ServiceTreeCrawler) (srv : Server)
    (viewConfig : ServiceTreeView) (id2Type : GoMap CIType) :
    List ServiceTreeNode → List Request → List ServiceTreeNode × List Request
  | [], log => ([], log)
  | rootNode :: rest, log =>
    let r := crawlNodeChildren lib c srv rootNode viewConfig id2Type 1 log
    let tail := expandRoots lib c srv viewConfig id2Type rest r.2.2
    (r.1 :: tail.1, tail.2)

/-- A node as `crawlNodeChildren` receives it at `lvl`: freshly built from an
instance (no children, not marked leaf, type display name resolved), one
level above `lvl`, within the topology and within the depth limit. -/
def FreshAt (id2Type : GoMap CIType) (topoLen : Nat) (maxDepth : Int) (lvl : Nat)
    (n : ServiceTreeNode) : Prop :=
  n.Children = [] ∧ n.ChildCount = 0 ∧ n.IsLeaf = false ∧ n.Level + 1 = lvl ∧
  n.TypeName = typeDisplayName id2Type n.Type_ ∧
  0 ≤ n.Level ∧ n.Level < topoLen ∧ (maxDepth > 0 → n.Level < maxDepth)

/-- The result of the end-to-end scenario under the default crawler. -/
def scenarioData : ServiceTreeData :=
  match (CrawlServiceTree sampleLib sampleCrawler scenarioServer "view" 1
      (mkView [[1], [2], [3]]) [("2", ⟨2, "app", "Application", "", ""⟩)] []).1 with
  | some (Except.ok data) => data
  | _ => mkData []

/-- The statistics phase of `CrawlServiceTree`: the roots, the error that is
only logged, and the requests sent so far. -/
def statsPhase (lib : Lib) (c : ServiceTreeCrawler) (srv : Server)
    (rootNodes : List ServiceTreeNode) (viewConfig : ServiceTreeView)
    (log : List Request) : List ServiceTreeNode × Option String × List Request :=
  if c.includeStats = true ∧ viewConfig.Leaf.length > 0 then
    loadRootNodeStatistics lib c srv rootNodes viewConfig log
  else
    (rootNodes, none, log)

/-- The request that `crawlNodeChildren` hands to the transport for `node` at
`currentLevel`, when it searches at all. -/
def relatedRequest (lib : Lib) (c : ServiceTreeCrawler) (node : ServiceTreeNode)
    (viewConfig : ServiceTreeView) (currentLevel : Nat) : Request :=
  ⟨buildURL c.client "ci_relations/s",
    addAPIAuth lib c.client (getURLPath lib (buildURL c.client "ci_relations/s"))
      (convertParams lib (crawlNodeChildren.params c node viewConfig currentLevel))⟩

/-- The request of the root search of `CrawlServiceTree`. -/
def rootRequest (lib : Lib) (c : ServiceTreeCrawler) (viewConfig : ServiceTreeView) :
    Request :=
  ⟨buildURL c.client "ci/s",
    addAPIAuth lib c.client (getURLPath lib (buildURL c.client "ci/s"))
      [("q", BuildCITypeQuery (viewConfig.Topo.getD 0 [])), ("count", itoa c.pageSize)]⟩

/-- The view of the scenario with type 3 declared a leaf type. -/
def leafView : ServiceTreeView :=
  { mkView [[1], [2], [3]] with Leaf := [3] }

/-- The scenario server with a view listing: one view, named `app`, id 7. -/
def listingServer : Server :=
  { scenarioServer with
    views := fun _ _ =>
      Except.ok ⟨200, "ok",
        ⟨[("app", leafView)], [], [[Any.str "app", Any.float64 7]]⟩⟩ }

mutual
/-- The check of `validateNodeStructure` on levels: the node sits at level
`lvl` and each child tree sits one level deeper. -/
def LevelsFrom : ServiceTreeNode → Int → Prop
  | ServiceTreeNode.mk _ _ _ _ _ level children _ _ _ _, lvl =>
    level = lvl ∧ LevelsFromList children (lvl + 1)
/-- Every tree of the list sits at level `lvl`. -/
def LevelsFromList : List ServiceTreeNode → Int → Prop
  | [], _ => True
  | c :: cs, lvl => LevelsFrom c lvl ∧ LevelsFromList cs lvl
end

/-- The descent at `lvl` gets as far as the related search: no stop condition
of `crawlNodeChildren` holds. -/
def Searches (c : ServiceTreeCrawler) (viewConfig : ServiceTreeView) (lvl : Nat) : Prop :=
  ¬ (c.maxDepth > 0 ∧ (lvl : Int) ≥ c.maxDepth) ∧ lvl < viewConfig.Topo.length ∧
  viewConfig.Topo.getD lvl [] ≠ []

/-- A descent in a tree: each node of the list is a child of the node before
it, the first one a child of `parent`. -/
def IsDescent : ServiceTreeNode → List ServiceTreeNode → Prop
  | _, [] => True
  | parent, k :: rest => k ∈ parent.Children ∧ IsDescent k rest

/-- What `AddChild` leaves at a node: the path of each child is the full path
of the node. -/
def ChildPathsOK (n : ServiceTreeNode) : Prop :=
  ∀ k ∈ n.Children, k.Path = BuildTreePath n

/-- The type ids of all topology levels strictly deeper than `lvl`, in depth
order. -/
def deeperTypeIDs (topo : List (List Int)) (lvl : Nat) : List Int :=
  (topo.drop (lvl + 1)).flatten

/-- A crawler with page size 50 and no depth limit. -/
def page50Crawler : ServiceTreeCrawler := ⟨sampleClient, -1, 50, 10, true, 100000000⟩

/-- The request that `loadRootNodeStatistics` hands to the transport for the
roots `rootNodes`. -/
def statisticsRequest (lib : Lib) (c : ServiceTreeCrawler)
    (rootNodes : List ServiceTreeNode) (viewConfig : ServiceTreeView) : Request :=
  ⟨buildURL c.client "ci_relations/statistics",
    addAPIAuth lib c.client (getURLPath lib (buildURL c.client "ci_relations/statistics"))
      (convertParams lib
        [("root_ids", Any.str (stringsJoin (rootNodes.map (fun node => itoa node.ID)) ",")),
         ("level", Any.int (viewConfig.TopoFlatten.length : Int)),
         ("type_ids", Any.ints viewConfig.Leaf),
         ("has_m2m", Any.int 0)])⟩

/-- The requests sent go from `log` to `log2` by related searches of the crawl
only. -/
def RelatedOnly (lib : Lib) (c : ServiceTreeCrawler) (viewConfig : ServiceTreeView)
    (log log2 : List Request) : Prop :=
  ∃ rest, log2 = log ++ rest ∧
    ∀ q ∈ rest, ∃ node lvl, q = relatedRequest lib c node viewConfig lvl

/-- The scenario server with the statistics endpoint up: 4 descendants for
root 10, no entry for root 11. -/
def statsServer : Server :=
  { scenarioServer with
    statistics := fun _ _ =>
      Except.ok ⟨200, "ok", ⟨some [("10", Any.float64 4)], none⟩⟩ }

/-- A value of the 64-bit Go type `int`. -/
def IsGoInt (n : Int) : Prop := -9223372036854775808 ≤ n ∧ n ≤ 9223372036854775807

/-- The default crawler after `SetMaxWorkers(0)`. -/
def idleCrawler : ServiceTreeCrawler := ⟨sampleClient, -1, 1000, 0, true, 100000000⟩

/-! ## Theorems -/

theorem string_append_ne_empty_left (a b : String) (h : a ≠ "") : a ++ b ≠ "" := by
  intro hab
  apply h
  have hl := congrArg String.length hab
  simp only [String.length_append] at hl
  have h0 : a.length = 0 := by
    have : ("" : String).length = 0 := rfl
    omega
  exact String.ext (List.length_eq_zero.mp h0)

/-- C1: `BuildCITypeQuery S` is the empty string exactly when `S` is empty,
and for a non-empty `S` it is `_type:(` followed by the decimal ids joined by
`;` in input order followed by `)`; `[73,74,75]` gives `_type:(73;74;75)`. -/
theorem C1_buildCITypeQuery (S : List Int) :
    (BuildCITypeQuery S = "" ↔ S = []) ∧
    (S ≠ [] →
      BuildCITypeQuery S = "_type:(" ++ String.intercalate ";" (S.map itoa) ++ ")") ∧
    BuildCITypeQuery [73, 74, 75] = "_type:(73;74;75)" := by
  refine ⟨?_, ?_, by decide⟩
  · constructor
    · intro h
      by_contra hne
      have hlen : S.length ≠ 0 := fun h0 => hne (List.length_eq_zero.mp h0)
      simp only [BuildCITypeQuery, hlen, if_false] at h
      rw [String.append_assoc] at h
      exact string_append_ne_empty_left _ _ (by decide) h
    · rintro rfl
      rfl
  · intro hne
    have hlen : S.length ≠ 0 := fun h0 => hne (List.length_eq_zero.mp h0)
    simp [BuildCITypeQuery, hlen, stringsJoin]


theorem C1_buildCITypeQuery_witness :
    BuildCITypeQuery [39, 40] = "_type:(39;40)" :=
  ((C1_buildCITypeQuery [39, 40]).2.1 (by decide)).trans (by decide)

/-! ### Strings, sorting and maps -/

theorem intercalate_go_empty (l : List String) (acc : String) :
    String.intercalate.go acc "" l = acc ++ String.join l := by
  induction l generalizing acc with
  | nil =>
    apply String.ext
    simp [String.intercalate.go, String.join_eq]
  | cons a as ih =>
    rw [String.intercalate.go, ih]
    apply String.ext
    simp [String.join_eq]

theorem stringsJoin_empty (l : List String) : stringsJoin l "" = String.join l := by
  cases l with
  | nil => rfl
  | cons a as =>
    show String.intercalate.go a "" as = _
    rw [intercalate_go_empty]
    apply String.ext
    simp [String.join_eq]

theorem stringLE_iff (a b : String) : stringLE a b ↔ a ≤ b :=
  String.le_iff_toList_le.symm

theorem stringLE_total (a b : String) : stringLE a b ∨ stringLE b a := by
  simp only [stringLE_iff]
  exact le_total a b

theorem stringLE_trans (a b c : String) (h1 : stringLE a b) (h2 : stringLE b c) :
    stringLE a c := by
  simp only [stringLE_iff] at *
  exact le_trans h1 h2

theorem stringLE_antisymm (a b : String) (h1 : stringLE a b) (h2 : stringLE b a) :
    a = b := by
  simp only [stringLE_iff] at *
  exact le_antisymm h1 h2

theorem sortStrings_sorted (l : List String) : (sortStrings l).Sorted stringLE := by
  haveI : IsTotal String stringLE := ⟨stringLE_total⟩
  haveI : IsTrans String stringLE := ⟨stringLE_trans⟩
  exact List.sorted_insertionSort stringLE l

theorem sortStrings_perm (l : List String) : (sortStrings l).Perm l :=
  List.perm_insertionSort stringLE l

theorem sortStrings_unique (l ks : List String) (hperm : ks.Perm l)
    (hsorted : ks.Sorted stringLE) : sortStrings l = ks := by
  haveI : IsAntisymm String stringLE := ⟨stringLE_antisymm⟩
  exact List.eq_of_perm_of_sorted ((sortStrings_perm l).trans hperm.symm)
    (sortStrings_sorted l) hsorted

theorem sorted_le_iff_stringLE (ks : List String) :
    ks.Sorted (fun a b => a ≤ b) ↔ ks.Sorted stringLE := by
  unfold List.Sorted
  constructor
  · exact List.Pairwise.imp (fun h => (stringLE_iff _ _).mpr h)
  · exact List.Pairwise.imp (fun h => (stringLE_iff _ _).mp h)

theorem hexDigit_mem (n : Nat) (h : n < 16) :
    "0123456789abcdef".toList.getD n '0' ∈ "0123456789abcdef".toList := by
  interval_cases n <;> decide

theorem sprintfHex_chars (bytes : List (Fin 256)) :
    ∀ ch ∈ (sprintfHex bytes).toList, ch ∈ "0123456789abcdef".toList := by
  intro ch hch
  simp only [sprintfHex, String.toList, List.mem_flatMap] at hch
  obtain ⟨b, _, hb⟩ := hch
  simp only [hexByte, List.mem_cons, List.mem_singleton, List.not_mem_nil, or_false] at hb
  rcases hb with rfl | rfl
  · exact hexDigit_mem _ (by omega)
  · exact hexDigit_mem _ (by omega)

theorem sprintfHex_length (bytes : List (Fin 256)) :
    (sprintfHex bytes).length = 2 * bytes.length := by
  simp only [sprintfHex, String.length]
  induction bytes with
  | nil => rfl
  | cons b bs ih =>
    simp only [List.flatMap_cons, List.length_append, ih, List.length_cons]
    simp [hexByte]
    omega

/-- C2: `buildSignature` is the lowercase hexadecimal rendering of the SHA-1
digest of `path ++ secret ++ v1 ++ ... ++ vn`, where `v1..vn` are the values
of the parameters named neither `_key` nor `_secret`, taken in ascending
order of their names and concatenated without separator. Whatever list `ks`
is an ascending arrangement of those names, the signing string is built from
it; the rendering uses two digits of `0123456789abcdef` per digest byte. -/
theorem C2_buildSignature (lib : Lib) (c : CMDBClient) (path : String)
    (params : GoMap String) (ks : List String)
    (hperm : ks.Perm ((mapKeys params).filter
      (fun k => decide (k ≠ "_key" ∧ k ≠ "_secret"))))
    (hsorted : ks.Sorted (fun a b => a ≤ b)) :
    buildSignature lib c path params =
      sprintfHex (lib.sha1Sum
        (path ++ c.apiSecret ++ String.join (ks.map (fun k => mapGet params k)))) ∧
    (∀ ch ∈ (buildSignature lib c path params).toList,
      ch ∈ "0123456789abcdef".toList) ∧
    (buildSignature lib c path params).length =
      2 * (lib.sha1Sum
        (path ++ c.apiSecret ++ String.join (ks.map (fun k => mapGet params k)))).length := by
  have hfilter : (mapKeys params).filter (fun k => k != "_key" && k != "_secret") =
      (mapKeys params).filter (fun k => decide (k ≠ "_key" ∧ k ≠ "_secret")) := by
    congr 1
    funext k
    by_cases h1 : k = "_key" <;> by_cases h2 : k = "_secret" <;> simp [h1, h2]
  have hkeys : sortStrings ((mapKeys params).filter (fun k => k != "_key" && k != "_secret"))
      = ks := by
    rw [hfilter]
    exact sortStrings_unique _ ks hperm ((sorted_le_iff_stringLE ks).mp hsorted)
  have hsign : buildSignature.signStr c path params =
      path ++ c.apiSecret ++ String.join (ks.map (fun k => mapGet params k)) := by
    simp only [buildSignature.signStr, hkeys, stringsJoin_empty]
  refine ⟨?_, ?_, ?_⟩
  · simp only [buildSignature, hsign]
  · exact sprintfHex_chars _
  · simp only [buildSignature, hsign, sprintfHex_length]

theorem C2_buildSignature_witness :
    buildSignature sampleLib sampleClient "/api/v0.1/ci/s"
        (sampleParams ++ [("_key", "k1"), ("_secret", "old")]) =
      sprintfHex (sampleLib.sha1Sum ("/api/v0.1/ci/s" ++ "s3cret" ++ "10" ++ "_type:(1)")) :=
  (C2_buildSignature sampleLib sampleClient "/api/v0.1/ci/s"
    (sampleParams ++ [("_key", "k1"), ("_secret", "old")]) ["count", "q"]
    (by decide)
    (by simp [String.le_iff_toList_le]; decide)).1.trans (by decide)


theorem mapLookup_eq_some_iff {β : Type} (m : GoMap β) (k : String) (v : β)
    (hwf : MapWF m) : mapLookup m k = some v ↔ (k, v) ∈ m := by
  induction m with
  | nil => simp [mapLookup]
  | cons kv rest ih =>
    obtain ⟨k1, v1⟩ := kv
    have hnd : k1 ∉ mapKeys rest ∧ MapWF rest := by
      simpa [MapWF, mapKeys] using hwf
    by_cases hk : k1 = k
    · subst hk
      simp only [mapLookup, if_true, List.mem_cons, Prod.mk.injEq, true_and, Option.some.injEq]
      constructor
      · intro h
        exact Or.inl h.symm
      · rintro (h | h)
        · exact h.symm
        · exact absurd (List.mem_map_of_mem Prod.fst h) hnd.1
    · simp only [mapLookup, hk, if_false, List.mem_cons, Prod.mk.injEq]
      rw [ih hnd.2]
      constructor
      · exact Or.inr
      · rintro (h | h)
        · exact absurd h.1.symm hk
        · exact h

theorem mapLookup_perm {β : Type} (m1 m2 : GoMap β) (k : String)
    (hwf : MapWF m1) (hperm : m1.Perm m2) : mapLookup m1 k = mapLookup m2 k := by
  have hwf2 : MapWF m2 := (hperm.map Prod.fst).nodup_iff.mp hwf
  apply Option.ext
  intro v
  simp only [Option.mem_def]
  rw [mapLookup_eq_some_iff m1 k v hwf, mapLookup_eq_some_iff m2 k v hwf2]
  exact hperm.mem_iff

theorem signStr_congr (c1 c2 : CMDBClient) (path : String) (m1 m2 : GoMap String)
    (hsecret : c1.apiSecret = c2.apiSecret)
    (hkeys : ((mapKeys m1).filter (fun k => k != "_key" && k != "_secret")).Perm
      ((mapKeys m2).filter (fun k => k != "_key" && k != "_secret")))
    (hvals : ∀ k, k ≠ "_key" → k ≠ "_secret" → mapLookup m1 k = mapLookup m2 k) :
    buildSignature.signStr c1 path m1 = buildSignature.signStr c2 path m2 := by
  have hsort : sortStrings ((mapKeys m1).filter (fun k => k != "_key" && k != "_secret")) =
      sortStrings ((mapKeys m2).filter (fun k => k != "_key" && k != "_secret")) :=
    sortStrings_unique _ _ ((sortStrings_perm _).trans hkeys.symm) (sortStrings_sorted _)
  simp only [buildSignature.signStr, hsort, hsecret]
  congr 2
  apply List.map_congr_left
  intro k hk
  have hmem := (sortStrings_perm _).mem_iff.mp hk
  have hres : k ≠ "_key" ∧ k ≠ "_secret" := by
    simpa using (List.mem_filter.mp hmem).2
  simp only [mapGet, hvals k hres.1 hres.2]

/-- C3: the signature does not depend on the iteration order of the
parameter map: for two listings of the same name/value pairs with distinct
names (one a permutation of the other), under the same path and the same
secret, the signing strings are equal and so are the signatures. -/
theorem C3_signature_order_invariant (lib : Lib) (c1 c2 : CMDBClient) (path : String)
    (p1 p2 : GoMap String) (hsecret : c1.apiSecret = c2.apiSecret)
    (hwf : MapWF p1) (hperm : p1.Perm p2) :
    buildSignature.signStr c1 path p1 = buildSignature.signStr c2 path p2 ∧
    buildSignature lib c1 path p1 = buildSignature lib c2 path p2 := by
  have hsign : buildSignature.signStr c1 path p1 = buildSignature.signStr c2 path p2 :=
    signStr_congr c1 c2 path p1 p2 hsecret ((hperm.map Prod.fst).filter _)
      (fun k _ _ => mapLookup_perm p1 p2 k hwf hperm)
  exact ⟨hsign, by simp only [buildSignature, hsign]⟩

theorem C3_signature_order_invariant_witness :
    buildSignature sampleLib sampleClient "/api/v0.1/ci/s" sampleParams =
    buildSignature sampleLib sampleClient "/api/v0.1/ci/s" sampleParamsSwapped :=
  (C3_signature_order_invariant sampleLib sampleClient sampleClient "/api/v0.1/ci/s"
    sampleParams sampleParamsSwapped rfl (by decide) (List.Perm.swap _ _ _)).2

theorem mapLookup_mapSet_self {β : Type} (m : GoMap β) (k : String) (v : β) :
    mapLookup (mapSet m k v) k = some v := by
  induction m with
  | nil => simp [mapSet, mapLookup]
  | cons kv rest ih =>
    obtain ⟨k1, v1⟩ := kv
    by_cases hk : k1 = k
    · simp [mapSet, mapLookup, hk]
    · simp [mapSet, mapLookup, hk, ih]

theorem mapLookup_mapSet_ne {β : Type} (m : GoMap β) (k k2 : String) (v : β)
    (hne : k2 ≠ k) : mapLookup (mapSet m k v) k2 = mapLookup m k2 := by
  induction m with
  | nil => simp [mapSet, mapLookup, Ne.symm hne]
  | cons kv rest ih =>
    obtain ⟨k1, v1⟩ := kv
    by_cases hk : k1 = k
    · subst hk
      simp [mapSet, mapLookup, Ne.symm hne]
    · by_cases hk2 : k1 = k2
      · subst hk2
        simp [mapSet, mapLookup, hk]
      · simp [mapSet, mapLookup, hk, hk2, ih]

theorem mapKeys_mapSet {β : Type} (m : GoMap β) (k : String) (v : β) :
    mapKeys (mapSet m k v) = if k ∈ mapKeys m then mapKeys m else mapKeys m ++ [k] := by
  induction m with
  | nil => simp [mapSet, mapKeys]
  | cons kv rest ih =>
    obtain ⟨k1, v1⟩ := kv
    by_cases hk : k1 = k
    · subst hk
      simp [mapSet, mapKeys]
    · have hk2 : ¬ k = k1 := fun h => hk h.symm
      simp only [mapKeys] at ih
      by_cases hmem : k ∈ List.map Prod.fst rest
      · simp [mapSet, mapKeys, hk, hk2, ih, hmem]
      · simp [mapSet, mapKeys, hk, hk2, ih, hmem]

theorem mapSet_wf {β : Type} (m : GoMap β) (k : String) (v : β) (hwf : MapWF m) :
    MapWF (mapSet m k v) := by
  unfold MapWF at *
  rw [mapKeys_mapSet]
  by_cases hmem : k ∈ mapKeys m
  · simpa [hmem] using hwf
  · simp only [hmem, if_false]
    exact List.Nodup.append hwf (List.nodup_singleton k) (by simpa using hmem)

theorem filter_mapKeys_mapSet {β : Type} (m : GoMap β) (k : String) (v : β)
    (f : String → Bool) (hf : f k = false) :
    (mapKeys (mapSet m k v)).filter f = (mapKeys m).filter f := by
  rw [mapKeys_mapSet]
  by_cases hmem : k ∈ mapKeys m
  · simp [hmem]
  · simp [hmem, hf]

theorem mapKeys_signedParams (params : GoMap String) :
    (mapKeys (signedParams params)).filter (fun k => k != "_key" && k != "_secret") =
    (mapKeys params).filter (fun k => k != "_key" && k != "_secret") := by
  induction params with
  | nil => rfl
  | cons kv rest ih =>
    obtain ⟨k1, v1⟩ := kv
    simp only [signedParams, mapKeys] at ih ⊢
    by_cases hr : k1 ≠ "_key" ∧ k1 ≠ "_secret"
    · have hd : decide (k1 ≠ "_key" ∧ k1 ≠ "_secret") = true := decide_eq_true hr
      have hb : (k1 != "_key" && k1 != "_secret") = true := by simp [hr.1, hr.2]
      simp only [List.filter_cons, hd, if_true, List.map_cons, hb, ih]
    · have hd : decide (k1 ≠ "_key" ∧ k1 ≠ "_secret") = false := decide_eq_false hr
      have hb : (k1 != "_key" && k1 != "_secret") = false := by
        by_cases h1 : k1 = "_key"
        · simp [h1]
        · by_cases h2 : k1 = "_secret"
          · simp [h2]
          · exact absurd ⟨h1, h2⟩ hr
      simp only [List.filter_cons, hd, List.map_cons, hb]
      exact ih

theorem mapLookup_signedParams (params : GoMap String) (k : String)
    (h1 : k ≠ "_key") (h2 : k ≠ "_secret") :
    mapLookup (signedParams params) k = mapLookup params k := by
  induction params with
  | nil => rfl
  | cons kv rest ih =>
    obtain ⟨k1, v1⟩ := kv
    simp only [signedParams] at ih ⊢
    by_cases hr : k1 ≠ "_key" ∧ k1 ≠ "_secret"
    · have hd : decide (k1 ≠ "_key" ∧ k1 ≠ "_secret") = true := decide_eq_true hr
      simp only [List.filter_cons, hd, if_true, mapLookup, ih]
    · have hd : decide (k1 ≠ "_key" ∧ k1 ≠ "_secret") = false := decide_eq_false hr
      have hk : k1 ≠ k := by
        rintro rfl
        exact hr ⟨h1, h2⟩
      simp only [List.filter_cons, hd, mapLookup, hk, if_false]
      exact ih

/-- C4: with a non-empty key and a non-empty secret, `addAPIAuth` returns a
map in which `_key` is the client key, `_secret` is the signature computed
over the parameters with every `_key`/`_secret` entry removed, and every
other parameter keeps its value (present or absent as before); a well-formed
map stays well-formed. -/
theorem C4_addAPIAuth (lib : Lib) (c : CMDBClient) (path : String) (p : GoMap String)
    (hkey : c.apiKey ≠ "") (hsecret : c.apiSecret ≠ "") :
    mapLookup (addAPIAuth lib c path p) "_key" = some c.apiKey ∧
    mapLookup (addAPIAuth lib c path p) "_secret" =
      some (buildSignature lib c path (signedParams p)) ∧
    (∀ k, k ≠ "_key" → k ≠ "_secret" →
      mapLookup (addAPIAuth lib c path p) k = mapLookup p k) ∧
    (MapWF p → MapWF (addAPIAuth lib c path p)) := by
  have hcond : ¬ (c.apiKey = "" ∨ c.apiSecret = "") := by
    rintro (h | h)
    · exact hkey h
    · exact hsecret h
  have hsig : buildSignature lib c path (mapSet p "_key" c.apiKey) =
      buildSignature lib c path (signedParams p) := by
    have hs : buildSignature.signStr c path (mapSet p "_key" c.apiKey) =
        buildSignature.signStr c path (signedParams p) := by
      apply signStr_congr c c path _ _ rfl
      · rw [filter_mapKeys_mapSet p "_key" c.apiKey _ (by decide), mapKeys_signedParams]
      · intro k h1 h2
        rw [mapLookup_mapSet_ne p "_key" k c.apiKey h1, mapLookup_signedParams p k h1 h2]
    simp only [buildSignature, hs]
  simp only [addAPIAuth, hcond, if_false]
  refine ⟨?_, ?_, ?_, ?_⟩
  · rw [mapLookup_mapSet_ne _ "_secret" "_key" _ (by decide), mapLookup_mapSet_self]
  · rw [mapLookup_mapSet_self, hsig]
  · intro k h1 h2
    rw [mapLookup_mapSet_ne _ "_secret" k _ h2, mapLookup_mapSet_ne _ "_key" k _ h1]
  · intro hwf
    exact mapSet_wf _ _ _ (mapSet_wf _ _ _ hwf)

theorem C4_addAPIAuth_witness :
    addAPIAuth sampleLib sampleClient "/api/v0.1/ci/s" sampleParams =
      [("q", "_type:(1)"), ("count", "10"), ("_key", "k1"), ("_secret", "1f")] ∧
    mapLookup (addAPIAuth sampleLib sampleClient "/api/v0.1/ci/s" sampleParams) "_secret" =
      some (buildSignature sampleLib sampleClient "/api/v0.1/ci/s" (signedParams sampleParams)) :=
  ⟨by decide,
   (C4_addAPIAuth sampleLib sampleClient "/api/v0.1/ci/s" sampleParams
     (by decide) (by decide)).2.1⟩


/-! ### Client operations -/

theorem doGet_requests {α : Type} (tr : Transport α) (what fullURL : String)
    (params : GoMap String) :
    (doGet tr what fullURL params).requests = [⟨fullURL, params⟩] := by
  unfold doGet
  split
  · rfl
  · split <;> rfl

theorem doGet_result {α : Type} (tr : Transport α) (what fullURL : String)
    (params : GoMap String) (resp : Response α)
    (hresp : tr ⟨fullURL, params⟩ = Except.ok resp) :
    (resp.StatusCode ≠ 200 → (doGet tr what fullURL params).result =
      Except.error ("API returned status " ++ itoa resp.StatusCode ++ ": " ++ resp.Body)) ∧
    (resp.StatusCode = 200 → (doGet tr what fullURL params).result =
      Except.ok resp.Result) := by
  unfold doGet
  rw [hresp]
  constructor
  · intro h
    simp [h]
  · intro h
    simp [h]

theorem addAPIAuth_bare (lib : Lib) (c : CMDBClient) (path : String) (p : GoMap String)
    (hcred : c.apiKey = "" ∨ c.apiSecret = "") : addAPIAuth lib c path p = p := by
  simp [addAPIAuth, hcred]

/-- C5 (refuted as stated): a client with empty key and secret searching for
root instances still hands one request to the transport and, the transport
answering 200, returns the decoded response and no error. -/
theorem C5_counterexample :
    (bareClient.apiKey = "" ∨ bareClient.apiSecret = "") ∧
    (SearchCI sampleLib bareClient okSearchTransport "_type:(1)" 10 false).requests.length = 1 ∧
    (SearchCI sampleLib bareClient okSearchTransport "_type:(1)" 10 false).result.toBool
      = true := by
  refine ⟨by decide, by decide, by decide⟩

/-- C5 (amended): when the key or the secret of the client is empty, each of
the four operations still hands exactly one request to the transport; that
request carries the parameters of the caller with no `_key` and no `_secret`
added, and the operation returns what the transport outcome and the status
code decide, as `doGet` computes it. -/
theorem C5_missing_credentials (lib : Lib) (c : CMDBClient)
    (hcred : c.apiKey = "" ∨ c.apiSecret = "") :
    (∀ tr, GetRelationViews lib c tr =
        doGet tr "get relation views" (buildURL c "preference/relation/view") [] ∧
      (GetRelationViews lib c tr).requests =
        [⟨buildURL c "preference/relation/view", []⟩]) ∧
    (∀ tr query count useIDFilter,
      SearchCI lib c tr query count useIDFilter =
        doGet tr "search CI instances" (buildURL c "ci/s")
          (if useIDFilter then [("q", query), ("count", itoa count), ("use_id_filter", "1")]
           else [("q", query), ("count", itoa count)]) ∧
      (SearchCI lib c tr query count useIDFilter).requests =
        [⟨buildURL c "ci/s",
          if useIDFilter then [("q", query), ("count", itoa count), ("use_id_filter", "1")]
          else [("q", query), ("count", itoa count)]⟩]) ∧
    (∀ tr queryParams,
      SearchCIRelation lib c tr queryParams =
        doGet tr "search CI relations" (buildURL c "ci_relations/s")
          (convertParams lib queryParams) ∧
      (SearchCIRelation lib c tr queryParams).requests =
        [⟨buildURL c "ci_relations/s", convertParams lib queryParams⟩]) ∧
    (∀ tr queryParams,
      GetCIRelationStatistics lib c tr queryParams =
        doGet tr "get CI relation statistics" (buildURL c "ci_relations/statistics")
          (convertParams lib queryParams) ∧
      (GetCIRelationStatistics lib c tr queryParams).requests =
        [⟨buildURL c "ci_relations/statistics", convertParams lib queryParams⟩]) := by
  refine ⟨?_, ?_, ?_, ?_⟩
  · intro tr
    have h : GetRelationViews lib c tr =
        doGet tr "get relation views" (buildURL c "preference/relation/view") [] := by
      simp only [GetRelationViews, addAPIAuth_bare lib c _ _ hcred]
    exact ⟨h, by rw [h, doGet_requests]⟩
  · intro tr query count useIDFilter
    have h : SearchCI lib c tr query count useIDFilter =
        doGet tr "search CI instances" (buildURL c "ci/s")
          (if useIDFilter then [("q", query), ("count", itoa count), ("use_id_filter", "1")]
           else [("q", query), ("count", itoa count)]) := by
      simp only [SearchCI, addAPIAuth_bare lib c _ _ hcred]
      cases useIDFilter
      · rfl
      · have hq : ¬ ("q" : String) = "use_id_filter" := by decide
        have hc : ¬ ("count" : String) = "use_id_filter" := by decide
        simp [mapSet, hq, hc]
    exact ⟨h, by rw [h, doGet_requests]⟩
  · intro tr queryParams
    have h : SearchCIRelation lib c tr queryParams =
        doGet tr "search CI relations" (buildURL c "ci_relations/s")
          (convertParams lib queryParams) := by
      simp only [SearchCIRelation, addAPIAuth_bare lib c _ _ hcred]
    exact ⟨h, by rw [h, doGet_requests]⟩
  · intro tr queryParams
    have h : GetCIRelationStatistics lib c tr queryParams =
        doGet tr "get CI relation statistics" (buildURL c "ci_relations/statistics")
          (convertParams lib queryParams) := by
      simp only [GetCIRelationStatistics, addAPIAuth_bare lib c _ _ hcred]
    exact ⟨h, by rw [h, doGet_requests]⟩

theorem C5_missing_credentials_witness :
    (SearchCI sampleLib bareClient okSearchTransport "_type:(1)" 10 true).requests =
      [⟨"http://cmdb/api/v0.1/ci/s",
        [("q", "_type:(1)"), ("count", "10"), ("use_id_filter", "1")]⟩] :=
  ((C5_missing_credentials sampleLib bareClient (Or.inl rfl)).2.1
    okSearchTransport "_type:(1)" 10 true).2


theorem doGet_statusRule {α : Type} (tr : Transport α) (what fullURL : String)
    (params : GoMap String) (req : Request) (resp : Response α)
    (hreq : req ∈ (doGet tr what fullURL params).requests)
    (hresp : tr req = Except.ok resp) :
    StatusRule resp (doGet tr what fullURL params).result := by
  rw [doGet_requests, List.mem_singleton] at hreq
  subst hreq
  exact doGet_result tr what fullURL params resp hresp

/-- C6 (refuted as stated): status 201 lies within 200..299, yet a root search
answered with 201 returns the status error and not the decoded response; the
helper `ValidateResponse`, which no operation calls, accepts the same
response. -/
theorem C6_counterexample :
    ((200 : Int) ≤ 201 ∧ (201 : Int) < 300) ∧
    (SearchCI sampleLib sampleClient createdSearchTransport "_type:(1)" 10 false).result.toBool
      = false ∧
    (SearchCI sampleLib sampleClient createdSearchTransport "_type:(1)" 10 false).result
      = Except.error "API returned status 201: created" ∧
    ValidateResponse (⟨201, "created", ⟨[], 0, 0, 0⟩⟩ : Response CISearchResponse) = none := by
  refine ⟨by decide, by decide, rfl, by decide⟩

/-- C6 (amended): for each of the four operations, when the transport
delivers a response to the request the operation issued, the operation
returns an error carrying the status code and the raw body for every status
other than 200 (so for every non-2xx status, and for 201..299 as well), and
returns the decoded response without error exactly at status 200. -/
theorem C6_status_handling (lib : Lib) (c : CMDBClient) :
    (∀ tr req resp, req ∈ (GetRelationViews lib c tr).requests → tr req = Except.ok resp →
      StatusRule resp (GetRelationViews lib c tr).result) ∧
    (∀ tr query count useIDFilter req resp,
      req ∈ (SearchCI lib c tr query count useIDFilter).requests → tr req = Except.ok resp →
      StatusRule resp (SearchCI lib c tr query count useIDFilter).result) ∧
    (∀ tr queryParams req resp,
      req ∈ (SearchCIRelation lib c tr queryParams).requests → tr req = Except.ok resp →
      StatusRule resp (SearchCIRelation lib c tr queryParams).result) ∧
    (∀ tr queryParams req resp,
      req ∈ (GetCIRelationStatistics lib c tr queryParams).requests →
      tr req = Except.ok resp →
      StatusRule resp (GetCIRelationStatistics lib c tr queryParams).result) := by
  refine ⟨?_, ?_, ?_, ?_⟩
  · intro tr req resp hreq hresp
    exact doGet_statusRule tr _ _ _ req resp hreq hresp
  · intro tr query count useIDFilter req resp hreq hresp
    exact doGet_statusRule tr _ _ _ req resp hreq hresp
  · intro tr queryParams req resp hreq hresp
    exact doGet_statusRule tr _ _ _ req resp hreq hresp
  · intro tr queryParams req resp hreq hresp
    exact doGet_statusRule tr _ _ _ req resp hreq hresp

theorem C6_status_handling_witness :
    (SearchCI sampleLib sampleClient okSearchTransport "_type:(1)" 10 false).result =
      Except.ok ⟨[], 0, 0, 0⟩ ∧
    (SearchCI sampleLib sampleClient createdSearchTransport "_type:(1)" 10 false).result =
      Except.error ("API returned status " ++ itoa 201 ++ ": " ++ "created") :=
  ⟨((C6_status_handling sampleLib sampleClient).2.1 okSearchTransport "_type:(1)" 10 false
      ⟨"http://cmdb/api/v0.1/ci/s",
        [("q", "_type:(1)"), ("count", "10"), ("_key", "k1"), ("_secret", "2a")]⟩
      ⟨200, "ok", ⟨[], 0, 0, 0⟩⟩ (List.mem_singleton.mpr rfl) rfl).2 rfl,
   ((C6_status_handling sampleLib sampleClient).2.1 createdSearchTransport "_type:(1)" 10 false
      ⟨"http://cmdb/api/v0.1/ci/s",
        [("q", "_type:(1)"), ("count", "10"), ("_key", "k1"), ("_secret", "2a")]⟩
      ⟨201, "created", ⟨[], 0, 0, 0⟩⟩ (List.mem_singleton.mpr rfl) rfl).1 (by decide)⟩


/-! ### Node assembler -/

/-- C7: after `AddChild`, the level of the child is the level of the parent
plus one, whatever it was before, and the child list of the parent is its
former child list with the child appended as last element; the appended node
is the child itself, changed in `Path` and `Level` only. -/
theorem C7_addChild_level (parent child : ServiceTreeNode) :
    (AddChild parent child).2.Level = parent.Level + 1 ∧
    (AddChild parent child).1.Children = parent.Children ++ [(AddChild parent child).2] ∧
    (AddChild parent child).1.Children.getLast? = some (AddChild parent child).2 ∧
    (AddChild parent child).1.Children.length = parent.Children.length + 1 ∧
    (AddChild parent child).2 =
      { child with Path := (AddChild parent child).2.Path, Level := parent.Level + 1 } ∧
    (AddChild parent child).1 =
      { parent with Children := (AddChild parent child).1.Children } := by
  refine ⟨rfl, rfl, ?_, ?_, rfl, rfl⟩
  · simp [AddChild]
  · simp [AddChild]

/-- C8 (refuted as stated): attaching a child named `B` to a parent named `A`
with empty path leaves the child with path `A`, not `A > B`. -/
theorem C8_counterexample :
    (mkNode 1 "A" []).Path = "" ∧
    (AddChild (mkNode 1 "A" []) (mkNode 2 "B" [])).2.Path = "A" ∧
    (AddChild (mkNode 1 "A" []) (mkNode 2 "B" [])).2.Path ≠
      (mkNode 1 "A" []).Name ++ " > " ++ (mkNode 2 "B" []).Name := by
  refine ⟨by decide, by decide, by decide⟩

/-- C8 (amended): after `AddChild`, the path of the child is the full path of
the parent: the name of the parent if the path of the parent is empty,
otherwise the path of the parent followed by ` > ` and the name of the
parent. The name of the child is not part of it. -/
theorem C8_addChild_path (parent child : ServiceTreeNode) :
    (AddChild parent child).2.Path = BuildTreePath parent ∧
    (AddChild parent child).2.Path =
      (if parent.Path = "" then parent.Name else parent.Path ++ " > " ++ parent.Name) ∧
    (AddChild parent child).2.Name = child.Name :=
  ⟨rfl, rfl, rfl⟩

mutual
theorem descendants_length : ∀ (node : ServiceTreeNode),
    (GetAllDescendants node).length + 1 = nodeCount node
  | ServiceTreeNode.mk _ _ _ _ _ _ children _ _ _ _ => by
    rw [GetAllDescendants, nodeCount, descendants_loop_length children []]
    simp
    omega
theorem descendants_loop_length : ∀ (children acc : List ServiceTreeNode),
    (GetAllDescendants.loop children acc).length = acc.length + forestCount children
  | [], acc => by
    rw [GetAllDescendants.loop, forestCount]
    rfl
  | child :: rest, acc => by
    rw [GetAllDescendants.loop, forestCount, descendants_loop_length rest _]
    have h := descendants_length child
    simp only [List.length_append, List.length_cons, List.length_nil]
    omega
end

theorem countNodes_foldl (roots : List ServiceTreeNode) (init : Int) :
    roots.foldl (fun count root => count + ((GetAllDescendants root).length : Int)) init =
      init + (roots.map (fun r => ((GetAllDescendants r).length : Int))).sum := by
  induction roots generalizing init with
  | nil => simp
  | cons r rs ih =>
    simp only [List.foldl_cons, List.map_cons, List.sum_cons, ih]
    omega

theorem forestCount_eq (roots : List ServiceTreeNode) :
    (forestCount roots : Int) =
      (roots.length : Int) + (roots.map (fun r => ((GetAllDescendants r).length : Int))).sum := by
  induction roots with
  | nil => simp [forestCount]
  | cons r rs ih =>
    have h := descendants_length r
    simp only [forestCount, List.length_cons, List.map_cons, List.sum_cons]
    push_cast
    omega

theorem descendants_of_childless (r : ServiceTreeNode) (h : r.Children = []) :
    GetAllDescendants r = [] := by
  obtain ⟨_, _, _, _, _, _, children, _, _, _, _⟩ := r
  simp only at h
  subst h
  rw [GetAllDescendants, GetAllDescendants.loop]

/-- C9: `CountNodes` returns, and stores in `TotalNodes`, the number of roots
plus the sum over the roots of the number of nodes `GetAllDescendants`
returns for the root; that is the number of nodes of the forest, and it is
the number of roots when no root has children. -/
theorem C9_countNodes (data : ServiceTreeData) :
    (CountNodes data).1 = (data.RootNodes.length : Int) +
      (data.RootNodes.map (fun r => ((GetAllDescendants r).length : Int))).sum ∧
    (CountNodes data).1 = (forestCount data.RootNodes : Int) ∧
    (CountNodes data).2 = { data with TotalNodes := (CountNodes data).1 } ∧
    ((∀ r ∈ data.RootNodes, r.Children = []) →
      (CountNodes data).1 = (data.RootNodes.length : Int)) := by
  have h1 : (CountNodes data).1 = (data.RootNodes.length : Int) +
      (data.RootNodes.map (fun r => ((GetAllDescendants r).length : Int))).sum := by
    simp only [CountNodes, countNodes_foldl]
  refine ⟨h1, ?_, rfl, ?_⟩
  · rw [h1, forestCount_eq]
  · intro hleaf
    rw [h1]
    have hz : (data.RootNodes.map (fun r => ((GetAllDescendants r).length : Int))).sum = 0 := by
      apply List.sum_eq_zero
      intro x hx
      obtain ⟨r, hr, rfl⟩ := List.mem_map.mp hx
      simp [descendants_of_childless r (hleaf r hr)]
    omega

theorem C9_countNodes_witness :
    (CountNodes (mkData [mkNode 10 "a" [], mkNode 11 "b" []])).1 = 2 :=
  (C9_countNodes (mkData [mkNode 10 "a" [], mkNode 11 "b" []])).2.2.2
    (by
      intro r hr
      simp only [mkData, List.mem_cons, List.mem_singleton, List.not_mem_nil, or_false] at hr
      rcases hr with rfl | rfl <;> rfl)


theorem depthMax_nonneg (cs : List ServiceTreeNode) : 0 ≤ depthMax cs := by
  induction cs with
  | nil => simp [depthMax]
  | cons c cs ih =>
    rw [depthMax]
    exact le_trans ih (le_max_right _ _)

mutual
theorem calculateNodeDepth_eq : ∀ (node : ServiceTreeNode) (d : Int),
    calculateNodeDepth node d = d + (depth node - 1)
  | ServiceTreeNode.mk _ _ _ _ _ _ children _ _ _ _, d => by
    rw [calculateNodeDepth, depth]
    cases children with
    | nil => simp
    | cons c cs =>
      have hloop := calculateNodeDepth_loop_eq (c :: cs) d d (le_refl d)
      have hnn := depthMax_nonneg (c :: cs)
      simp only [List.length_cons, Nat.succ_ne_zero, if_false, List.isEmpty_cons,
        Bool.false_eq_true, hloop]
      rw [max_eq_right (by omega)]
      omega
theorem calculateNodeDepth_loop_eq : ∀ (children : List ServiceTreeNode) (d m : Int),
    d ≤ m → calculateNodeDepth.loop children d m = max m (d + depthMax children)
  | [], d, m, h => by
    rw [calculateNodeDepth.loop, depthMax]
    simp [h]
  | child :: rest, d, m, h => by
    rw [calculateNodeDepth.loop, depthMax]
    have hc := calculateNodeDepth_eq child (d + 1)
    have hstep : (if calculateNodeDepth child (d + 1) > m then calculateNodeDepth child (d + 1)
        else m) = max m (d + depth child) := by
      rw [hc]
      have he : d + 1 + (depth child - 1) = d + depth child := by omega
      rw [he]
      by_cases hgt : d + depth child > m
      · rw [if_pos hgt, max_eq_right (le_of_lt hgt)]
      · rw [if_neg hgt, max_eq_left (not_lt.mp hgt)]
    simp only [hstep]
    rw [calculateNodeDepth_loop_eq rest d _ (le_trans h (le_max_left _ _))]
    rw [max_assoc, ← max_add_add_left]
end

theorem calculateMaxDepth_foldl (roots : List ServiceTreeNode) (m : Int) (hm : 0 ≤ m) :
    roots.foldl (fun maxDepth root =>
        let depth := calculateNodeDepth root 1
        if depth > maxDepth then depth else maxDepth) m = max m (depthMax roots) := by
  induction roots generalizing m with
  | nil =>
    simp only [List.foldl_nil, depthMax]
    exact (max_eq_left hm).symm
  | cons r rs ih =>
    have hr : calculateNodeDepth r 1 = depth r := by
      rw [calculateNodeDepth_eq]
      omega
    have hstep : (if calculateNodeDepth r 1 > m then calculateNodeDepth r 1 else m) =
        max m (depth r) := by
      rw [hr]
      by_cases hgt : depth r > m
      · rw [if_pos hgt, max_eq_right (le_of_lt hgt)]
      · rw [if_neg hgt, max_eq_left (not_lt.mp hgt)]
    simp only [List.foldl_cons, hstep, depthMax]
    rw [ih _ (le_trans hm (le_max_left _ _)), max_assoc]

mutual
theorem chain_depth : ∀ (node : ServiceTreeNode),
    isChain node = true → depth node = (nodeCount node : Int)
  | ServiceTreeNode.mk _ _ _ _ _ _ children _ _ _ _, h => by
    rw [isChain] at h
    have hmax := chain_depthMax children h
    rw [depth, nodeCount, hmax]
    cases children with
    | nil => simp [forestCount]
    | cons c cs =>
      simp only [List.isEmpty_cons, Bool.false_eq_true, if_false]
      push_cast
      rfl
theorem chain_depthMax : ∀ (children : List ServiceTreeNode),
    isChainList children = true → depthMax children = (forestCount children : Int)
  | [], _ => by
    rw [depthMax, forestCount]
    rfl
  | c :: cs, h => by
    rw [isChainList, Bool.and_eq_true] at h
    have hcs : cs = [] := List.isEmpty_iff.mp h.1
    subst hcs
    have hc := chain_depth c h.2
    have h0 : depthMax [] = 0 := by rw [depthMax]
    have hf : forestCount [] = 0 := by rw [forestCount]
    rw [depthMax, forestCount, hc, h0, hf]
    simp
end

/-- C10: the accumulator-passing `calculateNodeDepth n 1` equals the
reference recursion `depth n` (1 without children, otherwise 1 plus the
largest depth among the children), and `CalculateMaxDepth` returns, and
stores in `MaxDepth`, the largest `depth` among the roots, 0 for no roots.
A single root without children gives 1, and a single root that is an
unbranched chain of `d` nodes gives `d`. -/
theorem C10_calculateMaxDepth (data : ServiceTreeData) :
    (∀ n, calculateNodeDepth n 1 = depth n) ∧
    (CalculateMaxDepth data).1 = depthMax data.RootNodes ∧
    (CalculateMaxDepth data).2 = { data with MaxDepth := depthMax data.RootNodes } ∧
    (data.RootNodes = [] → (CalculateMaxDepth data).1 = 0) ∧
    (∀ r, data.RootNodes = [r] → (CalculateMaxDepth data).1 = depth r) ∧
    (∀ r, data.RootNodes = [r] → r.Children = [] → (CalculateMaxDepth data).1 = 1) ∧
    (∀ r, data.RootNodes = [r] → isChain r = true →
      (CalculateMaxDepth data).1 = (nodeCount r : Int)) := by
  have hfold : (CalculateMaxDepth data).1 = depthMax data.RootNodes := by
    simp only [CalculateMaxDepth]
    rw [calculateMaxDepth_foldl _ 0 (le_refl 0)]
    exact max_eq_right (depthMax_nonneg _)
  have hpos : ∀ n, 1 ≤ depth n := by
    intro n
    obtain ⟨_, _, _, _, _, _, children, _, _, _, _⟩ := n
    rw [depth]
    have := depthMax_nonneg children
    split <;> omega
  have hone : ∀ r, data.RootNodes = [r] → (CalculateMaxDepth data).1 = depth r := by
    intro r hr
    have h0 : depthMax [] = 0 := by rw [depthMax]
    rw [hfold, hr, depthMax, h0]
    exact max_eq_left (le_trans (by decide) (hpos r))
  refine ⟨?_, hfold, ?_, ?_, hone, ?_, ?_⟩
  · intro n
    rw [calculateNodeDepth_eq]
    omega
  · have h2 : (CalculateMaxDepth data).2 =
        { data with MaxDepth := (CalculateMaxDepth data).1 } := rfl
    rw [h2, hfold]
  · intro hr
    rw [hfold, hr, depthMax]
  · intro r hr hleaf
    rw [hone r hr]
    obtain ⟨_, _, _, _, _, _, children, _, _, _, _⟩ := r
    simp only at hleaf
    subst hleaf
    rw [depth]
    rfl
  · intro r hr hchain
    rw [hone r hr, chain_depth r hchain]

theorem C10_calculateMaxDepth_witness :
    (CalculateMaxDepth (mkData [chainOf 2])).1 = 3 ∧
    (CalculateMaxDepth (mkData [mkNode 10 "a" []])).1 = 1 :=
  ⟨((C10_calculateMaxDepth (mkData [chainOf 2])).2.2.2.2.2.2 (chainOf 2) rfl (by decide)).trans
      (by decide),
   (C10_calculateMaxDepth (mkData [mkNode 10 "a" []])).2.2.2.2.2.1 (mkNode 10 "a" []) rfl rfl⟩


/-! ### Crawler: stop conditions -/

/-- C12: when a stop condition holds at `currentLevel` (the depth limit is
positive and reached, or the level is beyond the topology, or the type set of
the level is empty), the descent sends no request, adds no child to the node
and returns no error. -/
theorem C12_stop_sends_nothing (lib : Lib) (c : ServiceTreeCrawler) (srv : Server)
    (node : ServiceTreeNode) (viewConfig : ServiceTreeView) (id2Type : GoMap CIType)
    (currentLevel : Nat) (log : List Request)
    (hstop : (c.maxDepth > 0 ∧ (currentLevel : Int) ≥ c.maxDepth) ∨
      currentLevel ≥ viewConfig.Topo.length ∨
      viewConfig.Topo.getD currentLevel [] = []) :
    (crawlNodeChildren lib c srv node viewConfig id2Type currentLevel log).2.2 = log ∧
    (crawlNodeChildren lib c srv node viewConfig id2Type currentLevel log).1.Children =
      node.Children ∧
    (crawlNodeChildren lib c srv node viewConfig id2Type currentLevel log).2.1 = none := by
  unfold crawlNodeChildren crawlNodeChildrenFuel
  by_cases h1 : c.maxDepth > 0 ∧ (currentLevel : Int) ≥ c.maxDepth
  · simp only [h1, and_self, if_true]
  · by_cases h2 : currentLevel ≥ viewConfig.Topo.length
    · simp only [h1, h2, if_true, if_false, and_self]
    · have h3 : viewConfig.Topo.getD currentLevel [] = [] := by
        rcases hstop with h | h | h
        · exact absurd h h1
        · exact absurd h h2
        · exact h
      simp only [h1, h2, h3, List.length_nil, if_true, if_false, and_self]

theorem C12_stop_sends_nothing_witness :
    (crawlNodeChildren sampleLib depth2Crawler scenarioServer (mkNode 20 "c" [])
      (mkView [[1], [2], [3]]) [] 2 []).2.2 = [] ∧
    (mkView [[1], [2], [3]]).Topo.getD 2 [] ≠ [] :=
  ⟨(C12_stop_sends_nothing sampleLib depth2Crawler scenarioServer (mkNode 20 "c" [])
      (mkView [[1], [2], [3]]) [] 2 [] (Or.inl (by decide))).1, by decide⟩

/-- C13 (code at the failing input): with three topology levels and depth
limit 2, the descent called at level 2 returns the node as it was, whatever
the node, so a node that came in with `IsLeaf == false` is not marked leaf;
the two other stop conditions do mark it. -/
theorem C13_depth_limit_leaves_flag (lib : Lib) (srv : Server) (node : ServiceTreeNode)
    (id2Type : GoMap CIType) (log : List Request) :
    (crawlNodeChildren lib depth2Crawler srv node (mkView [[1], [2], [3]]) id2Type 2 log).1
      = node ∧
    (crawlNodeChildren lib depth2Crawler srv (newNode id2Type (mkInstance 20 2 "c") 2)
      (mkView [[1], [2], [3]]) id2Type 2 log).1.IsLeaf = false ∧
    (crawlNodeChildren lib sampleCrawler srv (newNode id2Type (mkInstance 20 2 "c") 3)
      (mkView [[1], [2], [3]]) id2Type 3 log).1.IsLeaf = true ∧
    (crawlNodeChildren lib sampleCrawler srv (newNode id2Type (mkInstance 20 2 "c") 2)
      (mkView [[1], [2], []]) id2Type 2 log).1.IsLeaf = true := by
  have hd : depth2Crawler.maxDepth > 0 ∧ ((2 : Nat) : Int) ≥ depth2Crawler.maxDepth := by
    decide
  have hs : ¬ (sampleCrawler.maxDepth > 0 ∧ ((3 : Nat) : Int) ≥ sampleCrawler.maxDepth) := by
    decide
  have hs2 : ¬ (sampleCrawler.maxDepth > 0 ∧ ((2 : Nat) : Int) ≥ sampleCrawler.maxDepth) := by
    decide
  refine ⟨?_, ?_, ?_, ?_⟩
  · unfold crawlNodeChildren crawlNodeChildrenFuel
    simp only [hd, and_self, if_true]
  · unfold crawlNodeChildren crawlNodeChildrenFuel
    simp only [hd, and_self, if_true]
    rfl
  · unfold crawlNodeChildren crawlNodeChildrenFuel
    simp only [hs, if_false]
    rfl
  · unfold crawlNodeChildren crawlNodeChildrenFuel
    simp only [hs2, if_false]
    rfl

/-! ### Counts, display names and view ids -/

theorem float64ToInt_trunc (x : Rat) (h : IsGoInt (Int.tdiv x.num x.den)) :
    float64ToInt x = Int.tdiv x.num x.den := by
  unfold float64ToInt
  exact if_pos h

theorem float64ToInt_int (n : Int) (h : IsGoInt n) : float64ToInt (n : Rat) = n := by
  have ht : Int.tdiv (n : Rat).num ((n : Rat).den : Int) = n := by simp
  rw [float64ToInt_trunc _ (by rw [ht]; exact h), ht]

/-- C17 (refuted as stated): for the stored floating-point number with the
integral value 10000000000000000000, which no 64-bit `int` holds, `GetCount`
returns the least `int` and not that value. -/
theorem C17_counterexample :
    GetCount ⟨some [("10", Any.float64 10000000000000000000)], none⟩ "10" =
      -9223372036854775808 ∧
    GetCount ⟨some [("10", Any.float64 10000000000000000000)], none⟩ "10" ≠
      10000000000000000000 ∧
    ¬ IsGoInt 10000000000000000000 := by
  refine ⟨by decide, by decide, ?_⟩
  unfold IsGoInt
  decide

/-- C17 (amended): `GetCount r` is 0 when the data is nil or `r` is absent;
it is `n` when the stored value is the floating-point number with integral
value `n`, `n` within the range of the 64-bit `int`, or the integer `n` (a
floating-point value whose integer part is within that range is truncated
toward zero); and it is 0 when the stored value is not a number. -/
theorem C17_getCount (s : StatisticsResponse) (r : String) :
    (s.Data = none → GetCount s r = 0) ∧
    (∀ data, s.Data = some data → mapLookup data r = none → GetCount s r = 0) ∧
    (∀ data (n : Int), s.Data = some data →
      mapLookup data r = some (Any.float64 (n : Rat)) → IsGoInt n → GetCount s r = n) ∧
    (∀ data (n : Int), s.Data = some data →
      mapLookup data r = some (Any.int n) → GetCount s r = n) ∧
    (∀ data (x : Rat), s.Data = some data →
      mapLookup data r = some (Any.float64 x) → IsGoInt (Int.tdiv x.num x.den) →
      GetCount s r = Int.tdiv x.num x.den) ∧
    (∀ data v, s.Data = some data → mapLookup data r = some v →
      (∀ x, v ≠ Any.float64 x) → (∀ n, v ≠ Any.int n) → GetCount s r = 0) := by
  refine ⟨?_, ?_, ?_, ?_, ?_, ?_⟩
  · intro h
    simp [GetCount, h]
  · intro data h hl
    simp [GetCount, h, hl]
  · intro data n h hl hn
    simp only [GetCount, h, hl]
    exact float64ToInt_int n hn
  · intro data n h hl
    simp [GetCount, h, hl]
  · intro data x h hl hx
    simp only [GetCount, h, hl]
    exact float64ToInt_trunc x hx
  · intro data v h hl hf hi
    cases v with
    | float64 x => exact absurd rfl (hf x)
    | int n => exact absurd rfl (hi n)
    | _ => simp [GetCount, h, hl]

theorem C17_getCount_witness :
    GetCount ⟨some [("10", Any.float64 5), ("11", Any.int 7), ("12", Any.str "x")], none⟩
      "10" = 5 ∧
    GetCount ⟨some [("10", Any.float64 5), ("11", Any.int 7), ("12", Any.str "x")], none⟩
      "11" = 7 ∧
    GetCount ⟨some [("10", Any.float64 5), ("11", Any.int 7), ("12", Any.str "x")], none⟩
      "12" = 0 ∧
    GetCount ⟨some [("10", Any.float64 5), ("11", Any.int 7), ("12", Any.str "x")], none⟩
      "13" = 0 ∧
    GetCount ⟨none, none⟩ "10" = 0 :=
  ⟨(C17_getCount ⟨some [("10", Any.float64 5), ("11", Any.int 7), ("12", Any.str "x")], none⟩
      "10").2.2.1 _ 5 rfl (by simp [mapLookup]) (by unfold IsGoInt; decide),
   (C17_getCount ⟨some [("10", Any.float64 5), ("11", Any.int 7), ("12", Any.str "x")], none⟩
      "11").2.2.2.1 _ 7 rfl (by simp [mapLookup]),
   (C17_getCount ⟨some [("10", Any.float64 5), ("11", Any.int 7), ("12", Any.str "x")], none⟩
      "12").2.2.2.2.2 _ (Any.str "x") rfl (by simp [mapLookup])
      (fun _ h => Any.noConfusion h) (fun _ h => Any.noConfusion h),
   (C17_getCount ⟨some [("10", Any.float64 5), ("11", Any.int 7), ("12", Any.str "x")], none⟩
      "13").2.1 _ rfl (by simp [mapLookup]),
   (C17_getCount ⟨none, none⟩ "10").1 rfl⟩

/-- C18: `GetDisplayName` returns the declared name if it is non-empty;
otherwise the value of the attribute named by the unique-key field when that
attribute exists and is a string; otherwise the empty string. -/
theorem C18_getDisplayName (ci : CIInstance) :
    (ci.Name ≠ "" → GetDisplayName ci = ci.Name) ∧
    (ci.Name = "" → ∀ str, mapLookup ci.Attrs ci.Unique = some (Any.str str) →
      GetDisplayName ci = str) ∧
    (ci.Name = "" → mapLookup ci.Attrs ci.Unique = none → GetDisplayName ci = "") ∧
    (ci.Name = "" → (∀ str, mapLookup ci.Attrs ci.Unique ≠ some (Any.str str)) →
      GetDisplayName ci = "") := by
  refine ⟨?_, ?_, ?_, ?_⟩
  · intro h
    simp [GetDisplayName, h]
  · intro h str hl
    simp [GetDisplayName, h, hl]
  · intro h hl
    simp [GetDisplayName, h, hl]
  · intro h hl
    unfold GetDisplayName
    simp only [h, ne_eq, not_true_eq_false, if_false]

theorem C18_getDisplayName_witness :
    GetDisplayName ⟨1, 2, "web", "host", [("host", Any.str "h1")], ""⟩ = "web" ∧
    GetDisplayName ⟨1, 2, "", "host", [("host", Any.str "h1")], ""⟩ = "h1" ∧
    GetDisplayName ⟨1, 2, "", "host", [("ip", Any.str "h1")], ""⟩ = "" ∧
    GetDisplayName ⟨1, 2, "", "host", [("host", Any.int 3)], ""⟩ = "" :=
  ⟨(C18_getDisplayName ⟨1, 2, "web", "host", [("host", Any.str "h1")], ""⟩).1 (by decide),
   (C18_getDisplayName ⟨1, 2, "", "host", [("host", Any.str "h1")], ""⟩).2.1 rfl "h1"
     (by simp [mapLookup]),
   (C18_getDisplayName ⟨1, 2, "", "host", [("ip", Any.str "h1")], ""⟩).2.2.1 rfl
     (by simp [mapLookup]),
   (C18_getDisplayName ⟨1, 2, "", "host", [("host", Any.int 3)], ""⟩).2.2.2 rfl
     (by simp [mapLookup])⟩


theorem findViewIDByName_step_none (v : String) (p : List Any)
    (h : ¬ ∃ y tl, p = Any.str v :: Any.float64 y :: tl) :
    findViewIDByName.step v p = none := by
  unfold findViewIDByName.step
  split
  · rename_i first second tl
    split
    · rename_i name
      by_cases hn : name = v
      · subst hn
        simp only [if_true]
        split
        · rename_i id
          exact absurd ⟨id, tl, rfl⟩ h
        · rfl
      · simp only [hn, if_false]
    · rfl
  · rfl

theorem findViewIDByName_no_match (v : String) (pairs : List (List Any))
    (h : ∀ p ∈ pairs, ¬ ∃ y tl, p = Any.str v :: Any.float64 y :: tl) :
    findViewIDByName v pairs = -1 := by
  induction pairs with
  | nil => rfl
  | cons p rest ih =>
    rw [findViewIDByName, findViewIDByName_step_none v p (h p (List.mem_cons_self _ _))]
    exact ih (fun q hq => h q (List.mem_cons_of_mem _ hq))

theorem findViewIDByName_first_match (v : String) (pre post : List (List Any))
    (x : Rat) (tl : List Any)
    (hpre : ∀ p ∈ pre, ¬ ∃ y tl2, p = Any.str v :: Any.float64 y :: tl2) :
    findViewIDByName v (pre ++ (Any.str v :: Any.float64 x :: tl) :: post) =
      float64ToInt x := by
  induction pre with
  | nil =>
    simp [findViewIDByName, findViewIDByName.step]
  | cons p rest ih =>
    rw [List.cons_append, findViewIDByName,
      findViewIDByName_step_none v p (hpre p (List.mem_cons_self _ _))]
    exact ih (fun q hq => hpre q (List.mem_cons_of_mem _ hq))

/-- C19 (refuted as stated): for the single pair `(v, 10000000000000000000)`,
an id that no 64-bit `int` holds, `findViewIDByName v` returns the least
`int` and not the id. -/
theorem C19_counterexample :
    findViewIDByName "v" [[Any.str "v", Any.float64 10000000000000000000]] =
      -9223372036854775808 ∧
    findViewIDByName "v" [[Any.str "v", Any.float64 10000000000000000000]] ≠
      10000000000000000000 ∧
    ¬ IsGoInt 10000000000000000000 := by
  refine ⟨by decide, by decide, ?_⟩
  unfold IsGoInt
  decide

/-- C19 (amended): `findViewIDByName v` returns the id of the first pair
whose name is `v` and whose id is a JSON number, the integer part of the id
being within the range of the 64-bit `int` (the id is truncated toward zero,
so the result is `n` for the integral value `n`), and the sentinel -1 when no
pair has name `v`, the empty list included. With (view1,1), (view2,2),
(view3,3), `view2` gives 2 and `nonexistent` gives -1. -/
theorem C19_findViewIDByName (v : String) (pairs : List (List Any)) :
    ((∀ p ∈ pairs, p.head? ≠ some (Any.str v)) → findViewIDByName v pairs = -1) ∧
    ((∀ p ∈ pairs, ¬ ∃ y tl, p = Any.str v :: Any.float64 y :: tl) →
      findViewIDByName v pairs = -1) ∧
    (∀ pre post (n : Int) tl,
      pairs = pre ++ (Any.str v :: Any.float64 (n : Rat) :: tl) :: post →
      (∀ p ∈ pre, ¬ ∃ y tl2, p = Any.str v :: Any.float64 y :: tl2) →
      IsGoInt n → findViewIDByName v pairs = n) ∧
    (∀ pre post (x : Rat) tl,
      pairs = pre ++ (Any.str v :: Any.float64 x :: tl) :: post →
      (∀ p ∈ pre, ¬ ∃ y tl2, p = Any.str v :: Any.float64 y :: tl2) →
      IsGoInt (Int.tdiv x.num x.den) →
      findViewIDByName v pairs = Int.tdiv x.num x.den) ∧
    findViewIDByName v [] = -1 ∧
    findViewIDByName "view2"
      [[Any.str "view1", Any.float64 1], [Any.str "view2", Any.float64 2],
       [Any.str "view3", Any.float64 3]] = 2 ∧
    findViewIDByName "nonexistent"
      [[Any.str "view1", Any.float64 1], [Any.str "view2", Any.float64 2],
       [Any.str "view3", Any.float64 3]] = -1 := by
  refine ⟨?_, findViewIDByName_no_match v pairs, ?_, ?_, rfl, by decide, by decide⟩
  · intro h
    apply findViewIDByName_no_match
    rintro p hp ⟨y, tl, rfl⟩
    exact h _ hp rfl
  · intro pre post n tl hpairs hpre hn
    rw [hpairs, findViewIDByName_first_match v pre post _ tl hpre]
    exact float64ToInt_int n hn
  · intro pre post x tl hpairs hpre hx
    rw [hpairs, findViewIDByName_first_match v pre post _ tl hpre]
    exact float64ToInt_trunc x hx

theorem C19_findViewIDByName_witness :
    findViewIDByName "b" [[Any.str "a", Any.float64 4], [Any.str "b"],
      [Any.str "b", Any.float64 7, Any.null], [Any.str "b", Any.float64 9]] = 7 ∧
    findViewIDByName "c" [[Any.str "a", Any.float64 4], [Any.str "b", Any.float64 7]] = -1 :=
  ⟨(C19_findViewIDByName "b" [[Any.str "a", Any.float64 4], [Any.str "b"],
      [Any.str "b", Any.float64 7, Any.null], [Any.str "b", Any.float64 9]]).2.2.1
      [[Any.str "a", Any.float64 4], [Any.str "b"]] [[Any.str "b", Any.float64 9]] 7
      [Any.null] (by simp)
      (by
        intro p hp
        simp only [List.mem_cons, List.mem_singleton, List.not_mem_nil, or_false] at hp
        rcases hp with rfl | rfl
        · rintro ⟨y, tl, h⟩
          simp at h
        · rintro ⟨y, tl, h⟩
          simp at h)
      (by unfold IsGoInt; decide),
   (C19_findViewIDByName "c" [[Any.str "a", Any.float64 4], [Any.str "b", Any.float64 7]]).1
      (by
        intro p hp
        simp only [List.mem_cons, List.mem_singleton, List.not_mem_nil, or_false] at hp
        rcases hp with rfl | rfl <;> simp)⟩


/-! ### Crawler: the shape of a crawled tree -/

theorem allNodes_iff (P : ServiceTreeNode → Prop) (n : ServiceTreeNode) :
    AllNodes P n ↔ P n ∧ AllNodesList P n.Children := by
  cases n
  rw [AllNodes]

theorem allNodesList_iff (P : ServiceTreeNode → Prop) (cs : List ServiceTreeNode) :
    AllNodesList P cs ↔ ∀ c ∈ cs, AllNodes P c := by
  induction cs with
  | nil => simp [AllNodesList]
  | cons c cs ih =>
    rw [AllNodesList, ih]
    simp

mutual
theorem allNodes_imp (P Q : ServiceTreeNode → Prop) (h : ∀ n, P n → Q n) :
    ∀ (n : ServiceTreeNode), AllNodes P n → AllNodes Q n
  | ServiceTreeNode.mk _ _ _ _ _ _ children _ _ _ _, hn => by
    rw [AllNodes] at hn ⊢
    exact ⟨h _ hn.1, allNodesList_imp P Q h children hn.2⟩
theorem allNodesList_imp (P Q : ServiceTreeNode → Prop) (h : ∀ n, P n → Q n) :
    ∀ (cs : List ServiceTreeNode), AllNodesList P cs → AllNodesList Q cs
  | [], _ => by
    rw [AllNodesList]
    trivial
  | c :: cs, hcs => by
    rw [AllNodesList] at hcs ⊢
    exact ⟨allNodes_imp P Q h c hcs.1, allNodesList_imp P Q h cs hcs.2⟩
end

mutual
theorem allNodes_iff_descendants (P : ServiceTreeNode → Prop) :
    ∀ (n : ServiceTreeNode), AllNodes P n ↔ P n ∧ ∀ d ∈ GetAllDescendants n, P d
  | ServiceTreeNode.mk _ _ _ _ _ _ children _ _ _ _ => by
    rw [AllNodes, GetAllDescendants]
    have h := allNodesList_iff_loop P children []
    simp only [List.not_mem_nil, false_imp_iff, implies_true, true_and] at h
    rw [h]
theorem allNodesList_iff_loop (P : ServiceTreeNode → Prop) :
    ∀ (cs acc : List ServiceTreeNode),
      ((∀ d ∈ acc, P d) ∧ AllNodesList P cs) ↔ ∀ d ∈ GetAllDescendants.loop cs acc, P d
  | [], acc => by
    rw [GetAllDescendants.loop, AllNodesList]
    simp
  | c :: cs, acc => by
    rw [GetAllDescendants.loop, AllNodesList, ← allNodesList_iff_loop P cs _,
      allNodes_iff_descendants P c]
    simp only [List.mem_append, List.mem_singleton]
    constructor
    · rintro ⟨hacc, ⟨hc, hd⟩, hcs⟩
      refine ⟨?_, hcs⟩
      rintro d ((hd1 | rfl) | hd3)
      · exact hacc d hd1
      · exact hc
      · exact hd d hd3
    · rintro ⟨h, hcs⟩
      exact ⟨fun d hd => h d (Or.inl (Or.inl hd)),
        ⟨h c (Or.inl (Or.inr rfl)), fun d hd => h d (Or.inr hd)⟩, hcs⟩
end


theorem sameFrame_refl (a : ServiceTreeNode) : SameFrame a a :=
  ⟨rfl, rfl, rfl, rfl, rfl, rfl, rfl, rfl⟩

theorem addChild_snd_congr (a b child : ServiceTreeNode) (hp : a.Path = b.Path)
    (hn : a.Name = b.Name) (hl : a.Level = b.Level) :
    (AddChild a child).2 = (AddChild b child).2 := by
  simp only [AddChild, BuildTreePath, hp, hn, hl]

theorem crawlKids_congr (id2Type : GoMap CIType) (lvl : Nat)
    (descend : ServiceTreeNode → List Request →
      ServiceTreeNode × Option String × List Request)
    (a b : ServiceTreeNode) (hp : a.Path = b.Path) (hn : a.Name = b.Name)
    (hl : a.Level = b.Level) (cis : List CIInstance) (log : List Request) :
    crawlKids id2Type lvl descend a cis log = crawlKids id2Type lvl descend b cis log := by
  induction cis generalizing log with
  | nil => rfl
  | cons ci rest ih =>
    simp only [crawlKids, addChild_snd_congr a b _ hp hn hl, ih]

/-- The loop of `crawlNodeChildren` appends the children `crawlKids` lists and
changes nothing else. -/
theorem crawlLoop_eq (id2Type : GoMap CIType) (lvl : Nat)
    (descend : ServiceTreeNode → List Request →
      ServiceTreeNode × Option String × List Request)
    (cis : List CIInstance) (node : ServiceTreeNode) (log : List Request) :
    crawlNodeChildren.loop id2Type lvl descend cis node log =
      ({ node with Children := node.Children ++ (crawlKids id2Type lvl descend node cis log).1 },
        (crawlKids id2Type lvl descend node cis log).2) := by
  induction cis generalizing node log with
  | nil =>
    cases node
    simp [crawlNodeChildren.loop, crawlKids]
  | cons ci rest ih =>
    have hstep : crawlNodeChildren.loop id2Type lvl descend (ci :: rest) node log =
        crawlNodeChildren.loop id2Type lvl descend rest
          { (AddChild node (newNode id2Type ci lvl)).1 with
            Children := node.Children ++
              [(descend (AddChild node (newNode id2Type ci lvl)).2 log).1] }
          (descend (AddChild node (newNode id2Type ci lvl)).2 log).2.2 := by
      simp [crawlNodeChildren.loop]
    rw [hstep, ih]
    have hc := crawlKids_congr id2Type lvl descend
      { (AddChild node (newNode id2Type ci lvl)).1 with
        Children := node.Children ++
          [(descend (AddChild node (newNode id2Type ci lvl)).2 log).1] }
      node rfl rfl rfl rest (descend (AddChild node (newNode id2Type ci lvl)).2 log).2.2
    rw [hc]
    simp [crawlKids, AddChild]

theorem crawlKids_mem (id2Type : GoMap CIType) (lvl : Nat)
    (descend : ServiceTreeNode → List Request →
      ServiceTreeNode × Option String × List Request)
    (node : ServiceTreeNode) (cis : List CIInstance) (log : List Request)
    (k : ServiceTreeNode) (hk : k ∈ (crawlKids id2Type lvl descend node cis log).1) :
    ∃ ci ∈ cis, ∃ log2, k = (descend (AddChild node (newNode id2Type ci lvl)).2 log2).1 := by
  induction cis generalizing log with
  | nil => simp [crawlKids] at hk
  | cons ci rest ih =>
    simp only [crawlKids, List.mem_cons] at hk
    rcases hk with rfl | hk
    · exact ⟨ci, List.mem_cons_self _ _, log, rfl⟩
    · obtain ⟨ci2, hci2, log2, hk2⟩ := ih _ hk
      exact ⟨ci2, List.mem_cons_of_mem _ hci2, log2, hk2⟩

theorem crawlKids_length (id2Type : GoMap CIType) (lvl : Nat)
    (descend : ServiceTreeNode → List Request →
      ServiceTreeNode × Option String × List Request)
    (node : ServiceTreeNode) (cis : List CIInstance) (log : List Request) :
    (crawlKids id2Type lvl descend node cis log).1.length = cis.length := by
  induction cis generalizing log with
  | nil => rfl
  | cons ci rest ih => simp [crawlKids, ih]

/-- The ways `crawlNodeChildren` ends: the node comes back as it was, or
marked leaf, or with the children of the loop appended and counted. -/
theorem crawlFuel_cases (lib : Lib) (c : ServiceTreeCrawler) (srv : Server)
    (viewConfig : ServiceTreeView) (id2Type : GoMap CIType) (fuel : Nat)
    (node : ServiceTreeNode) (lvl : Nat) (log : List Request) (r : ServiceTreeNode)
    (hr : r = (crawlNodeChildrenFuel lib c srv viewConfig id2Type fuel node lvl log).1) :
    r = node ∨ r = { node with IsLeaf := true } ∨
    (∃ fuel1 cis log1, fuel = fuel1 + 1 ∧ cis ≠ [] ∧
      ¬ (c.maxDepth > 0 ∧ (lvl : Int) ≥ c.maxDepth) ∧ lvl < viewConfig.Topo.length ∧
      r = { node with
          Children := node.Children ++
            (crawlKids id2Type lvl
              (fun child log2 =>
                crawlNodeChildrenFuel lib c srv viewConfig id2Type fuel1 child (lvl + 1) log2)
              node cis log1).1
          ChildCount := ((node.Children ++
            (crawlKids id2Type lvl
              (fun child log2 =>
                crawlNodeChildrenFuel lib c srv viewConfig id2Type fuel1 child (lvl + 1) log2)
              node cis log1).1).length : Int) }) := by
  unfold crawlNodeChildrenFuel at hr
  by_cases h1 : c.maxDepth > 0 ∧ (lvl : Int) ≥ c.maxDepth
  · left
    simp only [h1, and_self, if_true] at hr
    exact hr
  · by_cases h2 : lvl ≥ viewConfig.Topo.length
    · right; left
      simp only [h1, h2, if_true, if_false] at hr
      exact hr
    · by_cases h3 : (viewConfig.Topo.getD lvl []).length = 0
      · right; left
        simp only [h1, h2, h3, if_true, if_false] at hr
        exact hr
      · simp only [h1, h2, h3, if_false] at hr
        split at hr
        · left
          exact hr
        · rename_i childResp _
          by_cases h4 : childResp.Result.length = 0
          · right; left
            simp only [h4, if_true] at hr
            exact hr
          · simp only [h4, if_false] at hr
            cases fuel with
            | zero =>
              left
              exact hr
            | succ fuel1 =>
              right; right
              simp only [crawlLoop_eq] at hr
              exact ⟨fuel1, childResp.Result, _, rfl,
                fun h => h4 (by rw [h]; rfl), h1, not_le.mp h2, hr⟩


theorem typeNameOf_eq (id2Type : GoMap CIType) (ci : CIInstance) :
    typeNameOf id2Type ci = typeDisplayName id2Type ci.Type_ := by
  unfold typeNameOf typeDisplayName
  cases mapLookup id2Type (itoa ci.Type_) with
  | none => rfl
  | some e =>
    by_cases h : e.Alias = ""
    · simp [h]
    · simp [h]

theorem crawlFuel_frame (lib : Lib) (c : ServiceTreeCrawler) (srv : Server)
    (viewConfig : ServiceTreeView) (id2Type : GoMap CIType) (fuel : Nat)
    (node : ServiceTreeNode) (lvl : Nat) (log : List Request) :
    SameFrame (crawlNodeChildrenFuel lib c srv viewConfig id2Type fuel node lvl log).1 node := by
  rcases crawlFuel_cases lib c srv viewConfig id2Type fuel node lvl log _ rfl with
    h | h | ⟨_, _, _, _, _, _, _, h⟩
  · rw [h]
    exact sameFrame_refl node
  · rw [h]
    exact ⟨rfl, rfl, rfl, rfl, rfl, rfl, rfl, rfl⟩
  · rw [h]
    exact ⟨rfl, rfl, rfl, rfl, rfl, rfl, rfl, rfl⟩

theorem freshAt_child (id2Type : GoMap CIType) (topoLen : Nat) (maxDepth : Int)
    (lvl : Nat) (node : ServiceTreeNode) (ci : CIInstance)
    (hlevel : node.Level + 1 = lvl) (hnn : 0 ≤ node.Level) (htopo : lvl < topoLen)
    (hmax : ¬ (maxDepth > 0 ∧ (lvl : Int) ≥ maxDepth)) :
    FreshAt id2Type topoLen maxDepth (lvl + 1) (AddChild node (newNode id2Type ci lvl)).2 := by
  refine ⟨rfl, rfl, rfl, ?_, ?_, ?_, ?_, ?_⟩
  · show node.Level + 1 + 1 = ((lvl + 1 : Nat) : Int)
    push_cast
    omega
  · exact typeNameOf_eq id2Type ci
  · show 0 ≤ node.Level + 1
    omega
  · show node.Level + 1 < (topoLen : Int)
    omega
  · intro hpos
    show node.Level + 1 < maxDepth
    by_contra hge
    exact hmax ⟨hpos, by omega⟩

theorem freshAt_nodeOK (id2Type : GoMap CIType) (topoLen : Nat) (maxDepth : Int)
    (lvl : Nat) (node : ServiceTreeNode) (h : FreshAt id2Type topoLen maxDepth lvl node) :
    AllNodes (NodeOK id2Type topoLen maxDepth) node ∧
    AllNodes (NodeOK id2Type topoLen maxDepth) { node with IsLeaf := true } := by
  obtain ⟨hc, hcc, _, _, htn, hnn, hlt, hmax⟩ := h
  constructor
  · rw [allNodes_iff, hc]
    refine ⟨⟨htn, ?_, ?_, ?_, hnn, hlt, hmax⟩, by rw [AllNodesList]; trivial⟩
    · rw [hcc, hc]
      rfl
    · intro hne
      exact absurd hc hne
    · intro k hk
      rw [hc] at hk
      cases hk
  · rw [allNodes_iff]
    show NodeOK id2Type topoLen maxDepth { node with IsLeaf := true } ∧
      AllNodesList (NodeOK id2Type topoLen maxDepth) node.Children
    rw [hc]
    refine ⟨⟨htn, ?_, ?_, ?_, hnn, hlt, hmax⟩, by rw [AllNodesList]; trivial⟩
    · show node.ChildCount = ((([] : List ServiceTreeNode).length : Nat) : Int)
      rw [hcc]
      rfl
    · intro hne
      exact absurd rfl hne
    · intro k hk
      cases hk

/-- Every node of the tree that `crawlNodeChildren` leaves under a freshly
built node is well-formed, whatever the server answers and whatever the
recursion budget. -/
theorem crawlFuel_nodeOK (lib : Lib) (c : ServiceTreeCrawler) (srv : Server)
    (viewConfig : ServiceTreeView) (id2Type : GoMap CIType) :
    ∀ (fuel : Nat) (node : ServiceTreeNode) (lvl : Nat) (log : List Request),
      FreshAt id2Type viewConfig.Topo.length c.maxDepth lvl node →
      AllNodes (NodeOK id2Type viewConfig.Topo.length c.maxDepth)
        (crawlNodeChildrenFuel lib c srv viewConfig id2Type fuel node lvl log).1 := by
  intro fuel
  induction fuel with
  | zero =>
    intro node lvl log hfresh
    rcases crawlFuel_cases lib c srv viewConfig id2Type 0 node lvl log _ rfl with
      h | h | ⟨_, _, _, hf, _⟩
    · rw [h]
      exact (freshAt_nodeOK _ _ _ _ _ hfresh).1
    · rw [h]
      exact (freshAt_nodeOK _ _ _ _ _ hfresh).2
    · omega
  | succ fuel0 ih =>
    intro node lvl log hfresh
    rcases crawlFuel_cases lib c srv viewConfig id2Type (fuel0 + 1) node lvl log _ rfl with
      h | h | ⟨fuel1, cis, log1, hf, hne, hmax, htopo, h⟩
    · rw [h]
      exact (freshAt_nodeOK _ _ _ _ _ hfresh).1
    · rw [h]
      exact (freshAt_nodeOK _ _ _ _ _ hfresh).2
    · have hfuel : fuel1 = fuel0 := by omega
      subst hfuel
      rw [h]
      obtain ⟨hc, hcc, hleaf, hlevel, htn, hnn, hlt, hmx⟩ := hfresh
      have hkids : ∀ k ∈ (crawlKids id2Type lvl
          (fun child log2 =>
            crawlNodeChildrenFuel lib c srv viewConfig id2Type fuel1 child (lvl + 1) log2)
          node cis log1).1,
          AllNodes (NodeOK id2Type viewConfig.Topo.length c.maxDepth) k ∧
            k.Level = node.Level + 1 := by
        intro k hk
        obtain ⟨ci, _, log2, hk2⟩ := crawlKids_mem _ _ _ _ _ _ k hk
        rw [hk2]
        refine ⟨ih _ _ _ (freshAt_child id2Type _ _ lvl node ci hlevel hnn htopo hmax), ?_⟩
        exact (crawlFuel_frame lib c srv viewConfig id2Type fuel1 _ (lvl + 1) log2).2.2.2.2.2.1
      rw [allNodes_iff]
      simp only [hc, List.nil_append]
      refine ⟨⟨htn, rfl, ?_, ?_, hnn, hlt, hmx⟩, ?_⟩
      · intro _
        exact hleaf
      · intro k hk
        exact (hkids k hk).2
      · rw [allNodesList_iff]
        intro k hk
        exact (hkids k hk).1


theorem expandFold_eq (lib : Lib) (c : ServiceTreeCrawler) (srv : Server)
    (viewConfig : ServiceTreeView) (id2Type : GoMap CIType)
    (roots acc : List ServiceTreeNode) (log : List Request) :
    roots.foldl
      (fun (acc : List ServiceTreeNode × List Request) rootNode =>
        ((acc.1 ++ [(crawlNodeChildren lib c srv rootNode viewConfig id2Type 1 acc.2).1],
          (crawlNodeChildren lib c srv rootNode viewConfig id2Type 1 acc.2).2.2) :
          List ServiceTreeNode × List Request))
      (acc, log) =
    (acc ++ (expandRoots lib c srv viewConfig id2Type roots log).1,
      (expandRoots lib c srv viewConfig id2Type roots log).2) := by
  induction roots generalizing acc log with
  | nil => simp [expandRoots]
  | cons r rest ih =>
    simp only [List.foldl_cons, ih, expandRoots, List.append_assoc, List.singleton_append]

theorem expandRoots_mem (lib : Lib) (c : ServiceTreeCrawler) (srv : Server)
    (viewConfig : ServiceTreeView) (id2Type : GoMap CIType)
    (roots : List ServiceTreeNode) (log : List Request) (r : ServiceTreeNode)
    (hr : r ∈ (expandRoots lib c srv viewConfig id2Type roots log).1) :
    ∃ root ∈ roots, ∃ log2,
      r = (crawlNodeChildren lib c srv root viewConfig id2Type 1 log2).1 := by
  induction roots generalizing log with
  | nil => simp [expandRoots] at hr
  | cons root rest ih =>
    simp only [expandRoots, List.mem_cons] at hr
    rcases hr with rfl | hr
    · exact ⟨root, List.mem_cons_self _ _, log, rfl⟩
    · obtain ⟨root2, h2, log2, hr2⟩ := ih _ hr
      exact ⟨root2, List.mem_cons_of_mem _ h2, log2, hr2⟩

theorem expandRoots_length (lib : Lib) (c : ServiceTreeCrawler) (srv : Server)
    (viewConfig : ServiceTreeView) (id2Type : GoMap CIType)
    (roots : List ServiceTreeNode) (log : List Request) :
    (expandRoots lib c srv viewConfig id2Type roots log).1.length = roots.length := by
  induction roots generalizing log with
  | nil => rfl
  | cons root rest ih => simp [expandRoots, ih]

theorem loadRootNodeStatistics_mem (lib : Lib) (c : ServiceTreeCrawler) (srv : Server)
    (rootNodes : List ServiceTreeNode) (viewConfig : ServiceTreeView) (log : List Request)
    (n : ServiceTreeNode)
    (hn : n ∈ (loadRootNodeStatistics lib c srv rootNodes viewConfig log).1) :
    ∃ n0 ∈ rootNodes, ∃ st, n = { n0 with Statistics := st } := by
  have heta : ∀ m ∈ rootNodes, ∃ n0 ∈ rootNodes, ∃ st, m = { n0 with Statistics := st } := by
    intro m hm
    exact ⟨m, hm, m.Statistics, by cases m; rfl⟩
  unfold loadRootNodeStatistics at hn
  split at hn
  · exact heta n hn
  · simp only at hn
    split at hn
    · exact heta n hn
    · simp only [List.mem_map] at hn
      obtain ⟨n0, h0, rfl⟩ := hn
      exact ⟨n0, h0, _, rfl⟩

/-- The result of a successful `CrawlServiceTree`: no roots at all, or the
roots built from the instances of the root search (with or without a
statistics mapping), expanded in order, with the totals computed over them. -/
theorem crawlServiceTree_ok (lib : Lib) (c : ServiceTreeCrawler) (srv : Server)
    (viewName : String) (viewID : Int) (viewConfig : ServiceTreeView)
    (id2Type : GoMap CIType) (log : List Request) (data : ServiceTreeData)
    (hok : (CrawlServiceTree lib c srv viewName viewID viewConfig id2Type log).1 =
      some (Except.ok data)) :
    viewConfig.Topo.length ≠ 0 ∧
    (data = ⟨viewName, viewID, viewConfig, [], 0, 0⟩ ∨
     ∃ roots log2,
      (∀ root ∈ roots, ∃ ci st, root = { newNode id2Type ci 0 with Statistics := st }) ∧
      data = (CalculateMaxDepth (CountNodes ⟨viewName, viewID, viewConfig,
        (expandRoots lib c srv viewConfig id2Type roots log2).1, 0, 0⟩).2).2) := by
  unfold CrawlServiceTree at hok
  by_cases h0 : viewConfig.Topo.length = 0
  · simp [h0] at hok
  · refine ⟨h0, ?_⟩
    simp only [h0, if_false] at hok
    split at hok
    · simp at hok
    · rename_i rootResp _
      by_cases h1 : rootResp.Result.length = 0
      · left
        simp only [h1, if_true] at hok
        exact (Except.ok.inj (Option.some.inj hok)).symm
      · right
        by_cases hw : c.maxWorkers ≤ 0
        · simp only [h1, if_false, hw, if_true] at hok
          cases hok
        · simp only [h1, if_false, hw, expandFold_eq, List.nil_append] at hok
          refine ⟨_, _, ?_, (Except.ok.inj (Option.some.inj hok)).symm⟩
          intro root hroot
          have hbase : ∀ m ∈ rootResp.Result.map (fun ci => newNode id2Type ci 0),
              ∃ ci st, m = { newNode id2Type ci 0 with Statistics := st } := by
            intro m hm
            obtain ⟨ci, _, rfl⟩ := List.mem_map.mp hm
            exact ⟨ci, none, rfl⟩
          split at hroot
          · obtain ⟨n0, hn0, st, rfl⟩ := loadRootNodeStatistics_mem _ _ _ _ _ _ _ hroot
            obtain ⟨ci, _, rfl⟩ := hbase n0 hn0
            exact ⟨ci, st, rfl⟩
          · exact hbase root hroot

theorem crawlServiceTree_nodeOK (lib : Lib) (c : ServiceTreeCrawler) (srv : Server)
    (viewName : String) (viewID : Int) (viewConfig : ServiceTreeView)
    (id2Type : GoMap CIType) (log : List Request) (data : ServiceTreeData)
    (hok : (CrawlServiceTree lib c srv viewName viewID viewConfig id2Type log).1 =
      some (Except.ok data)) :
    ∀ r ∈ data.RootNodes,
      AllNodes (NodeOK id2Type viewConfig.Topo.length c.maxDepth) r := by
  obtain ⟨h0, hdata | ⟨roots, log2, hroots, hdata⟩⟩ :=
    crawlServiceTree_ok lib c srv viewName viewID viewConfig id2Type log data hok
  · intro r hr
    rw [hdata] at hr
    cases hr
  · intro r hr
    have hr2 : r ∈ (expandRoots lib c srv viewConfig id2Type roots log2).1 := by
      rw [hdata] at hr
      exact hr
    obtain ⟨root, hroot, log3, rfl⟩ := expandRoots_mem _ _ _ _ _ _ _ _ hr2
    obtain ⟨ci, st, rfl⟩ := hroots root hroot
    apply crawlFuel_nodeOK
    refine ⟨rfl, rfl, rfl, rfl, typeNameOf_eq id2Type ci, le_refl _, ?_, ?_⟩
    · show (0 : Int) < (viewConfig.Topo.length : Int)
      omega
    · intro h
      exact h

/-- C11: whatever the view, the configuration and the answers or failures of
the remote search, no node of a tree returned by `CrawlServiceTree` (a root
or any of its descendants) has both a non-empty child list and
`IsLeaf == true`. -/
theorem C11_no_leaf_with_children (lib : Lib) (c : ServiceTreeCrawler) (srv : Server)
    (viewName : String) (viewID : Int) (viewConfig : ServiceTreeView)
    (id2Type : GoMap CIType) (log : List Request) (data : ServiceTreeData)
    (hok : (CrawlServiceTree lib c srv viewName viewID viewConfig id2Type log).1 =
      some (Except.ok data)) :
    ∀ r ∈ data.RootNodes, ∀ n, (n = r ∨ n ∈ GetAllDescendants r) →
      ¬ (n.Children ≠ [] ∧ n.IsLeaf = true) := by
  intro r hr n hn
  have hall := allNodes_imp _ (fun n => ¬ (n.Children ≠ [] ∧ n.IsLeaf = true))
    (fun m (hm : NodeOK id2Type viewConfig.Topo.length c.maxDepth m) hboth => by
      have := hm.2.2.1 hboth.1
      rw [hboth.2] at this
      cases this)
    r (crawlServiceTree_nodeOK lib c srv viewName viewID viewConfig id2Type log data hok r hr)
  rw [allNodes_iff_descendants] at hall
  rcases hn with rfl | hn
  · exact hall.1
  · exact hall.2 n hn


theorem C11_no_leaf_with_children_witness :
    ¬ ((scenarioData.RootNodes.getD 0 (mkNode 0 "" [])).Children ≠ [] ∧
       (scenarioData.RootNodes.getD 0 (mkNode 0 "" [])).IsLeaf = true) ∧
    (scenarioData.RootNodes.getD 0 (mkNode 0 "" [])).Children.length = 1 :=
  ⟨C11_no_leaf_with_children sampleLib sampleCrawler scenarioServer "view" 1
      (mkView [[1], [2], [3]]) [("2", ⟨2, "app", "Application", "", ""⟩)] [] scenarioData rfl
      (scenarioData.RootNodes.getD 0 (mkNode 0 "" [])) (List.Mem.head _)
      (scenarioData.RootNodes.getD 0 (mkNode 0 "" [])) (Or.inl rfl),
   by decide⟩

/-- C20: a node built from an instance carries the type id of the instance
and the type display name resolved from the lookup table: the alias of the
entry for that type id if the alias is non-empty, else the internal name of
the entry, and the empty string when the table has no entry. This holds of
every root and every descendant in a result of `CrawlServiceTree`. -/
theorem C20_type_display_name (lib : Lib) (c : ServiceTreeCrawler) (srv : Server)
    (viewName : String) (viewID : Int) (viewConfig : ServiceTreeView)
    (id2Type : GoMap CIType) (log : List Request) (data : ServiceTreeData)
    (hok : (CrawlServiceTree lib c srv viewName viewID viewConfig id2Type log).1 =
      some (Except.ok data)) :
    (∀ ci level, (newNode id2Type ci level).Type_ = ci.Type_ ∧
      (newNode id2Type ci level).TypeName = typeDisplayName id2Type ci.Type_) ∧
    (∀ r ∈ data.RootNodes, ∀ n, (n = r ∨ n ∈ GetAllDescendants r) →
      n.TypeName = typeDisplayName id2Type n.Type_) ∧
    (∀ t e, mapLookup id2Type (itoa t) = some e → e.Alias ≠ "" →
      typeDisplayName id2Type t = e.Alias) ∧
    (∀ t e, mapLookup id2Type (itoa t) = some e → e.Alias = "" →
      typeDisplayName id2Type t = e.Name) ∧
    (∀ t, mapLookup id2Type (itoa t) = none → typeDisplayName id2Type t = "") := by
  refine ⟨fun ci level => ⟨rfl, typeNameOf_eq id2Type ci⟩, ?_, ?_, ?_, ?_⟩
  · intro r hr n hn
    have hall := allNodes_imp _ (fun n => n.TypeName = typeDisplayName id2Type n.Type_)
      (fun m (hm : NodeOK id2Type viewConfig.Topo.length c.maxDepth m) => hm.1)
      r (crawlServiceTree_nodeOK lib c srv viewName viewID viewConfig id2Type log data hok r hr)
    rw [allNodes_iff_descendants] at hall
    rcases hn with rfl | hn
    · exact hall.1
    · exact hall.2 n hn
  · intro t e he ha
    simp [typeDisplayName, he, ha]
  · intro t e he ha
    simp [typeDisplayName, he, ha]
  · intro t he
    simp [typeDisplayName, he]

theorem C20_type_display_name_witness :
    (scenarioData.RootNodes.getD 0 (mkNode 0 "" [])).TypeName = "" ∧
    ((scenarioData.RootNodes.getD 0 (mkNode 0 "" [])).Children.getD 0 (mkNode 0 "" [])).TypeName
      = "Application" :=
  ⟨((C20_type_display_name sampleLib sampleCrawler scenarioServer "view" 1
      (mkView [[1], [2], [3]]) [("2", ⟨2, "app", "Application", "", ""⟩)] [] scenarioData
      rfl).2.1 (scenarioData.RootNodes.getD 0 (mkNode 0 "" [])) (List.Mem.head _)
      (scenarioData.RootNodes.getD 0 (mkNode 0 "" [])) (Or.inl rfl)).trans (by decide),
   ((C20_type_display_name sampleLib sampleCrawler scenarioServer "view" 1
      (mkView [[1], [2], [3]]) [("2", ⟨2, "app", "Application", "", ""⟩)] [] scenarioData
      rfl).2.1 (scenarioData.RootNodes.getD 0 (mkNode 0 "" [])) (List.Mem.head _)
      ((scenarioData.RootNodes.getD 0 (mkNode 0 "" [])).Children.getD 0 (mkNode 0 "" []))
      (Or.inr (List.Mem.head _))).trans (by decide)⟩


/-! ### Crawler: one step of the descent -/

theorem crawlFuel_step_error (lib : Lib) (c : ServiceTreeCrawler) (srv : Server)
    (viewConfig : ServiceTreeView) (id2Type : GoMap CIType) (fuel : Nat)
    (node : ServiceTreeNode) (lvl : Nat) (log : List Request) (err : String)
    (hmax : ¬ (c.maxDepth > 0 ∧ (lvl : Int) ≥ c.maxDepth))
    (htopo : lvl < viewConfig.Topo.length)
    (htypes : viewConfig.Topo.getD lvl [] ≠ [])
    (hres : (SearchCIRelation lib c.client (srv.related log)
      (crawlNodeChildren.params c node viewConfig lvl)).result = Except.error err) :
    crawlNodeChildrenFuel lib c srv viewConfig id2Type fuel node lvl log =
      (node, some ("failed to search children for node " ++ itoa node.ID ++ ": " ++ err),
        log ++ (SearchCIRelation lib c.client (srv.related log)
          (crawlNodeChildren.params c node viewConfig lvl)).requests) := by
  have h2 : ¬ lvl ≥ viewConfig.Topo.length := not_le.mpr htopo
  have h3 : ¬ (viewConfig.Topo.getD lvl []).length = 0 :=
    fun h => htypes (List.length_eq_zero.mp h)
  unfold crawlNodeChildrenFuel
  simp only [hmax, h2, h3, if_false, hres]

theorem crawlFuel_step_empty (lib : Lib) (c : ServiceTreeCrawler) (srv : Server)
    (viewConfig : ServiceTreeView) (id2Type : GoMap CIType) (fuel : Nat)
    (node : ServiceTreeNode) (lvl : Nat) (log : List Request)
    (resp : CIRelationSearchResponse)
    (hmax : ¬ (c.maxDepth > 0 ∧ (lvl : Int) ≥ c.maxDepth))
    (htopo : lvl < viewConfig.Topo.length)
    (htypes : viewConfig.Topo.getD lvl [] ≠ [])
    (hres : (SearchCIRelation lib c.client (srv.related log)
      (crawlNodeChildren.params c node viewConfig lvl)).result = Except.ok resp)
    (hempty : resp.Result = []) :
    crawlNodeChildrenFuel lib c srv viewConfig id2Type fuel node lvl log =
      ({ node with IsLeaf := true }, none,
        log ++ (SearchCIRelation lib c.client (srv.related log)
          (crawlNodeChildren.params c node viewConfig lvl)).requests) := by
  have h2 : ¬ lvl ≥ viewConfig.Topo.length := not_le.mpr htopo
  have h3 : ¬ (viewConfig.Topo.getD lvl []).length = 0 :=
    fun h => htypes (List.length_eq_zero.mp h)
  unfold crawlNodeChildrenFuel
  simp only [hmax, h2, h3, if_false, hres, hempty, List.length_nil, if_true]

theorem crawlFuel_step_children (lib : Lib) (c : ServiceTreeCrawler) (srv : Server)
    (viewConfig : ServiceTreeView) (id2Type : GoMap CIType) (fuel1 : Nat)
    (node : ServiceTreeNode) (lvl : Nat) (log : List Request)
    (resp : CIRelationSearchResponse)
    (hmax : ¬ (c.maxDepth > 0 ∧ (lvl : Int) ≥ c.maxDepth))
    (htopo : lvl < viewConfig.Topo.length)
    (htypes : viewConfig.Topo.getD lvl [] ≠ [])
    (hres : (SearchCIRelation lib c.client (srv.related log)
      (crawlNodeChildren.params c node viewConfig lvl)).result = Except.ok resp)
    (hne : resp.Result ≠ []) :
    crawlNodeChildrenFuel lib c srv viewConfig id2Type (fuel1 + 1) node lvl log =
      ({ node with
          Children := node.Children ++
            (crawlKids id2Type lvl
              (fun child log2 =>
                crawlNodeChildrenFuel lib c srv viewConfig id2Type fuel1 child (lvl + 1) log2)
              node resp.Result
              (log ++ (SearchCIRelation lib c.client (srv.related log)
                (crawlNodeChildren.params c node viewConfig lvl)).requests)).1
          ChildCount := ((node.Children ++
            (crawlKids id2Type lvl
              (fun child log2 =>
                crawlNodeChildrenFuel lib c srv viewConfig id2Type fuel1 child (lvl + 1) log2)
              node resp.Result
              (log ++ (SearchCIRelation lib c.client (srv.related log)
                (crawlNodeChildren.params c node viewConfig lvl)).requests)).1).length : Int) },
        none,
        (crawlKids id2Type lvl
          (fun child log2 =>
            crawlNodeChildrenFuel lib c srv viewConfig id2Type fuel1 child (lvl + 1) log2)
          node resp.Result
          (log ++ (SearchCIRelation lib c.client (srv.related log)
            (crawlNodeChildren.params c node viewConfig lvl)).requests)).2) := by
  have h2 : ¬ lvl ≥ viewConfig.Topo.length := not_le.mpr htopo
  have h3 : ¬ (viewConfig.Topo.getD lvl []).length = 0 :=
    fun h => htypes (List.length_eq_zero.mp h)
  have h4 : ¬ resp.Result.length = 0 := fun h => hne (List.length_eq_zero.mp h)
  rw [crawlNodeChildrenFuel]
  simp only [hmax, h2, h3, if_false, hres, h4, crawlLoop_eq]

theorem params_root_id (c : ServiceTreeCrawler) (node : ServiceTreeNode)
    (viewConfig : ServiceTreeView) (lvl : Nat) :
    mapLookup (crawlNodeChildren.params c node viewConfig lvl) "root_id" =
      some (Any.int node.ID) := by
  unfold crawlNodeChildren.params
  have hq : ¬ ("q" : String) = "root_id" := by decide
  have hd : ("root_id" : String) ≠ "descendant_ids" := by decide
  split
  · rw [mapLookup_mapSet_ne _ _ _ _ hd]
    simp [mapLookup, hq]
  · simp [mapLookup, hq]

theorem loadRootNodeStatistics_shape (lib : Lib) (c : ServiceTreeCrawler) (srv : Server)
    (rootNodes : List ServiceTreeNode) (viewConfig : ServiceTreeView) (log : List Request) :
    ∃ f : ServiceTreeNode → Option (GoMap Int),
      (loadRootNodeStatistics lib c srv rootNodes viewConfig log).1 =
        rootNodes.map (fun n => { n with Statistics := f n }) := by
  have heta : rootNodes = rootNodes.map (fun n => { n with Statistics := n.Statistics }) := by
    induction rootNodes with
    | nil => rfl
    | cons a rest ih =>
      rw [List.map_cons, ← ih]
      cases a
      rfl
  unfold loadRootNodeStatistics
  split
  · exact ⟨fun n => n.Statistics, heta⟩
  · simp only
    split
    · exact ⟨fun n => n.Statistics, heta⟩
    · exact ⟨_, rfl⟩

theorem statsPhase_shape (lib : Lib) (c : ServiceTreeCrawler) (srv : Server)
    (rootNodes : List ServiceTreeNode) (viewConfig : ServiceTreeView) (log : List Request) :
    ∃ f : ServiceTreeNode → Option (GoMap Int),
      (statsPhase lib c srv rootNodes viewConfig log).1 =
        rootNodes.map (fun n => { n with Statistics := f n }) := by
  unfold statsPhase
  split
  · exact loadRootNodeStatistics_shape lib c srv rootNodes viewConfig log
  · refine ⟨fun n => n.Statistics, ?_⟩
    show rootNodes = _
    induction rootNodes with
    | nil => rfl
    | cons a rest ih =>
      rw [List.map_cons, ← ih]
      cases a
      rfl

/-- With a worker limit of zero or less, `CrawlServiceTree` does not return
once the root search has returned at least one instance; the requests sent
are those up to the statistics phase. -/
theorem crawlServiceTree_stuck (lib : Lib) (c : ServiceTreeCrawler) (srv : Server)
    (viewName : String) (viewID : Int) (viewConfig : ServiceTreeView)
    (id2Type : GoMap CIType) (log : List Request) (rootResp : CISearchResponse)
    (htopo : viewConfig.Topo ≠ [])
    (hres : (SearchCI lib c.client (srv.search log)
      (BuildCITypeQuery (viewConfig.Topo.getD 0 [])) c.pageSize false).result =
        Except.ok rootResp)
    (hne : rootResp.Result ≠ [])
    (hw : c.maxWorkers ≤ 0) :
    CrawlServiceTree lib c srv viewName viewID viewConfig id2Type log =
      (none,
        (statsPhase lib c srv (rootResp.Result.map (fun ci => newNode id2Type ci 0))
          viewConfig
          (log ++ (SearchCI lib c.client (srv.search log)
            (BuildCITypeQuery (viewConfig.Topo.getD 0 [])) c.pageSize false).requests)).2.2) := by
  have h0 : ¬ viewConfig.Topo.length = 0 := fun h => htopo (List.length_eq_zero.mp h)
  have h1 : ¬ rootResp.Result.length = 0 := fun h => hne (List.length_eq_zero.mp h)
  unfold CrawlServiceTree statsPhase
  simp only [h0, if_false, hres, h1, hw, if_true]

/-- The value of `CrawlServiceTree` once the root search has returned at
least one instance, for a positive worker limit. -/
theorem crawlServiceTree_eq (lib : Lib) (c : ServiceTreeCrawler) (srv : Server)
    (viewName : String) (viewID : Int) (viewConfig : ServiceTreeView)
    (id2Type : GoMap CIType) (log : List Request) (rootResp : CISearchResponse)
    (htopo : viewConfig.Topo ≠ [])
    (hres : (SearchCI lib c.client (srv.search log)
      (BuildCITypeQuery (viewConfig.Topo.getD 0 [])) c.pageSize false).result =
        Except.ok rootResp)
    (hne : rootResp.Result ≠ [])
    (hw : 0 < c.maxWorkers) :
    CrawlServiceTree lib c srv viewName viewID viewConfig id2Type log =
      (some (Except.ok (CalculateMaxDepth (CountNodes ⟨viewName, viewID, viewConfig,
        (expandRoots lib c srv viewConfig id2Type
          (statsPhase lib c srv (rootResp.Result.map (fun ci => newNode id2Type ci 0))
            viewConfig
            (log ++ (SearchCI lib c.client (srv.search log)
              (BuildCITypeQuery (viewConfig.Topo.getD 0 [])) c.pageSize false).requests)).1
          (statsPhase lib c srv (rootResp.Result.map (fun ci => newNode id2Type ci 0))
            viewConfig
            (log ++ (SearchCI lib c.client (srv.search log)
              (BuildCITypeQuery (viewConfig.Topo.getD 0 [])) c.pageSize false).requests)).2.2).1,
        0, 0⟩).2).2),
      (expandRoots lib c srv viewConfig id2Type
          (statsPhase lib c srv (rootResp.Result.map (fun ci => newNode id2Type ci 0))
            viewConfig
            (log ++ (SearchCI lib c.client (srv.search log)
              (BuildCITypeQuery (viewConfig.Topo.getD 0 [])) c.pageSize false).requests)).1
          (statsPhase lib c srv (rootResp.Result.map (fun ci => newNode id2Type ci 0))
            viewConfig
            (log ++ (SearchCI lib c.client (srv.search log)
              (BuildCITypeQuery (viewConfig.Topo.getD 0 [])) c.pageSize false).requests)).2.2).2) := by
  have h0 : ¬ viewConfig.Topo.length = 0 := fun h => htopo (List.length_eq_zero.mp h)
  have h1 : ¬ rootResp.Result.length = 0 := fun h => hne (List.length_eq_zero.mp h)
  have h2 : ¬ c.maxWorkers ≤ 0 := not_le.mpr hw
  unfold CrawlServiceTree statsPhase
  simp only [h0, if_false, hres, h1, h2, expandFold_eq, List.nil_append]


theorem params_q (c : ServiceTreeCrawler) (node : ServiceTreeNode)
    (viewConfig : ServiceTreeView) (lvl : Nat) :
    mapLookup (crawlNodeChildren.params c node viewConfig lvl) "q" =
      some (Any.str (BuildCITypeQuery (viewConfig.Topo.getD lvl []))) := by
  unfold crawlNodeChildren.params
  have hd : ("q" : String) ≠ "descendant_ids" := by decide
  split
  · rw [mapLookup_mapSet_ne _ _ _ _ hd]
    simp [mapLookup]
  · simp [mapLookup]

theorem map_id_eq_pair (l : List CIInstance) (a b : Int)
    (h : l.map (fun ci => ci.ID) = [a, b]) :
    ∃ x y, l = [x, y] ∧ x.ID = a ∧ y.ID = b := by
  match l, h with
  | [x, y], h =>
    simp only [List.map_cons, List.map_nil, List.cons.injEq, and_true] at h
    exact ⟨x, y, rfl, h.1, h.2⟩

theorem map_id_eq_single (l : List CIInstance) (a : Int)
    (h : l.map (fun ci => ci.ID) = [a]) :
    ∃ x, l = [x] ∧ x.ID = a := by
  match l, h with
  | [x], h =>
    simp only [List.map_cons, List.map_nil, List.cons.injEq, and_true] at h
    exact ⟨x, rfl, h⟩


theorem addAPIAuth_lookup_other (lib : Lib) (cl : CMDBClient) (path : String)
    (p : GoMap String) (k : String) (h1 : k ≠ "_key") (h2 : k ≠ "_secret") :
    mapLookup (addAPIAuth lib cl path p) k = mapLookup p k := by
  unfold addAPIAuth
  split
  · rfl
  · simp only
    rw [mapLookup_mapSet_ne _ _ _ _ h2, mapLookup_mapSet_ne _ _ _ _ h1]

theorem relatedRequest_lookup (lib : Lib) (c : ServiceTreeCrawler) (node : ServiceTreeNode)
    (viewConfig : ServiceTreeView) (lvl : Nat) :
    mapLookup (relatedRequest lib c node viewConfig lvl).params "q" =
      some (BuildCITypeQuery (viewConfig.Topo.getD lvl [])) ∧
    mapLookup (relatedRequest lib c node viewConfig lvl).params "root_id" =
      some (itoa node.ID) := by
  unfold relatedRequest
  simp only
  rw [addAPIAuth_lookup_other _ _ _ _ _ (by decide) (by decide),
    addAPIAuth_lookup_other _ _ _ _ _ (by decide) (by decide)]
  unfold crawlNodeChildren.params
  split
  · simp [convertParams, mapSet, mapLookup, paramString]
  · simp [convertParams, mapSet, mapLookup, paramString]

theorem rootRequest_lookup (lib : Lib) (c : ServiceTreeCrawler)
    (viewConfig : ServiceTreeView) :
    mapLookup (rootRequest lib c viewConfig).params "q" =
      some (BuildCITypeQuery (viewConfig.Topo.getD 0 [])) := by
  unfold rootRequest
  simp only
  rw [addAPIAuth_lookup_other _ _ _ _ _ (by decide) (by decide)]
  simp [mapLookup]

theorem searchCIRelation_requests (lib : Lib) (c : ServiceTreeCrawler) (srv : Server)
    (node : ServiceTreeNode) (viewConfig : ServiceTreeView) (lvl : Nat)
    (log : List Request) :
    (SearchCIRelation lib c.client (srv.related log)
      (crawlNodeChildren.params c node viewConfig lvl)).requests =
      [relatedRequest lib c node viewConfig lvl] := by
  unfold SearchCIRelation relatedRequest
  exact doGet_requests _ _ _ _

theorem searchCIRelation_result (lib : Lib) (c : ServiceTreeCrawler) (srv : Server)
    (node : ServiceTreeNode) (viewConfig : ServiceTreeView) (lvl : Nat)
    (log : List Request) (resp : Response CIRelationSearchResponse)
    (hresp : srv.related log (relatedRequest lib c node viewConfig lvl) = Except.ok resp)
    (h200 : resp.StatusCode = 200) :
    (SearchCIRelation lib c.client (srv.related log)
      (crawlNodeChildren.params c node viewConfig lvl)).result = Except.ok resp.Result := by
  unfold SearchCIRelation
  exact (doGet_result _ _ _ _ resp hresp).2 h200

theorem searchCI_root_requests (lib : Lib) (c : ServiceTreeCrawler) (srv : Server)
    (viewConfig : ServiceTreeView) (log : List Request) :
    (SearchCI lib c.client (srv.search log)
      (BuildCITypeQuery (viewConfig.Topo.getD 0 [])) c.pageSize false).requests =
      [rootRequest lib c viewConfig] := by
  unfold SearchCI rootRequest
  exact doGet_requests _ _ _ _

theorem searchCI_root_result (lib : Lib) (c : ServiceTreeCrawler) (srv : Server)
    (viewConfig : ServiceTreeView) (log : List Request) (resp : Response CISearchResponse)
    (hresp : srv.search log (rootRequest lib c viewConfig) = Except.ok resp)
    (h200 : resp.StatusCode = 200) :
    (SearchCI lib c.client (srv.search log)
      (BuildCITypeQuery (viewConfig.Topo.getD 0 [])) c.pageSize false).result =
      Except.ok resp.Result := by
  unfold SearchCI
  exact (doGet_result _ _ _ _ resp hresp).2 h200


/-- The result of `CrawlServiceTree` in the end-to-end scenario, for a
positive worker limit. -/
theorem scenarioB_result (lib : Lib) (c : ServiceTreeCrawler) (srv : Server)
    (viewName : String) (viewID : Int) (viewConfig : ServiceTreeView)
    (id2Type : GoMap CIType) (log : List Request)
    (hnolimit : c.maxDepth ≤ 0)
    (hworkers : 0 < c.maxWorkers)
    (htopo : viewConfig.Topo = [[1], [2], [3]])
    (hroot : ∀ req, mapLookup req.params "q" = some "_type:(1)" →
      ∃ resp, srv.search log req = Except.ok resp ∧ resp.StatusCode = 200 ∧
        resp.Result.Result.map (fun ci => ci.ID) = [10, 11])
    (h10 : ∀ log2 req, mapLookup req.params "q" = some "_type:(2)" →
      mapLookup req.params "root_id" = some "10" →
      ∃ resp, srv.related log2 req = Except.ok resp ∧ resp.StatusCode = 200 ∧
        resp.Result.Result.map (fun ci => ci.ID) = [20])
    (h20 : ∀ log2 req, mapLookup req.params "q" = some "_type:(3)" →
      mapLookup req.params "root_id" = some "20" →
      ∃ resp, srv.related log2 req = Except.ok resp ∧ resp.StatusCode = 200 ∧
        resp.Result.Result = [])
    (h11 : ∀ log2 req, mapLookup req.params "q" = some "_type:(2)" →
      mapLookup req.params "root_id" = some "11" →
      ∃ resp, srv.related log2 req = Except.ok resp ∧ resp.StatusCode = 200 ∧
        resp.Result.Result = []) :
    ∃ data r10 r11 k20,
      (CrawlServiceTree lib c srv viewName viewID viewConfig id2Type log).1 =
        some (Except.ok data) ∧
      data.RootNodes = [r10, r11] ∧ r10.ID = 10 ∧ r11.ID = 11 ∧
      r10.Children = [k20] ∧ k20.ID = 20 ∧ k20.IsLeaf = true ∧ k20.Children = [] ∧
      r11.Children = [] ∧ r11.IsLeaf = true ∧
      data.TotalNodes = 3 ∧ data.MaxDepth = 2 := by
  have hmax : ∀ lvl : Nat, ¬ (c.maxDepth > 0 ∧ (lvl : Int) ≥ c.maxDepth) := by
    intro lvl h
    omega
  have hlen : viewConfig.Topo.length = 3 := by rw [htopo]; rfl
  have hT0 : viewConfig.Topo.getD 0 [] = [1] := by rw [htopo]; rfl
  have hT1 : viewConfig.Topo.getD 1 [] = [2] := by rw [htopo]; rfl
  have hT2 : viewConfig.Topo.getD 2 [] = [3] := by rw [htopo]; rfl
  have hne : viewConfig.Topo ≠ [] := by rw [htopo]; simp
  -- a node with id 11 at level 1, and a node with id 20 at level 2, end as leaves
  have hleaf11 : ∀ (fuel : Nat) (node : ServiceTreeNode) (lg : List Request), node.ID = 11 →
      (crawlNodeChildrenFuel lib c srv viewConfig id2Type fuel node 1 lg).1 =
        { node with IsLeaf := true } := by
    intro fuel node lg hid
    obtain ⟨resp, htr, h200, hempty⟩ := h11 lg (relatedRequest lib c node viewConfig 1)
      (by rw [(relatedRequest_lookup lib c node viewConfig 1).1, hT1]; rfl)
      (by rw [(relatedRequest_lookup lib c node viewConfig 1).2, hid]; rfl)
    rw [crawlFuel_step_empty lib c srv viewConfig id2Type fuel node 1 lg resp.Result (hmax 1)
      (by omega) (by rw [hT1]; simp)
      (searchCIRelation_result lib c srv node viewConfig 1 lg resp htr h200) hempty]
  have hleaf20 : ∀ (fuel : Nat) (node : ServiceTreeNode) (lg : List Request), node.ID = 20 →
      (crawlNodeChildrenFuel lib c srv viewConfig id2Type fuel node 2 lg).1 =
        { node with IsLeaf := true } := by
    intro fuel node lg hid
    obtain ⟨resp, htr, h200, hempty⟩ := h20 lg (relatedRequest lib c node viewConfig 2)
      (by rw [(relatedRequest_lookup lib c node viewConfig 2).1, hT2]; rfl)
      (by rw [(relatedRequest_lookup lib c node viewConfig 2).2, hid]; rfl)
    rw [crawlFuel_step_empty lib c srv viewConfig id2Type fuel node 2 lg resp.Result (hmax 2)
      (by omega) (by rw [hT2]; simp)
      (searchCIRelation_result lib c srv node viewConfig 2 lg resp htr h200) hempty]
  -- a fresh node with id 10 at level 1 gets the single child 20
  have hnode10 : ∀ (node : ServiceTreeNode) (lg : List Request), node.ID = 10 →
      node.Children = [] →
      ∃ k, (crawlNodeChildrenFuel lib c srv viewConfig id2Type 2 node 1 lg).1 =
          { node with Children := [k], ChildCount := 1 } ∧
        k.ID = 20 ∧ k.IsLeaf = true ∧ k.Children = [] := by
    intro node lg hid hch
    obtain ⟨resp, htr, h200, hids⟩ := h10 lg (relatedRequest lib c node viewConfig 1)
      (by rw [(relatedRequest_lookup lib c node viewConfig 1).1, hT1]; rfl)
      (by rw [(relatedRequest_lookup lib c node viewConfig 1).2, hid]; rfl)
    obtain ⟨ci20, hresult, hci20⟩ := map_id_eq_single _ _ hids
    rw [crawlFuel_step_children lib c srv viewConfig id2Type 1 node 1 lg resp.Result (hmax 1)
      (by omega) (by rw [hT1]; simp)
      (searchCIRelation_result lib c srv node viewConfig 1 lg resp htr h200)
      (by rw [hresult]; simp)]
    simp only [hresult, crawlKids, hch, List.nil_append]
    rw [hleaf20 1 _ _ (by exact hci20)]
    exact ⟨_, rfl, hci20, rfl, rfl⟩
  have hexp : ∀ (a b : ServiceTreeNode) (lg : List Request), a.ID = 10 → a.Children = [] →
      b.ID = 11 →
      ∃ k, (expandRoots lib c srv viewConfig id2Type [a, b] lg).1 =
          [{ a with Children := [k], ChildCount := 1 }, { b with IsLeaf := true }] ∧
        k.ID = 20 ∧ k.IsLeaf = true ∧ k.Children = [] := by
    intro a b lg ha hach hb
    obtain ⟨k, hk, hkid, hkleaf, hkch⟩ := hnode10 a lg ha hach
    refine ⟨k, ?_, hkid, hkleaf, hkch⟩
    simp only [expandRoots, crawlNodeChildren, hlen]
    rw [hk, hleaf11 _ b _ hb]
  obtain ⟨rootHTTP, htr, h200, hids⟩ := hroot (rootRequest lib c viewConfig)
    (by rw [rootRequest_lookup, hT0]; rfl)
  obtain ⟨ci10, ci11, hresult, hci10, hci11⟩ := map_id_eq_pair _ _ _ hids
  have hres := searchCI_root_result lib c srv viewConfig log rootHTTP htr h200
  generalize rootHTTP.Result = rootResp at hres hresult
  have heq := crawlServiceTree_eq lib c srv viewName viewID viewConfig id2Type log rootResp
    hne hres (by rw [hresult]; simp) hworkers
  obtain ⟨f, hstats⟩ := statsPhase_shape lib c srv
    (rootResp.Result.map (fun ci => newNode id2Type ci 0)) viewConfig
    (log ++ (SearchCI lib c.client (srv.search log)
      (BuildCITypeQuery (viewConfig.Topo.getD 0 [])) c.pageSize false).requests)
  generalize statsPhase lib c srv
    (rootResp.Result.map (fun ci => newNode id2Type ci 0)) viewConfig
    (log ++ (SearchCI lib c.client (srv.search log)
      (BuildCITypeQuery (viewConfig.Topo.getD 0 [])) c.pageSize false).requests) = S
    at heq hstats
  rw [hresult] at hstats
  simp only [List.map_cons, List.map_nil] at hstats
  obtain ⟨k, hk, hkid, hkleaf, hkch⟩ := hexp
    { newNode id2Type ci10 0 with Statistics := f (newNode id2Type ci10 0) }
    { newNode id2Type ci11 0 with Statistics := f (newNode id2Type ci11 0) }
    S.2.2 hci10 rfl hci11
  rw [hstats, hk] at heq
  refine ⟨_, _, _, k, congrArg Prod.fst heq, rfl, hci10, hci11, rfl, hkid, hkleaf, hkch,
    rfl, rfl, ?_, ?_⟩
  · simp [CalculateMaxDepth, CountNodes, GetAllDescendants, GetAllDescendants.loop,
      descendants_of_childless k hkch]
  · have hkd : calculateNodeDepth k 2 = 2 := by
      rw [calculateNodeDepth_eq]
      obtain ⟨_, _, _, _, _, _, kc, _, _, _, _⟩ := k
      simp only at hkch
      subst hkch
      simp [depth]
    simp [CalculateMaxDepth, CountNodes, calculateNodeDepth, calculateNodeDepth.loop, hkd]

/-- C14 (refuted as stated): in the scenario with no depth limit, under the
default crawler with a worker limit of 0, the root search returns instances
10 and 11, every root task waits at the semaphore, and `CrawlServiceTree`
does not return; with the default worker limit the same call returns a
result. -/
theorem C14_counterexample :
    idleCrawler.maxDepth ≤ 0 ∧ idleCrawler.maxWorkers = 0 ∧
    (CrawlServiceTree sampleLib idleCrawler scenarioServer "view" 1
      (mkView [[1], [2], [3]]) [] []).1 = none ∧
    (¬ ∃ data, (CrawlServiceTree sampleLib idleCrawler scenarioServer "view" 1
      (mkView [[1], [2], [3]]) [] []).1 = some (Except.ok data)) ∧
    (CrawlServiceTree sampleLib idleCrawler scenarioServer "view" 1
      (mkView [[1], [2], [3]]) [] []).2 = [rootRequest sampleLib idleCrawler
        (mkView [[1], [2], [3]])] ∧
    (∃ data, (CrawlServiceTree sampleLib sampleCrawler scenarioServer "view" 1
      (mkView [[1], [2], [3]]) [] []).1 = some (Except.ok data)) := by
  refine ⟨by decide, rfl, rfl, ?_, rfl, ⟨_, rfl⟩⟩
  rintro ⟨data, h⟩
  cases h

/-- C14 (amended): with no depth limit and a positive worker limit, for the
topology `[[1],[2],[3]]`, a root search for type 1 returning instances 10 and
11, a related search from 10 for type 2 returning instance 20, and related
searches from 20 (type 3) and from 11 (type 2) returning none,
`CrawlServiceTree` returns a result, and a result it returns (whatever the
worker limit) has exactly the roots 10 and 11; node 10 has exactly one child,
20, marked leaf; node 11 has no children and is marked leaf; `TotalNodes` is
3 and `MaxDepth` is 2. -/
theorem C14_scenario_B (lib : Lib) (c : ServiceTreeCrawler) (srv : Server)
    (viewName : String) (viewID : Int) (viewConfig : ServiceTreeView)
    (id2Type : GoMap CIType) (log : List Request)
    (hnolimit : c.maxDepth ≤ 0)
    (htopo : viewConfig.Topo = [[1], [2], [3]])
    (hroot : ∀ req, mapLookup req.params "q" = some "_type:(1)" →
      ∃ resp, srv.search log req = Except.ok resp ∧ resp.StatusCode = 200 ∧
        resp.Result.Result.map (fun ci => ci.ID) = [10, 11])
    (h10 : ∀ log2 req, mapLookup req.params "q" = some "_type:(2)" →
      mapLookup req.params "root_id" = some "10" →
      ∃ resp, srv.related log2 req = Except.ok resp ∧ resp.StatusCode = 200 ∧
        resp.Result.Result.map (fun ci => ci.ID) = [20])
    (h20 : ∀ log2 req, mapLookup req.params "q" = some "_type:(3)" →
      mapLookup req.params "root_id" = some "20" →
      ∃ resp, srv.related log2 req = Except.ok resp ∧ resp.StatusCode = 200 ∧
        resp.Result.Result = [])
    (h11 : ∀ log2 req, mapLookup req.params "q" = some "_type:(2)" →
      mapLookup req.params "root_id" = some "11" →
      ∃ resp, srv.related log2 req = Except.ok resp ∧ resp.StatusCode = 200 ∧
        resp.Result.Result = []) :
    (0 < c.maxWorkers →
      ∃ data, (CrawlServiceTree lib c srv viewName viewID viewConfig id2Type log).1 =
        some (Except.ok data)) ∧
    (∀ data, (CrawlServiceTree lib c srv viewName viewID viewConfig id2Type log).1 =
        some (Except.ok data) →
      ∃ r10 r11 k20,
        data.RootNodes = [r10, r11] ∧ r10.ID = 10 ∧ r11.ID = 11 ∧
        r10.Children = [k20] ∧ k20.ID = 20 ∧ k20.IsLeaf = true ∧ k20.Children = [] ∧
        r11.Children = [] ∧ r11.IsLeaf = true ∧
        data.TotalNodes = 3 ∧ data.MaxDepth = 2) := by
  have hne : viewConfig.Topo ≠ [] := by rw [htopo]; simp
  have hT0 : viewConfig.Topo.getD 0 [] = [1] := by rw [htopo]; rfl
  obtain ⟨rootHTTP, htr, h200, hids⟩ := hroot (rootRequest lib c viewConfig)
    (by rw [rootRequest_lookup, hT0]; rfl)
  have hres := searchCI_root_result lib c srv viewConfig log rootHTTP htr h200
  have hrne : rootHTTP.Result.Result ≠ [] := by
    intro h
    rw [h] at hids
    cases hids
  have hstuck : c.maxWorkers ≤ 0 →
      (CrawlServiceTree lib c srv viewName viewID viewConfig id2Type log).1 = none :=
    fun hw => congrArg Prod.fst
      (crawlServiceTree_stuck lib c srv viewName viewID viewConfig id2Type log _ hne hres hrne
        hw)
  refine ⟨?_, ?_⟩
  · intro hw
    obtain ⟨data, _, _, _, hok, _⟩ := scenarioB_result lib c srv viewName viewID viewConfig
      id2Type log hnolimit hw htopo hroot h10 h20 h11
    exact ⟨data, hok⟩
  · intro data hok
    by_cases hw : 0 < c.maxWorkers
    · obtain ⟨data2, r10, r11, k20, hok2, hshape⟩ := scenarioB_result lib c srv viewName
        viewID viewConfig id2Type log hnolimit hw htopo hroot h10 h20 h11
      rw [hok] at hok2
      cases hok2
      exact ⟨r10, r11, k20, hshape⟩
    · rw [hstuck (not_lt.mp hw)] at hok
      cases hok

theorem C14_scenario_B_witness :
    ∃ data r10 r11 k20,
      (CrawlServiceTree sampleLib sampleCrawler scenarioServer "view" 1
        (mkView [[1], [2], [3]]) [] []).1 = some (Except.ok data) ∧
      data.RootNodes = [r10, r11] ∧ r10.ID = 10 ∧ r11.ID = 11 ∧
      r10.Children = [k20] ∧ k20.ID = 20 ∧ k20.IsLeaf = true ∧ k20.Children = [] ∧
      r11.Children = [] ∧ r11.IsLeaf = true ∧
      data.TotalNodes = 3 ∧ data.MaxDepth = 2 := by
  have h := C14_scenario_B sampleLib sampleCrawler scenarioServer "view" 1
    (mkView [[1], [2], [3]]) [] []
    (by decide) rfl
    (fun _ _ => ⟨_, rfl, rfl, rfl⟩)
    (fun _ req _ h =>
      ⟨⟨200, "ok", ⟨[mkInstance 20 2 "c"], 1, 1, 1, Any.null, Any.null⟩⟩,
        by simp [scenarioServer, h], rfl, rfl⟩)
    (fun _ req _ h =>
      ⟨⟨200, "ok", ⟨[], 0, 0, 1, Any.null, Any.null⟩⟩, by simp [scenarioServer, h], rfl, rfl⟩)
    (fun _ req _ h =>
      ⟨⟨200, "ok", ⟨[], 0, 0, 1, Any.null, Any.null⟩⟩, by simp [scenarioServer, h], rfl, rfl⟩)
  obtain ⟨data, hok⟩ := h.1 (by decide)
  obtain ⟨r10, r11, k20, hshape⟩ := h.2 data hok
  exact ⟨data, r10, r11, k20, hok, hshape⟩


/-! ### Crawler: view selection -/

theorem targetSet_lookup (targetViews : List String) (name : String) (m : GoMap Bool) :
    (mapLookup (targetViews.foldl (fun m view => mapSet m view true) m) name).getD false
      = true ↔
    name ∈ targetViews ∨ (mapLookup m name).getD false = true := by
  induction targetViews generalizing m with
  | nil => simp
  | cons t rest ih =>
    rw [List.foldl_cons, ih]
    by_cases h : name = t
    · subst h
      simp [mapLookup_mapSet_self]
    · rw [mapLookup_mapSet_ne _ _ _ _ h]
      simp [h]

theorem crawlServiceTree_viewName (lib : Lib) (c : ServiceTreeCrawler) (srv : Server)
    (viewName : String) (viewID : Int) (viewConfig : ServiceTreeView)
    (id2Type : GoMap CIType) (log : List Request) (data : ServiceTreeData)
    (hok : (CrawlServiceTree lib c srv viewName viewID viewConfig id2Type log).1 =
      some (Except.ok data)) :
    data.ViewName = viewName ∧ data.ViewID = viewID ∧ data.Config = viewConfig := by
  obtain ⟨_, hdata | ⟨roots, log2, _, hdata⟩⟩ :=
    crawlServiceTree_ok lib c srv viewName viewID viewConfig id2Type log data hok
  · rw [hdata]
    exact ⟨rfl, rfl, rfl⟩
  · rw [hdata]
    exact ⟨rfl, rfl, rfl⟩

/-- With a positive worker limit every call of `CrawlServiceTree` returns. -/
theorem crawlServiceTree_returns (lib : Lib) (c : ServiceTreeCrawler) (srv : Server)
    (viewName : String) (viewID : Int) (viewConfig : ServiceTreeView)
    (id2Type : GoMap CIType) (log : List Request) (hw : 0 < c.maxWorkers) :
    ∃ r, (CrawlServiceTree lib c srv viewName viewID viewConfig id2Type log).1 = some r := by
  have h2 : ¬ c.maxWorkers ≤ 0 := not_le.mpr hw
  unfold CrawlServiceTree
  split
  · exact ⟨_, rfl⟩
  · simp only
    split
    · exact ⟨_, rfl⟩
    · split
      · exact ⟨_, rfl⟩
      · exact ⟨_, rfl⟩

theorem crawlViews_step_none (lib : Lib) (c : ServiceTreeCrawler) (srv : Server)
    (viewsResp : RelationViewResponse) (selected : String → Bool)
    (acc : Option (List ServiceTreeData) × List Request) (view : String × ServiceTreeView)
    (h : acc.1 = none) :
    crawlViews.step lib c srv viewsResp selected acc view = acc := by
  unfold crawlViews.step
  rw [h]

theorem crawlViews_step_skip (lib : Lib) (c : ServiceTreeCrawler) (srv : Server)
    (viewsResp : RelationViewResponse) (selected : String → Bool)
    (acc : Option (List ServiceTreeData) × List Request) (view : String × ServiceTreeView)
    (h : selected view.1 = false) :
    crawlViews.step lib c srv viewsResp selected acc view = acc := by
  unfold crawlViews.step
  split
  · rfl
  · rw [if_pos h]

theorem crawlViews_step_mem (lib : Lib) (c : ServiceTreeCrawler) (srv : Server)
    (viewsResp : RelationViewResponse) (selected : String → Bool)
    (acc : Option (List ServiceTreeData) × List Request) (view : String × ServiceTreeView)
    (results : List ServiceTreeData)
    (h : (crawlViews.step lib c srv viewsResp selected acc view).1 = some results) :
    ∃ before, acc.1 = some before ∧ ∀ d ∈ results, d ∈ before ∨
      (selected view.1 = true ∧ d.ViewName = view.1 ∧
        d.ViewID = findViewIDByName view.1 viewsResp.Name2ID ∧ d.Config = view.2) := by
  obtain ⟨found, sent⟩ := acc
  cases found with
  | none =>
    rw [crawlViews_step_none _ _ _ _ _ _ _ rfl] at h
    cases h
  | some before =>
    refine ⟨before, rfl, ?_⟩
    by_cases hs : selected view.1 = false
    · rw [crawlViews_step_skip _ _ _ _ _ _ _ hs] at h
      cases h
      exact fun d hd => Or.inl hd
    · unfold crawlViews.step at h
      dsimp only at h
      rw [if_neg hs] at h
      split at h
      · cases h
      · cases h
        exact fun d hd => Or.inl hd
      · rename_i treeData heq
        cases h
        intro d hd
        rcases List.mem_append.mp hd with h1 | h1
        · exact Or.inl h1
        · rw [List.mem_singleton] at h1
          subst h1
          exact Or.inr ⟨by simpa using hs, crawlServiceTree_viewName _ _ _ _ _ _ _ _ _ heq⟩

theorem crawlViews_mem (lib : Lib) (c : ServiceTreeCrawler) (srv : Server)
    (viewsResp : RelationViewResponse) (selected : String → Bool)
    (views : GoMap ServiceTreeView) (acc : Option (List ServiceTreeData) × List Request)
    (results : List ServiceTreeData)
    (h : (views.foldl (crawlViews.step lib c srv viewsResp selected) acc).1 = some results) :
    ∃ before, acc.1 = some before ∧ ∀ d ∈ results, d ∈ before ∨
      ∃ view ∈ views, selected view.1 = true ∧ d.ViewName = view.1 ∧
        d.ViewID = findViewIDByName view.1 viewsResp.Name2ID ∧ d.Config = view.2 := by
  induction views generalizing acc results with
  | nil => exact ⟨results, h, fun d hd => Or.inl hd⟩
  | cons view rest ih =>
    rw [List.foldl_cons] at h
    obtain ⟨mid, hmid, hall⟩ := ih _ _ h
    obtain ⟨before, hbefore, hstep⟩ := crawlViews_step_mem _ _ _ _ _ _ _ _ hmid
    refine ⟨before, hbefore, ?_⟩
    intro d hd
    rcases hall d hd with h1 | ⟨v, hv, hrest⟩
    · rcases hstep d h1 with h2 | h2
      · exact Or.inl h2
      · exact Or.inr ⟨view, List.mem_cons_self _ _, h2⟩
    · exact Or.inr ⟨v, List.mem_cons_of_mem _ hv, hrest⟩

theorem crawlViews_unselected (lib : Lib) (c : ServiceTreeCrawler) (srv : Server)
    (viewsResp : RelationViewResponse) (selected : String → Bool)
    (views : GoMap ServiceTreeView) (acc : Option (List ServiceTreeData) × List Request)
    (h : ∀ view ∈ views, selected view.1 = false) :
    views.foldl (crawlViews.step lib c srv viewsResp selected) acc = acc := by
  induction views generalizing acc with
  | nil => rfl
  | cons view rest ih =>
    rw [List.foldl_cons, crawlViews_step_skip _ _ _ _ _ _ _ (h view (List.mem_cons_self _ _))]
    exact ih _ (fun v hv => h v (List.mem_cons_of_mem _ hv))

theorem crawlViews_returns (lib : Lib) (c : ServiceTreeCrawler) (srv : Server)
    (viewsResp : RelationViewResponse) (selected : String → Bool)
    (views : GoMap ServiceTreeView) (acc : Option (List ServiceTreeData) × List Request)
    (hw : 0 < c.maxWorkers) (hacc : ∃ before, acc.1 = some before) :
    ∃ results,
      (views.foldl (crawlViews.step lib c srv viewsResp selected) acc).1 = some results := by
  induction views generalizing acc with
  | nil => exact hacc
  | cons view rest ih =>
    rw [List.foldl_cons]
    apply ih
    obtain ⟨before, hbefore⟩ := hacc
    obtain ⟨found, sent⟩ := acc
    simp only at hbefore
    subst hbefore
    by_cases hs : selected view.1 = false
    · rw [crawlViews_step_skip _ _ _ _ _ _ _ hs]
      exact ⟨before, rfl⟩
    · obtain ⟨r, hr⟩ := crawlServiceTree_returns lib c srv view.1
        (findViewIDByName view.1 viewsResp.Name2ID) view.2 viewsResp.ID2Type sent hw
      unfold crawlViews.step
      dsimp only
      rw [if_neg hs, hr]
      cases r with
      | error err => exact ⟨_, rfl⟩
      | ok treeData => exact ⟨_, rfl⟩

/-- The value of `CrawlSpecificViews` for a non-empty list of requested names
once the view listing has succeeded. -/
theorem crawlSpecificViews_eq (lib : Lib) (c : ServiceTreeCrawler) (srv : Server)
    (targetViews : List String) (log : List Request) (viewsResp : RelationViewResponse)
    (htargets : targetViews ≠ [])
    (hlist : (GetRelationViews lib c.client (srv.views log)).result = Except.ok viewsResp) :
    (CrawlSpecificViews lib c srv targetViews log).1 =
      ((crawlViews lib c srv viewsResp
        (fun viewName => (mapLookup (targetViews.foldl (fun m view => mapSet m view true) [])
          viewName).getD false)
        (log ++ (GetRelationViews lib c.client (srv.views log)).requests)).1).map
        Except.ok := by
  have hlen : ¬ targetViews.length = 0 := fun h => htargets (List.length_eq_zero.mp h)
  unfold CrawlSpecificViews
  simp only [hlen, if_false, hlist]
  split
  · rename_i h
    rw [h]
    rfl
  · rename_i results h
    rw [h]
    rfl

/-- C15 (refuted as stated): under the default crawler with a worker limit of
0, the listing succeeds and holds the requested view `app`, whose root search
finds roots; the crawl of that view does not return, so `CrawlSpecificViews`
returns neither a result list nor an error. -/
theorem C15_counterexample :
    (["app"] : List String) ≠ [] ∧ idleCrawler.maxWorkers = 0 ∧
    (GetRelationViews sampleLib idleCrawler.client (listingServer.views [])).result.toBool =
      true ∧
    (CrawlSpecificViews sampleLib idleCrawler listingServer ["app"] []).1 = none ∧
    (¬ ∃ results, (CrawlSpecificViews sampleLib idleCrawler listingServer ["app"] []).1 =
      some (Except.ok results)) := by
  refine ⟨by decide, rfl, by decide, rfl, ?_⟩
  rintro ⟨results, h⟩
  cases h

/-- C15 (amended): for a non-empty list of requested view names and a
successful view listing, `CrawlSpecificViews` never returns an error; the view
name of every result it returns is both requested and among the listed views;
with a positive worker limit it does return a result list; and when no
requested name is listed, it returns the empty list, whatever the worker
limit. -/
theorem C15_crawlSpecificViews (lib : Lib) (c : ServiceTreeCrawler) (srv : Server)
    (targetViews : List String) (log : List Request) (viewsResp : RelationViewResponse)
    (htargets : targetViews ≠ [])
    (hlist : (GetRelationViews lib c.client (srv.views log)).result = Except.ok viewsResp) :
    (∀ err, (CrawlSpecificViews lib c srv targetViews log).1 ≠ some (Except.error err)) ∧
    (∀ results, (CrawlSpecificViews lib c srv targetViews log).1 = some (Except.ok results) →
      ∀ d ∈ results, d.ViewName ∈ targetViews ∧ d.ViewName ∈ mapKeys viewsResp.Views) ∧
    (0 < c.maxWorkers →
      ∃ results, (CrawlSpecificViews lib c srv targetViews log).1 = some (Except.ok results)) ∧
    ((∀ t ∈ targetViews, t ∉ mapKeys viewsResp.Views) →
      (CrawlSpecificViews lib c srv targetViews log).1 = some (Except.ok [])) := by
  have heq := crawlSpecificViews_eq lib c srv targetViews log viewsResp htargets hlist
  refine ⟨?_, ?_, ?_, ?_⟩
  · intro err herr
    rw [heq] at herr
    cases hc : (crawlViews lib c srv viewsResp
        (fun viewName => (mapLookup (targetViews.foldl (fun m view => mapSet m view true) [])
          viewName).getD false)
        (log ++ (GetRelationViews lib c.client (srv.views log)).requests)).1 with
    | none =>
      rw [hc] at herr
      cases herr
    | some results =>
      rw [hc] at herr
      cases herr
  · intro results hok d hd
    rw [heq] at hok
    cases hc : (crawlViews lib c srv viewsResp
        (fun viewName => (mapLookup (targetViews.foldl (fun m view => mapSet m view true) [])
          viewName).getD false)
        (log ++ (GetRelationViews lib c.client (srv.views log)).requests)).1 with
    | none =>
      rw [hc] at hok
      cases hok
    | some found =>
      rw [hc] at hok
      cases hok
      unfold crawlViews at hc
      obtain ⟨before, hbefore, hall⟩ := crawlViews_mem lib c srv viewsResp _ viewsResp.Views
        _ _ hc
      cases hbefore
      rcases hall d hd with h | ⟨view, hview, hsel, hname, _⟩
      · cases h
      · rw [hname]
        constructor
        · have := (targetSet_lookup targetViews view.1 []).mp hsel
          simpa [mapLookup] using this
        · exact List.mem_map_of_mem Prod.fst hview
  · intro hw
    obtain ⟨results, hres⟩ := crawlViews_returns lib c srv viewsResp
      (fun viewName => (mapLookup (targetViews.foldl (fun m view => mapSet m view true) [])
        viewName).getD false) viewsResp.Views
      (some [], log ++ (GetRelationViews lib c.client (srv.views log)).requests) hw ⟨[], rfl⟩
    refine ⟨results, ?_⟩
    rw [heq]
    unfold crawlViews
    rw [hres]
    rfl
  · intro hnone
    rw [heq]
    unfold crawlViews
    rw [crawlViews_unselected]
    · rfl
    · intro view hview
      have hkey : view.1 ∈ mapKeys viewsResp.Views := List.mem_map_of_mem Prod.fst hview
      cases hsel : (mapLookup (targetViews.foldl (fun m view => mapSet m view true) [])
          view.1).getD false with
      | false => rfl
      | true =>
        have hin := (targetSet_lookup targetViews view.1 []).mp hsel
        rcases hin with h | h
        · exact absurd hkey (hnone _ h)
        · simp [mapLookup] at h

theorem C15_crawlSpecificViews_witness :
    (CrawlSpecificViews sampleLib sampleCrawler listingServer ["NonExistentView"] []).1 =
      some (Except.ok []) ∧
    (∃ results, (CrawlSpecificViews sampleLib sampleCrawler listingServer ["app"] []).1 =
      some (Except.ok results)) :=
  ⟨(C15_crawlSpecificViews sampleLib sampleCrawler listingServer ["NonExistentView"] []
      ⟨[("app", leafView)], [], [[Any.str "app", Any.float64 7]]⟩ (by simp) rfl).2.2.2 (by
      intro t ht
      simp only [List.mem_singleton] at ht
      subst ht
      decide),
   (C15_crawlSpecificViews sampleLib sampleCrawler listingServer ["app"] []
      ⟨[("app", leafView)], [], [[Any.str "app", Any.float64 7]]⟩ (by simp) rfl).2.2.1
      (by decide)⟩


/-! ### Crawler: statistics failure -/

theorem crawlKids_fst_congr (id2Type : GoMap CIType) (lvl : Nat)
    (d1 d2 : ServiceTreeNode → List Request →
      ServiceTreeNode × Option String × List Request)
    (h : ∀ child la lb, (d1 child la).1 = (d2 child lb).1)
    (node : ServiceTreeNode) (cis : List CIInstance) (la lb : List Request) :
    (crawlKids id2Type lvl d1 node cis la).1 = (crawlKids id2Type lvl d2 node cis lb).1 := by
  induction cis generalizing la lb with
  | nil => rfl
  | cons ci rest ih =>
    simp only [crawlKids]
    rw [h _ la lb, ih]

/-- When the related search answers a request the same way whatever was sent
before, the tree that the descent leaves does not depend on the requests sent
so far, nor on the statistics switch of the crawler. -/
theorem crawlFuel_indep (lib : Lib) (c : ServiceTreeCrawler) (srv : Server)
    (viewConfig : ServiceTreeView) (id2Type : GoMap CIType)
    (hsrv : ∀ la lb req, srv.related la req = srv.related lb req) :
    ∀ (fuel : Nat) (node : ServiceTreeNode) (lvl : Nat) (la lb : List Request),
      (crawlNodeChildrenFuel lib c srv viewConfig id2Type fuel node lvl la).1 =
      (crawlNodeChildrenFuel lib { c with includeStats := false } srv viewConfig id2Type
        fuel node lvl lb).1 := by
  intro fuel
  induction fuel with
  | zero =>
    intro node lvl la lb
    have hrel : srv.related la = srv.related lb := funext (hsrv la lb)
    unfold crawlNodeChildrenFuel crawlNodeChildren.params
    simp only [hrel]
    split
    · rfl
    · split
      · rfl
      · split
        · rfl
        · split
          · rfl
          · split <;> rfl
  | succ fuel1 ih =>
    intro node lvl la lb
    have hrel : srv.related la = srv.related lb := funext (hsrv la lb)
    rw [crawlNodeChildrenFuel, crawlNodeChildrenFuel]
    unfold crawlNodeChildren.params
    simp only [hrel]
    split
    · rfl
    · split
      · rfl
      · split
        · rfl
        · split
          · rfl
          · split
            · rfl
            · simp only [crawlLoop_eq]
              rw [crawlKids_fst_congr id2Type lvl _ _ (fun child la lb => ih child (lvl + 1) la lb)]


theorem expandRoots_indep (lib : Lib) (c : ServiceTreeCrawler) (srv : Server)
    (viewConfig : ServiceTreeView) (id2Type : GoMap CIType)
    (hsrv : ∀ la lb req, srv.related la req = srv.related lb req)
    (roots : List ServiceTreeNode) (la lb : List Request) :
    (expandRoots lib c srv viewConfig id2Type roots la).1 =
    (expandRoots lib { c with includeStats := false } srv viewConfig id2Type roots lb).1 := by
  induction roots generalizing la lb with
  | nil => rfl
  | cons r rest ih =>
    simp only [expandRoots, crawlNodeChildren]
    rw [crawlFuel_indep lib c srv viewConfig id2Type hsrv _ r 1 la lb, ih]

theorem statsPhase_fail (lib : Lib) (c : ServiceTreeCrawler) (srv : Server)
    (rootNodes : List ServiceTreeNode) (viewConfig : ServiceTreeView) (log : List Request)
    (hfail : ∀ log2 params, ∃ err,
      (GetCIRelationStatistics lib c.client (srv.statistics log2) params).result =
        Except.error err) :
    (statsPhase lib c srv rootNodes viewConfig log).1 = rootNodes := by
  unfold statsPhase
  split
  · unfold loadRootNodeStatistics
    split
    · rfl
    · simp only
      split
      · rfl
      · rename_i stats heq
        obtain ⟨err, herr⟩ := hfail log _
        rw [herr] at heq
        cases heq
  · rfl

theorem crawlServiceTree_cases (lib : Lib) (c : ServiceTreeCrawler) (srv : Server)
    (viewName : String) (viewID : Int) (viewConfig : ServiceTreeView)
    (id2Type : GoMap CIType) (log : List Request) :
    (∃ err, (CrawlServiceTree lib c srv viewName viewID viewConfig id2Type log).1 =
        some (Except.error err) ∧
      (viewConfig.Topo = [] ∨
       ∃ err2, (SearchCI lib c.client (srv.search log)
        (BuildCITypeQuery (viewConfig.Topo.getD 0 [])) c.pageSize false).result =
          Except.error err2)) ∨
    (viewConfig.Topo ≠ [] ∧ ∃ rootResp,
      (SearchCI lib c.client (srv.search log)
        (BuildCITypeQuery (viewConfig.Topo.getD 0 [])) c.pageSize false).result =
          Except.ok rootResp ∧ rootResp.Result = [] ∧
      (CrawlServiceTree lib c srv viewName viewID viewConfig id2Type log).1 =
        some (Except.ok ⟨viewName, viewID, viewConfig, [], 0, 0⟩)) ∨
    (viewConfig.Topo ≠ [] ∧ ∃ rootResp,
      (SearchCI lib c.client (srv.search log)
        (BuildCITypeQuery (viewConfig.Topo.getD 0 [])) c.pageSize false).result =
          Except.ok rootResp ∧ rootResp.Result ≠ []) := by
  by_cases h0 : viewConfig.Topo.length = 0
  · left
    refine ⟨"service tree has no levels defined", ?_, Or.inl (List.length_eq_zero.mp h0)⟩
    unfold CrawlServiceTree
    simp only [h0, if_true]
  · have hne : viewConfig.Topo ≠ [] := fun h => h0 (by rw [h]; rfl)
    cases hres : (SearchCI lib c.client (srv.search log)
        (BuildCITypeQuery (viewConfig.Topo.getD 0 [])) c.pageSize false).result with
    | error err =>
      left
      refine ⟨"failed to search root nodes: " ++ err, ?_, Or.inr ⟨err, rfl⟩⟩
      unfold CrawlServiceTree
      simp only [h0, if_false, hres]
    | ok rootResp =>
      by_cases h1 : rootResp.Result.length = 0
      · right; left
        refine ⟨hne, rootResp, rfl, List.length_eq_zero.mp h1, ?_⟩
        unfold CrawlServiceTree
        simp only [h0, if_false, hres, h1, if_true]
      · right; right
        exact ⟨hne, rootResp, rfl, fun h => h1 (by rw [h]; rfl)⟩

/-- When `CrawlServiceTree` returns a result: the topology is not empty, the
root search succeeds, and there is no root or the worker limit is positive. -/
theorem crawlServiceTree_ok_iff (lib : Lib) (c : ServiceTreeCrawler) (srv : Server)
    (viewName : String) (viewID : Int) (viewConfig : ServiceTreeView)
    (id2Type : GoMap CIType) (log : List Request) :
    (∃ data, (CrawlServiceTree lib c srv viewName viewID viewConfig id2Type log).1 =
      some (Except.ok data)) ↔
    (viewConfig.Topo ≠ [] ∧ ∃ rootResp,
      (SearchCI lib c.client (srv.search log)
        (BuildCITypeQuery (viewConfig.Topo.getD 0 [])) c.pageSize false).result =
          Except.ok rootResp ∧ (rootResp.Result = [] ∨ 0 < c.maxWorkers)) := by
  constructor
  · rintro ⟨data, hok⟩
    rcases crawlServiceTree_cases lib c srv viewName viewID viewConfig id2Type log with
      ⟨err, h, _⟩ | ⟨hne, rr, hres, hempty, _⟩ | ⟨hne, rr, hres, hrne⟩
    · rw [h] at hok
      cases hok
    · exact ⟨hne, rr, hres, Or.inl hempty⟩
    · refine ⟨hne, rr, hres, Or.inr ?_⟩
      by_contra hw
      have heq := congrArg Prod.fst
        (crawlServiceTree_stuck lib c srv viewName viewID viewConfig id2Type log rr hne hres
          hrne (not_lt.mp hw))
      rw [hok] at heq
      cases heq
  · rintro ⟨hne, rr, hres, hcase⟩
    by_cases h1 : rr.Result = []
    · have h0 : ¬ viewConfig.Topo.length = 0 := fun h => hne (List.length_eq_zero.mp h)
      have h2 : rr.Result.length = 0 := by rw [h1]; rfl
      refine ⟨⟨viewName, viewID, viewConfig, [], 0, 0⟩, ?_⟩
      unfold CrawlServiceTree
      simp only [h0, if_false, hres, h2, if_true]
    · rcases hcase with h | hw
      · exact absurd h h1
      · exact ⟨_, congrArg Prod.fst
          (crawlServiceTree_eq lib c srv viewName viewID viewConfig id2Type log rr hne hres h1
            hw)⟩

/-- C16 (refuted as stated): under the default crawler with a worker limit of
0, statistics enabled, a view with a leaf type and a statistics lookup that
fails, the failure is logged by the statistics phase, every root task then
waits at the semaphore, and `CrawlServiceTree` does not return. -/
theorem C16_counterexample :
    idleCrawler.includeStats = true ∧ leafView.Leaf ≠ [] ∧ idleCrawler.maxWorkers = 0 ∧
    (statsPhase sampleLib idleCrawler scenarioServer
      [newNode [] (mkInstance 10 1 "a") 0, newNode [] (mkInstance 11 1 "b") 0] leafView
      [rootRequest sampleLib idleCrawler leafView]).2.1 =
      some "failed to get statistics: failed to get CI relation statistics: down" ∧
    (CrawlServiceTree sampleLib idleCrawler scenarioServer "view" 1 leafView [] []).1 = none ∧
    (¬ ∃ data, (CrawlServiceTree sampleLib idleCrawler scenarioServer "view" 1 leafView
      [] []).1 = some (Except.ok data)) := by
  refine ⟨rfl, by decide, rfl, rfl, rfl, ?_⟩
  rintro ⟨data, h⟩
  cases h

/-- C16 (amended): with statistics enabled and at least one leaf type, when
the statistics lookup fails, the failure is returned by the statistics phase
and only logged there, the roots staying as they were; `CrawlServiceTree`
still returns a result whenever the root search succeeds and the worker limit
is positive, and whenever it returns one with statistics disabled; no root of
a result has a statistics mapping, and (the related search answering each
request the same way in both runs) the outcome is exactly the outcome with
statistics disabled. -/
theorem C16_statistics_failure (lib : Lib) (c : ServiceTreeCrawler) (srv : Server)
    (viewName : String) (viewID : Int) (viewConfig : ServiceTreeView)
    (id2Type : GoMap CIType) (log : List Request)
    (hstats : c.includeStats = true) (hleaf : viewConfig.Leaf ≠ [])
    (hfail : ∀ log2 params, ∃ err,
      (GetCIRelationStatistics lib c.client (srv.statistics log2) params).result =
        Except.error err) :
    (∀ roots lg, roots ≠ [] →
      ∃ err, (statsPhase lib c srv roots viewConfig lg).2.1 = some err ∧
        (statsPhase lib c srv roots viewConfig lg).1 = roots) ∧
    (0 < c.maxWorkers → viewConfig.Topo ≠ [] →
      (∃ rootResp, (SearchCI lib c.client (srv.search log)
        (BuildCITypeQuery (viewConfig.Topo.getD 0 [])) c.pageSize false).result =
          Except.ok rootResp) →
      ∃ data, (CrawlServiceTree lib c srv viewName viewID viewConfig id2Type log).1 =
        some (Except.ok data)) ∧
    ((∃ data, (CrawlServiceTree lib { c with includeStats := false } srv viewName viewID
        viewConfig id2Type log).1 = some (Except.ok data)) →
      ∃ data, (CrawlServiceTree lib c srv viewName viewID viewConfig id2Type log).1 =
        some (Except.ok data)) ∧
    (∀ data, (CrawlServiceTree lib c srv viewName viewID viewConfig id2Type log).1 =
        some (Except.ok data) → ∀ r ∈ data.RootNodes, r.Statistics = none) ∧
    ((∀ la lb req, srv.related la req = srv.related lb req) →
      (CrawlServiceTree lib c srv viewName viewID viewConfig id2Type log).1 =
      (CrawlServiceTree lib { c with includeStats := false } srv viewName viewID viewConfig
        id2Type log).1) := by
  refine ⟨?_, ?_, ?_, ?_, ?_⟩
  · intro roots lg hroots
    have hr : ¬ roots.length = 0 := fun h => hroots (List.length_eq_zero.mp h)
    have hl : viewConfig.Leaf.length > 0 := List.length_pos.mpr hleaf
    have hl0 : ¬ viewConfig.Leaf.length = 0 := by omega
    obtain ⟨err, herr⟩ := hfail lg
      [("root_ids", Any.str (stringsJoin (roots.map (fun node => itoa node.ID)) ",")),
       ("level", Any.int (viewConfig.TopoFlatten.length : Int)),
       ("type_ids", Any.ints viewConfig.Leaf),
       ("has_m2m", Any.int 0)]
    refine ⟨"failed to get statistics: " ++ err, ?_, statsPhase_fail lib c srv roots viewConfig lg hfail⟩
    unfold statsPhase loadRootNodeStatistics
    simp only [hstats, hl, and_self, if_true, hr, hl0, or_self, if_false, herr]
  · rintro hw hne ⟨rootResp, hres⟩
    rcases crawlServiceTree_cases lib c srv viewName viewID viewConfig id2Type log with
      ⟨err, _, h | ⟨err2, h⟩⟩ | ⟨_, rr, _, _, h⟩ | ⟨_, rr, hr, hrne⟩
    · exact absurd h hne
    · rw [hres] at h
      cases h
    · exact ⟨_, h⟩
    · exact ⟨_, congrArg Prod.fst
        (crawlServiceTree_eq lib c srv viewName viewID viewConfig id2Type log rr hne hr hrne hw)⟩
  · intro hoff
    exact (crawlServiceTree_ok_iff lib c srv viewName viewID viewConfig id2Type log).mpr
      ((crawlServiceTree_ok_iff lib { c with includeStats := false } srv viewName viewID
        viewConfig id2Type log).mp hoff)
  · intro data hok r hr
    rcases crawlServiceTree_cases lib c srv viewName viewID viewConfig id2Type log with
      ⟨err, h, _⟩ | ⟨_, rr, _, _, h⟩ | ⟨hne, rr, hres, hrne⟩
    · rw [h] at hok
      cases hok
    · rw [h] at hok
      cases hok
      cases hr
    · by_cases hw : 0 < c.maxWorkers
      · have heq := congrArg Prod.fst
          (crawlServiceTree_eq lib c srv viewName viewID viewConfig id2Type log rr hne hres hrne
            hw)
        rw [hok, statsPhase_fail lib c srv _ viewConfig _ hfail] at heq
        cases heq
        obtain ⟨root, hroot, log2, rfl⟩ := expandRoots_mem _ _ _ _ _ _ _ _ hr
        obtain ⟨ci, _, rfl⟩ := List.mem_map.mp hroot
        exact (crawlFuel_frame lib c srv viewConfig id2Type _ _ 1 log2).2.2.2.2.2.2.2
      · have heq := congrArg Prod.fst
          (crawlServiceTree_stuck lib c srv viewName viewID viewConfig id2Type log rr hne hres
            hrne (not_lt.mp hw))
        rw [hok] at heq
        cases heq
  · intro hsrv
    rcases crawlServiceTree_cases lib c srv viewName viewID viewConfig id2Type log with
      ⟨err, h, htopo | ⟨err2, hres⟩⟩ | ⟨hne, rr, hres, hempty, h⟩ | ⟨hne, rr, hres, hrne⟩
    · have h0 : viewConfig.Topo.length = 0 := by rw [htopo]; rfl
      unfold CrawlServiceTree
      simp only [h0, if_true]
    · have hres2 : (SearchCI lib ({ c with includeStats := false } : ServiceTreeCrawler).client
          (srv.search log) (BuildCITypeQuery (viewConfig.Topo.getD 0 []))
          ({ c with includeStats := false } : ServiceTreeCrawler).pageSize false).result =
          Except.error err2 := hres
      unfold CrawlServiceTree
      simp only [hres, hres2]
    · have hres2 : (SearchCI lib ({ c with includeStats := false } : ServiceTreeCrawler).client
          (srv.search log) (BuildCITypeQuery (viewConfig.Topo.getD 0 []))
          ({ c with includeStats := false } : ServiceTreeCrawler).pageSize false).result =
          Except.ok rr := hres
      have h1 : rr.Result.length = 0 := by rw [hempty]; rfl
      unfold CrawlServiceTree
      simp only [hres, hres2, h1, if_true]
    · have hres2 : (SearchCI lib ({ c with includeStats := false } : ServiceTreeCrawler).client
          (srv.search log) (BuildCITypeQuery (viewConfig.Topo.getD 0 []))
          ({ c with includeStats := false } : ServiceTreeCrawler).pageSize false).result =
          Except.ok rr := hres
      by_cases hw : 0 < c.maxWorkers
      · have hw2 : 0 < ({ c with includeStats := false } : ServiceTreeCrawler).maxWorkers := hw
        rw [crawlServiceTree_eq lib c srv viewName viewID viewConfig id2Type log rr hne hres
            hrne hw,
          crawlServiceTree_eq lib { c with includeStats := false } srv viewName viewID
            viewConfig id2Type log rr hne hres2 hrne hw2]
        simp only
        rw [statsPhase_fail lib c srv _ viewConfig _ hfail]
        have hoff : (statsPhase lib { c with includeStats := false } srv
            (rr.Result.map (fun ci => newNode id2Type ci 0)) viewConfig
            (log ++ (SearchCI lib ({ c with includeStats := false } : ServiceTreeCrawler).client
              (srv.search log) (BuildCITypeQuery (viewConfig.Topo.getD 0 []))
              ({ c with includeStats := false } : ServiceTreeCrawler).pageSize
              false).requests)).1 =
            rr.Result.map (fun ci => newNode id2Type ci 0) := by
          unfold statsPhase
          simp
        rw [hoff]
        rw [expandRoots_indep lib c srv viewConfig id2Type hsrv _ _ _]
      · have hw1 : c.maxWorkers ≤ 0 := not_lt.mp hw
        have hw2 : ({ c with includeStats := false } : ServiceTreeCrawler).maxWorkers ≤ 0 := hw1
        rw [crawlServiceTree_stuck lib c srv viewName viewID viewConfig id2Type log rr hne hres
            hrne hw1,
          crawlServiceTree_stuck lib { c with includeStats := false } srv viewName viewID
            viewConfig id2Type log rr hne hres2 hrne hw2]

theorem C16_statistics_failure_witness :
    (CrawlServiceTree sampleLib sampleCrawler scenarioServer "view" 1 leafView [] []).1 =
      (CrawlServiceTree sampleLib { sampleCrawler with includeStats := false } scenarioServer
        "view" 1 leafView [] []).1 ∧
    (∃ err, (statsPhase sampleLib sampleCrawler scenarioServer [mkNode 10 "a" []] leafView
      []).2.1 = some err) ∧
    (∃ data, (CrawlServiceTree sampleLib sampleCrawler scenarioServer "view" 1 leafView [] []).1 =
      some (Except.ok data)) :=
  ⟨(C16_statistics_failure sampleLib sampleCrawler scenarioServer "view" 1 leafView [] []
      rfl (by decide)
      (fun _ _ => ⟨"failed to get CI relation statistics: down", rfl⟩)).2.2.2.2
      (fun _ _ _ => rfl),
   match (C16_statistics_failure sampleLib sampleCrawler scenarioServer "view" 1 leafView [] []
      rfl (by decide)
      (fun _ _ => ⟨"failed to get CI relation statistics: down", rfl⟩)).1
      [mkNode 10 "a" []] [] (by simp) with
   | ⟨err, herr, _⟩ => ⟨err, herr⟩,
   (C16_statistics_failure sampleLib sampleCrawler scenarioServer "view" 1 leafView [] []
      rfl (by decide)
      (fun _ _ => ⟨"failed to get CI relation statistics: down", rfl⟩)).2.1
      (by decide) (by decide)
      ⟨_, searchCI_root_result sampleLib sampleCrawler scenarioServer leafView []
        ⟨200, "ok", ⟨[mkInstance 10 1 "a", mkInstance 11 1 "b"], 2, 2, 1⟩⟩ rfl rfl⟩⟩


/-! ### Crawler: the recursion budget -/

/-- The recursion budget does not matter once it covers the topology levels
below `lvl`: the budget `len(viewConfig.Topo) - lvl` that `crawlNodeChildren`
passes is never exhausted. -/
theorem crawlFuel_budget (lib : Lib) (c : ServiceTreeCrawler) (srv : Server)
    (viewConfig : ServiceTreeView) (id2Type : GoMap CIType) :
    ∀ (fuel1 fuel2 : Nat) (node : ServiceTreeNode) (lvl : Nat) (log : List Request),
      viewConfig.Topo.length - lvl ≤ fuel1 → viewConfig.Topo.length - lvl ≤ fuel2 →
      crawlNodeChildrenFuel lib c srv viewConfig id2Type fuel1 node lvl log =
      crawlNodeChildrenFuel lib c srv viewConfig id2Type fuel2 node lvl log := by
  intro fuel1
  induction fuel1 with
  | zero =>
    intro fuel2 node lvl log h1 h2
    have hge : lvl ≥ viewConfig.Topo.length := by omega
    unfold crawlNodeChildrenFuel
    simp only [hge, if_true]
  | succ f1 ih =>
    intro fuel2 node lvl log h1 h2
    by_cases hge : lvl ≥ viewConfig.Topo.length
    · unfold crawlNodeChildrenFuel
      simp only [hge, if_true]
    · cases fuel2 with
      | zero => omega
      | succ f2 =>
        have hdesc : (fun child log2 =>
            crawlNodeChildrenFuel lib c srv viewConfig id2Type f1 child (lvl + 1) log2) =
            (fun child log2 =>
            crawlNodeChildrenFuel lib c srv viewConfig id2Type f2 child (lvl + 1) log2) := by
          funext child log2
          exact ih f2 child (lvl + 1) log2 (by omega) (by omega)
        rw [crawlNodeChildrenFuel, crawlNodeChildrenFuel]
        simp only [hdesc]


/-! ### Crawler: counts, levels and depth of a result -/

/-- Every root of a result of `CrawlServiceTree` is what `crawlNodeChildren`
at level 1 left of a node built at level 0 from an instance. -/
theorem crawlServiceTree_root (lib : Lib) (c : ServiceTreeCrawler) (srv : Server)
    (viewName : String) (viewID : Int) (viewConfig : ServiceTreeView)
    (id2Type : GoMap CIType) (log : List Request) (data : ServiceTreeData)
    (hok : (CrawlServiceTree lib c srv viewName viewID viewConfig id2Type log).1 =
      some (Except.ok data)) :
    ∀ r ∈ data.RootNodes, ∃ ci st log2,
      r = (crawlNodeChildren lib c srv { newNode id2Type ci 0 with Statistics := st }
        viewConfig id2Type 1 log2).1 := by
  obtain ⟨_, hdata | ⟨roots, log2, hroots, hdata⟩⟩ :=
    crawlServiceTree_ok lib c srv viewName viewID viewConfig id2Type log data hok
  · intro r hr
    rw [hdata] at hr
    cases hr
  · intro r hr
    have hr2 : r ∈ (expandRoots lib c srv viewConfig id2Type roots log2).1 := by
      rw [hdata] at hr
      exact hr
    obtain ⟨root, hroot, log3, rfl⟩ := expandRoots_mem _ _ _ _ _ _ _ _ hr2
    obtain ⟨ci, st, rfl⟩ := hroots root hroot
    exact ⟨ci, st, log3, rfl⟩

theorem crawlServiceTree_root_level (lib : Lib) (c : ServiceTreeCrawler) (srv : Server)
    (viewName : String) (viewID : Int) (viewConfig : ServiceTreeView)
    (id2Type : GoMap CIType) (log : List Request) (data : ServiceTreeData)
    (hok : (CrawlServiceTree lib c srv viewName viewID viewConfig id2Type log).1 =
      some (Except.ok data)) :
    ∀ r ∈ data.RootNodes, r.Level = 0 ∧ r.Path = "" := by
  intro r hr
  obtain ⟨ci, st, log2, rfl⟩ :=
    crawlServiceTree_root lib c srv viewName viewID viewConfig id2Type log data hok r hr
  have hf := crawlFuel_frame lib c srv viewConfig id2Type (viewConfig.Topo.length - 1)
    { newNode id2Type ci 0 with Statistics := st } 1 log2
  exact ⟨hf.2.2.2.2.2.1, hf.2.2.2.2.1⟩

/-- C21: whatever the view, the configuration and the answers, failures or
depth cut-offs met, every node of a tree returned by `CrawlServiceTree` has
`ChildCount` equal to the length of its child list. -/
theorem C21_child_count (lib : Lib) (c : ServiceTreeCrawler) (srv : Server)
    (viewName : String) (viewID : Int) (viewConfig : ServiceTreeView)
    (id2Type : GoMap CIType) (log : List Request) (data : ServiceTreeData)
    (hok : (CrawlServiceTree lib c srv viewName viewID viewConfig id2Type log).1 =
      some (Except.ok data)) :
    ∀ r ∈ data.RootNodes, ∀ n, (n = r ∨ n ∈ GetAllDescendants r) →
      n.ChildCount = (n.Children.length : Int) := by
  intro r hr n hn
  have hall := allNodes_imp _ (fun n => n.ChildCount = (n.Children.length : Int))
    (fun m (hm : NodeOK id2Type viewConfig.Topo.length c.maxDepth m) => hm.2.1)
    r (crawlServiceTree_nodeOK lib c srv viewName viewID viewConfig id2Type log data hok r hr)
  rw [allNodes_iff_descendants] at hall
  rcases hn with rfl | hn
  · exact hall.1
  · exact hall.2 n hn

theorem C21_child_count_witness :
    (scenarioData.RootNodes.getD 0 (mkNode 0 "" [])).ChildCount = 1 ∧
    (scenarioData.RootNodes.getD 0 (mkNode 0 "" [])).Children.length = 1 :=
  ⟨(C21_child_count sampleLib sampleCrawler scenarioServer "view" 1
      (mkView [[1], [2], [3]]) [("2", ⟨2, "app", "Application", "", ""⟩)] [] scenarioData rfl
      (scenarioData.RootNodes.getD 0 (mkNode 0 "" [])) (List.Mem.head _)
      (scenarioData.RootNodes.getD 0 (mkNode 0 "" [])) (Or.inl rfl)).trans (by decide),
   by decide⟩

mutual
theorem levelsFrom_of_allNodes : ∀ (n : ServiceTreeNode) (lvl : Int),
    AllNodes (fun m => ∀ k ∈ m.Children, k.Level = m.Level + 1) n → n.Level = lvl →
    LevelsFrom n lvl
  | ServiceTreeNode.mk _ _ _ _ _ level children _ _ _ _, lvl, hall, hlvl => by
    rw [AllNodes] at hall
    rw [LevelsFrom]
    refine ⟨hlvl, levelsFromList_of_allNodes children (lvl + 1) hall.2 ?_⟩
    intro k hk
    have := hall.1 k hk
    simp only at this hlvl
    rw [this, hlvl]
theorem levelsFromList_of_allNodes : ∀ (cs : List ServiceTreeNode) (lvl : Int),
    AllNodesList (fun m => ∀ k ∈ m.Children, k.Level = m.Level + 1) cs →
    (∀ k ∈ cs, k.Level = lvl) → LevelsFromList cs lvl
  | [], _, _, _ => by
    rw [LevelsFromList]
    trivial
  | k :: cs, lvl, hall, hlvl => by
    rw [AllNodesList] at hall
    rw [LevelsFromList]
    exact ⟨levelsFrom_of_allNodes k lvl hall.1 (hlvl k (List.mem_cons_self _ _)),
      levelsFromList_of_allNodes cs lvl hall.2 (fun j hj => hlvl j (List.mem_cons_of_mem _ hj))⟩
end

/-- C22: whatever the view, the configuration and the answers of the remote
search, every node of a tree returned by `CrawlServiceTree` has `Level` equal
to its depth in the tree: every root has level 0 and every child has the
level of its parent plus one. -/
theorem C22_levels (lib : Lib) (c : ServiceTreeCrawler) (srv : Server)
    (viewName : String) (viewID : Int) (viewConfig : ServiceTreeView)
    (id2Type : GoMap CIType) (log : List Request) (data : ServiceTreeData)
    (hok : (CrawlServiceTree lib c srv viewName viewID viewConfig id2Type log).1 =
      some (Except.ok data)) :
    ∀ r ∈ data.RootNodes, r.Level = 0 ∧ LevelsFrom r 0 ∧
      ∀ n, (n = r ∨ n ∈ GetAllDescendants r) → ∀ k ∈ n.Children, k.Level = n.Level + 1 := by
  intro r hr
  have hall := allNodes_imp _ (fun m => ∀ k ∈ m.Children, k.Level = m.Level + 1)
    (fun m (hm : NodeOK id2Type viewConfig.Topo.length c.maxDepth m) => hm.2.2.2.1)
    r (crawlServiceTree_nodeOK lib c srv viewName viewID viewConfig id2Type log data hok r hr)
  have h0 := (crawlServiceTree_root_level lib c srv viewName viewID viewConfig id2Type log data
    hok r hr).1
  refine ⟨h0, levelsFrom_of_allNodes r 0 hall h0, ?_⟩
  intro n hn
  rw [allNodes_iff_descendants] at hall
  rcases hn with rfl | hn
  · exact hall.1
  · exact hall.2 n hn

theorem C22_levels_witness :
    (scenarioData.RootNodes.getD 0 (mkNode 0 "" [])).Level = 0 ∧
    ((scenarioData.RootNodes.getD 0 (mkNode 0 "" [])).Children.getD 0 (mkNode 0 "" [])).Level
      = 1 :=
  ⟨(C22_levels sampleLib sampleCrawler scenarioServer "view" 1
      (mkView [[1], [2], [3]]) [("2", ⟨2, "app", "Application", "", ""⟩)] [] scenarioData rfl
      (scenarioData.RootNodes.getD 0 (mkNode 0 "" [])) (List.Mem.head _)).1,
   ((C22_levels sampleLib sampleCrawler scenarioServer "view" 1
      (mkView [[1], [2], [3]]) [("2", ⟨2, "app", "Application", "", ""⟩)] [] scenarioData rfl
      (scenarioData.RootNodes.getD 0 (mkNode 0 "" [])) (List.Mem.head _)).2.2
      (scenarioData.RootNodes.getD 0 (mkNode 0 "" [])) (Or.inl rfl)
      ((scenarioData.RootNodes.getD 0 (mkNode 0 "" [])).Children.getD 0 (mkNode 0 "" []))
      (List.Mem.head _)).trans (by decide)⟩


mutual
theorem depth_le_of_levels (B : Int) : ∀ (n : ServiceTreeNode),
    AllNodes (fun m => (∀ k ∈ m.Children, k.Level = m.Level + 1) ∧ m.Level < B) n →
    n.Level + depth n ≤ B
  | ServiceTreeNode.mk _ _ _ _ _ level children _ _ _ _, hall => by
    rw [AllNodes] at hall
    have hlist := depthMax_le_of_levels B children (level + 1) hall.2 hall.1.1
      (by have := hall.1.2; simp only at this; omega)
    rw [depth]
    have hnn := depthMax_nonneg children
    simp only
    split <;> omega
theorem depthMax_le_of_levels (B : Int) : ∀ (cs : List ServiceTreeNode) (lvl : Int),
    AllNodesList (fun m => (∀ k ∈ m.Children, k.Level = m.Level + 1) ∧ m.Level < B) cs →
    (∀ k ∈ cs, k.Level = lvl) → lvl ≤ B → lvl + depthMax cs ≤ B
  | [], lvl, _, _, hle => by
    rw [depthMax]
    omega
  | k :: cs, lvl, hall, hlvl, hle => by
    rw [AllNodesList] at hall
    have hk := depth_le_of_levels B k hall.1
    rw [hlvl k (List.mem_cons_self _ _)] at hk
    have hcs := depthMax_le_of_levels B cs lvl hall.2
      (fun j hj => hlvl j (List.mem_cons_of_mem _ hj)) hle
    rw [depthMax]
    rcases max_cases (depth k) (depthMax cs) with ⟨h, _⟩ | ⟨h, _⟩ <;> rw [h] <;> assumption
end

theorem depth_pos (n : ServiceTreeNode) : 1 ≤ depth n := by
  obtain ⟨_, _, _, _, _, _, children, _, _, _, _⟩ := n
  rw [depth]
  have := depthMax_nonneg children
  split <;> omega

theorem depthMax_ge_of_mem (cs : List ServiceTreeNode) (n : ServiceTreeNode) (hn : n ∈ cs) :
    depth n ≤ depthMax cs := by
  induction cs with
  | nil => cases hn
  | cons k cs ih =>
    rw [depthMax]
    rcases List.mem_cons.mp hn with rfl | h
    · exact le_max_left _ _
    · exact le_trans (ih h) (le_max_right _ _)

theorem crawlServiceTree_maxDepth (lib : Lib) (c : ServiceTreeCrawler) (srv : Server)
    (viewName : String) (viewID : Int) (viewConfig : ServiceTreeView)
    (id2Type : GoMap CIType) (log : List Request) (data : ServiceTreeData)
    (hok : (CrawlServiceTree lib c srv viewName viewID viewConfig id2Type log).1 =
      some (Except.ok data)) :
    data.MaxDepth = depthMax data.RootNodes ∧
    data.TotalNodes = (forestCount data.RootNodes : Int) := by
  obtain ⟨_, hdata | ⟨roots, log2, _, hdata⟩⟩ :=
    crawlServiceTree_ok lib c srv viewName viewID viewConfig id2Type log data hok
  · rw [hdata]
    simp [depthMax, forestCount]
  · have hR : data.RootNodes = (expandRoots lib c srv viewConfig id2Type roots log2).1 := by
      rw [hdata]
      rfl
    have hM : data.MaxDepth = (CalculateMaxDepth ⟨viewName, viewID, viewConfig,
        (expandRoots lib c srv viewConfig id2Type roots log2).1, 0, 0⟩).1 := by
      rw [hdata]
      rfl
    have hT : data.TotalNodes = (CountNodes ⟨viewName, viewID, viewConfig,
        (expandRoots lib c srv viewConfig id2Type roots log2).1, 0, 0⟩).1 := by
      rw [hdata]
      rfl
    rw [hR, hM, hT]
    constructor
    · simp only [CalculateMaxDepth]
      rw [calculateMaxDepth_foldl _ 0 (le_refl 0)]
      exact max_eq_right (depthMax_nonneg _)
    · simp only [CountNodes, countNodes_foldl]
      rw [forestCount_eq]

/-- C28: for a result of `CrawlServiceTree` with at least one root, over a
topology of `L` levels and with depth limit `m`: `1 <= MaxDepth <= L`, and
`MaxDepth <= m` when `m` is positive; no node of the result has `Level >= L`,
nor `Level >= m` when `m` is positive. -/
theorem C28_depth_bounds (lib : Lib) (c : ServiceTreeCrawler) (srv : Server)
    (viewName : String) (viewID : Int) (viewConfig : ServiceTreeView)
    (id2Type : GoMap CIType) (log : List Request) (data : ServiceTreeData)
    (hok : (CrawlServiceTree lib c srv viewName viewID viewConfig id2Type log).1 =
      some (Except.ok data))
    (hroots : data.RootNodes ≠ []) :
    1 ≤ data.MaxDepth ∧ data.MaxDepth ≤ (viewConfig.Topo.length : Int) ∧
    (c.maxDepth > 0 → data.MaxDepth ≤ c.maxDepth) ∧
    (∀ r ∈ data.RootNodes, ∀ n, (n = r ∨ n ∈ GetAllDescendants r) →
      n.Level < (viewConfig.Topo.length : Int) ∧ (c.maxDepth > 0 → n.Level < c.maxDepth)) := by
  have hmd := (crawlServiceTree_maxDepth lib c srv viewName viewID viewConfig id2Type log data
    hok).1
  have hok2 := crawlServiceTree_nodeOK lib c srv viewName viewID viewConfig id2Type log data hok
  have hlvl := crawlServiceTree_root_level lib c srv viewName viewID viewConfig id2Type log
    data hok
  have hbound : ∀ B : Int, (∀ m, NodeOK id2Type viewConfig.Topo.length c.maxDepth m →
      m.Level < B) → 0 ≤ B → depthMax data.RootNodes ≤ B := by
    intro B hB hB0
    have h := depthMax_le_of_levels B data.RootNodes 0
      ((allNodesList_iff _ _).mpr (fun r hr =>
        allNodes_imp _ _ (fun m hm => ⟨hm.2.2.2.1, hB m hm⟩) r (hok2 r hr)))
      (fun r hr => (hlvl r hr).1) hB0
    omega
  refine ⟨?_, ?_, ?_, ?_⟩
  · obtain ⟨r, rest, hr⟩ := List.exists_cons_of_ne_nil hroots
    rw [hmd]
    have h1 := depth_pos r
    have h2 := depthMax_ge_of_mem data.RootNodes r (by rw [hr]; exact List.mem_cons_self _ _)
    omega
  · rw [hmd]
    exact hbound _ (fun m hm => hm.2.2.2.2.2.1) (by omega)
  · intro hpos
    rw [hmd]
    exact hbound _ (fun m hm => hm.2.2.2.2.2.2 hpos) (by omega)
  · intro r hr n hn
    have hall := allNodes_imp _
      (fun m => m.Level < (viewConfig.Topo.length : Int) ∧
        (c.maxDepth > 0 → m.Level < c.maxDepth))
      (fun m (hm : NodeOK id2Type viewConfig.Topo.length c.maxDepth m) =>
        ⟨hm.2.2.2.2.2.1, hm.2.2.2.2.2.2⟩) r (hok2 r hr)
    rw [allNodes_iff_descendants] at hall
    rcases hn with rfl | hn
    · exact hall.1
    · exact hall.2 n hn

theorem C28_depth_bounds_witness :
    1 ≤ scenarioData.MaxDepth ∧ scenarioData.MaxDepth ≤ 3 :=
  ⟨(C28_depth_bounds sampleLib sampleCrawler scenarioServer "view" 1
      (mkView [[1], [2], [3]]) [("2", ⟨2, "app", "Application", "", ""⟩)] [] scenarioData rfl
      (by intro h; exact absurd (congrArg List.length h) (by decide))).1,
   (C28_depth_bounds sampleLib sampleCrawler scenarioServer "view" 1
      (mkView [[1], [2], [3]]) [("2", ⟨2, "app", "Application", "", ""⟩)] [] scenarioData rfl
      (by intro h; exact absurd (congrArg List.length h) (by decide))).2.1⟩


/-! ### Crawler: outcomes of the descent -/

theorem crawlFuel_step_stop (lib : Lib) (c : ServiceTreeCrawler) (srv : Server)
    (viewConfig : ServiceTreeView) (id2Type : GoMap CIType) (fuel : Nat)
    (node : ServiceTreeNode) (lvl : Nat) (log : List Request)
    (hstop : ¬ Searches c viewConfig lvl) :
    ((c.maxDepth > 0 ∧ (lvl : Int) ≥ c.maxDepth) ∧
      crawlNodeChildrenFuel lib c srv viewConfig id2Type fuel node lvl log =
        (node, none, log)) ∨
    (¬ (c.maxDepth > 0 ∧ (lvl : Int) ≥ c.maxDepth) ∧
      crawlNodeChildrenFuel lib c srv viewConfig id2Type fuel node lvl log =
        ({ node with IsLeaf := true }, none, log)) := by
  unfold crawlNodeChildrenFuel
  by_cases h1 : c.maxDepth > 0 ∧ (lvl : Int) ≥ c.maxDepth
  · left
    refine ⟨h1, ?_⟩
    simp only [h1, and_self, if_true]
  · right
    refine ⟨h1, ?_⟩
    by_cases h2 : lvl ≥ viewConfig.Topo.length
    · simp only [h1, h2, if_true, if_false]
    · have h3 : (viewConfig.Topo.getD lvl []).length = 0 := by
        by_contra hne
        exact hstop ⟨h1, not_le.mp h2, fun h => hne (by rw [h]; rfl)⟩
      simp only [h1, h2, h3, if_true, if_false]

theorem crawlFuel_step_exhausted (lib : Lib) (c : ServiceTreeCrawler) (srv : Server)
    (viewConfig : ServiceTreeView) (id2Type : GoMap CIType)
    (node : ServiceTreeNode) (lvl : Nat) (log : List Request)
    (resp : CIRelationSearchResponse)
    (hs : Searches c viewConfig lvl)
    (hres : (SearchCIRelation lib c.client (srv.related log)
      (crawlNodeChildren.params c node viewConfig lvl)).result = Except.ok resp)
    (hne : resp.Result ≠ []) :
    crawlNodeChildrenFuel lib c srv viewConfig id2Type 0 node lvl log =
      (node, some "recursion budget exhausted",
        log ++ (SearchCIRelation lib c.client (srv.related log)
          (crawlNodeChildren.params c node viewConfig lvl)).requests) := by
  have h2 : ¬ lvl ≥ viewConfig.Topo.length := not_le.mpr hs.2.1
  have h3 : ¬ (viewConfig.Topo.getD lvl []).length = 0 :=
    fun h => hs.2.2 (List.length_eq_zero.mp h)
  have h4 : ¬ resp.Result.length = 0 := fun h => hne (List.length_eq_zero.mp h)
  unfold crawlNodeChildrenFuel
  simp only [hs.1, h2, h3, if_false, hres, h4]

/-- With no depth limit and a related search that always succeeds, every
node that the descent leaves under a freshly built node is marked leaf
exactly when it has no children. -/
theorem crawlFuel_leaf_iff (lib : Lib) (c : ServiceTreeCrawler) (srv : Server)
    (viewConfig : ServiceTreeView) (id2Type : GoMap CIType)
    (hnolimit : c.maxDepth ≤ 0)
    (hsucc : ∀ lg req, ∃ resp, srv.related lg req = Except.ok resp ∧ resp.StatusCode = 200) :
    ∀ (fuel : Nat) (node : ServiceTreeNode) (lvl : Nat) (log : List Request),
      viewConfig.Topo.length - lvl ≤ fuel → node.Children = [] → node.IsLeaf = false →
      AllNodes (fun n => n.IsLeaf = true ↔ n.Children = [])
        (crawlNodeChildrenFuel lib c srv viewConfig id2Type fuel node lvl log).1 := by
  have hmax : ∀ lvl : Nat, ¬ (c.maxDepth > 0 ∧ (lvl : Int) ≥ c.maxDepth) := by
    intro lvl h
    omega
  have hleafcase : ∀ node : ServiceTreeNode, node.Children = [] →
      AllNodes (fun n => n.IsLeaf = true ↔ n.Children = []) { node with IsLeaf := true } := by
    intro node hch
    rw [allNodes_iff]
    show (true = true ↔ node.Children = []) ∧ AllNodesList _ node.Children
    rw [hch]
    exact ⟨⟨fun _ => rfl, fun _ => rfl⟩, by rw [AllNodesList]; trivial⟩
  intro fuel
  induction fuel with
  | zero =>
    intro node lvl log hfuel hch hleaf
    by_cases hs : Searches c viewConfig lvl
    · have := hs.2.1
      omega
    · rcases crawlFuel_step_stop lib c srv viewConfig id2Type 0 node lvl log hs with
        ⟨hm, _⟩ | ⟨_, h⟩
      · exact absurd hm (hmax lvl)
      · rw [h]
        exact hleafcase node hch
  | succ fuel1 ih =>
    intro node lvl log hfuel hch hleaf
    by_cases hs : Searches c viewConfig lvl
    · obtain ⟨http, htr, h200⟩ := hsucc log (relatedRequest lib c node viewConfig lvl)
      have hres := searchCIRelation_result lib c srv node viewConfig lvl log http htr h200
      by_cases hne : http.Result.Result = []
      · rw [crawlFuel_step_empty lib c srv viewConfig id2Type _ node lvl log http.Result
          hs.1 hs.2.1 hs.2.2 hres hne]
        exact hleafcase node hch
      · rw [crawlFuel_step_children lib c srv viewConfig id2Type fuel1 node lvl log http.Result
          hs.1 hs.2.1 hs.2.2 hres hne]
        rw [allNodes_iff]
        simp only [hch, List.nil_append]
        have hlen := crawlKids_length id2Type lvl
          (fun child log2 =>
            crawlNodeChildrenFuel lib c srv viewConfig id2Type fuel1 child (lvl + 1) log2)
          node http.Result.Result
          (log ++ (SearchCIRelation lib c.client (srv.related log)
            (crawlNodeChildren.params c node viewConfig lvl)).requests)
        refine ⟨⟨fun h => ?_, fun h => ?_⟩, ?_⟩
        · rw [hleaf] at h
          cases h
        · exfalso
          rw [h] at hlen
          exact hne (List.length_eq_zero.mp hlen.symm)
        · rw [allNodesList_iff]
          intro k hk
          obtain ⟨ci, _, log2, rfl⟩ := crawlKids_mem _ _ _ _ _ _ k hk
          exact ih _ (lvl + 1) log2 (by omega) rfl rfl
    · rcases crawlFuel_step_stop lib c srv viewConfig id2Type (fuel1 + 1) node lvl log hs with
        ⟨hm, _⟩ | ⟨_, h⟩
      · exact absurd hm (hmax lvl)
      · rw [h]
        exact hleafcase node hch

/-- C29: with no depth limit (max depth `<= 0`) and every related search
succeeding, every node of a tree returned by `CrawlServiceTree` satisfies
`IsLeaf == true` if and only if its child list is empty. -/
theorem C29_leaf_iff_childless (lib : Lib) (c : ServiceTreeCrawler) (srv : Server)
    (viewName : String) (viewID : Int) (viewConfig : ServiceTreeView)
    (id2Type : GoMap CIType) (log : List Request) (data : ServiceTreeData)
    (hnolimit : c.maxDepth ≤ 0)
    (hsucc : ∀ lg req, ∃ resp, srv.related lg req = Except.ok resp ∧ resp.StatusCode = 200)
    (hok : (CrawlServiceTree lib c srv viewName viewID viewConfig id2Type log).1 =
      some (Except.ok data)) :
    ∀ r ∈ data.RootNodes, ∀ n, (n = r ∨ n ∈ GetAllDescendants r) →
      (n.IsLeaf = true ↔ n.Children = []) := by
  intro r hr n hn
  obtain ⟨ci, st, log2, rfl⟩ :=
    crawlServiceTree_root lib c srv viewName viewID viewConfig id2Type log data hok r hr
  have hall := crawlFuel_leaf_iff lib c srv viewConfig id2Type hnolimit hsucc
    (viewConfig.Topo.length - 1) { newNode id2Type ci 0 with Statistics := st } 1 log2
    (le_refl _) rfl rfl
  rw [allNodes_iff_descendants] at hall
  rcases hn with rfl | hn
  · exact hall.1
  · exact hall.2 n hn

theorem C29_leaf_iff_childless_witness :
    ((scenarioData.RootNodes.getD 0 (mkNode 0 "" [])).IsLeaf = true ↔
      (scenarioData.RootNodes.getD 0 (mkNode 0 "" [])).Children = []) ∧
    (scenarioData.RootNodes.getD 1 (mkNode 0 "" [])).IsLeaf = true :=
  ⟨C29_leaf_iff_childless sampleLib sampleCrawler scenarioServer "view" 1
      (mkView [[1], [2], [3]]) [("2", ⟨2, "app", "Application", "", ""⟩)] [] scenarioData
      (by decide)
      (fun _ req => by
        by_cases h : mapLookup req.params "root_id" = some "10"
        · exact ⟨⟨200, "ok", ⟨[mkInstance 20 2 "c"], 1, 1, 1, Any.null, Any.null⟩⟩,
            by simp [scenarioServer, h], rfl⟩
        · exact ⟨⟨200, "ok", ⟨[], 0, 0, 1, Any.null, Any.null⟩⟩,
            by simp [scenarioServer, h], rfl⟩)
      rfl
      (scenarioData.RootNodes.getD 0 (mkNode 0 "" [])) (List.Mem.head _)
      (scenarioData.RootNodes.getD 0 (mkNode 0 "" [])) (Or.inl rfl),
   by decide⟩


/-! ### Paths -/

theorem intercalate_go_eq (sep : String) (l : List String) (acc : String) :
    String.intercalate.go acc sep l = acc ++ String.join (l.map (fun x => sep ++ x)) := by
  induction l generalizing acc with
  | nil =>
    apply String.ext
    simp [String.intercalate.go, String.join_eq]
  | cons a as ih =>
    rw [String.intercalate.go, ih]
    apply String.ext
    simp [String.join_eq]

theorem intercalate_cons (sep a : String) (l : List String) :
    String.intercalate sep (a :: l) = a ++ String.join (l.map (fun x => sep ++ x)) := by
  show String.intercalate.go a sep l = _
  exact intercalate_go_eq sep l a

theorem join_cons (a : String) (l : List String) :
    String.join (a :: l) = a ++ String.join l := by
  apply String.ext
  simp [String.join_eq]

theorem buildTreePath_ne_empty (n : ServiceTreeNode) (h : n.Name ≠ "") :
    BuildTreePath n ≠ "" := by
  unfold BuildTreePath
  split
  · exact h
  · rename_i hp
    rw [String.append_assoc]
    exact string_append_ne_empty_left _ _ hp

theorem allNodes_child (P : ServiceTreeNode → Prop) (n k : ServiceTreeNode)
    (hn : AllNodes P n) (hk : k ∈ n.Children) : AllNodes P k :=
  (allNodesList_iff P n.Children).mp ((allNodes_iff P n).mp hn).2 k hk

theorem descent_path (rest : List ServiceTreeNode) :
    ∀ (n : ServiceTreeNode), AllNodes ChildPathsOK n → IsDescent n rest →
      (∀ m ∈ n :: rest, m.Name ≠ "") →
      BuildTreePath ((n :: rest).getLast (List.cons_ne_nil _ _)) =
        BuildTreePath n ++ String.join (rest.map (fun m => " > " ++ m.Name)) := by
  induction rest with
  | nil =>
    intro n _ _ _
    apply String.ext
    simp [String.join_eq]
  | cons k rest ih =>
    intro n hall hdesc hnames
    rw [IsDescent] at hdesc
    have hk := ih k (allNodes_child _ n k hall hdesc.1) hdesc.2
      (fun m hm => hnames m (List.mem_cons_of_mem _ hm))
    have hpath : k.Path = BuildTreePath n := ((allNodes_iff _ n).mp hall).1 k hdesc.1
    have hne : k.Path ≠ "" := by
      rw [hpath]
      exact buildTreePath_ne_empty n (hnames n (List.mem_cons_self _ _))
    have hbk : BuildTreePath k = BuildTreePath n ++ (" > " ++ k.Name) := by
      rw [BuildTreePath, if_neg hne, hpath, String.append_assoc]
    rw [List.getLast_cons (List.cons_ne_nil _ _), hk, hbk, List.map_cons, join_cons,
      String.append_assoc]

theorem crawlFuel_paths (lib : Lib) (c : ServiceTreeCrawler) (srv : Server)
    (viewConfig : ServiceTreeView) (id2Type : GoMap CIType) :
    ∀ (fuel : Nat) (node : ServiceTreeNode) (lvl : Nat) (log : List Request),
      node.Children = [] →
      AllNodes ChildPathsOK
        (crawlNodeChildrenFuel lib c srv viewConfig id2Type fuel node lvl log).1 := by
  have hbase : ∀ node : ServiceTreeNode, node.Children = [] →
      AllNodes ChildPathsOK node ∧ AllNodes ChildPathsOK { node with IsLeaf := true } := by
    intro node hch
    constructor
    · rw [allNodes_iff, hch]
      refine ⟨?_, by rw [AllNodesList]; trivial⟩
      intro k hk
      rw [hch] at hk
      cases hk
    · rw [allNodes_iff]
      show ChildPathsOK { node with IsLeaf := true } ∧ AllNodesList _ node.Children
      rw [hch]
      refine ⟨?_, by rw [AllNodesList]; trivial⟩
      intro k hk
      cases hk
  intro fuel
  induction fuel with
  | zero =>
    intro node lvl log hch
    rcases crawlFuel_cases lib c srv viewConfig id2Type 0 node lvl log _ rfl with
      h | h | ⟨_, _, _, hf, _⟩
    · rw [h]
      exact (hbase node hch).1
    · rw [h]
      exact (hbase node hch).2
    · omega
  | succ fuel0 ih =>
    intro node lvl log hch
    rcases crawlFuel_cases lib c srv viewConfig id2Type (fuel0 + 1) node lvl log _ rfl with
      h | h | ⟨fuel1, cis, log1, hf, _, _, _, h⟩
    · rw [h]
      exact (hbase node hch).1
    · rw [h]
      exact (hbase node hch).2
    · have hfuel : fuel1 = fuel0 := by omega
      subst hfuel
      rw [h, allNodes_iff]
      simp only [hch, List.nil_append]
      constructor
      · intro k hk
        obtain ⟨ci, _, log2, rfl⟩ := crawlKids_mem _ _ _ _ _ _ k hk
        rw [(crawlFuel_frame lib c srv viewConfig id2Type fuel1 _ (lvl + 1) log2).2.2.2.2.1]
        rfl
      · rw [allNodesList_iff]
        intro k hk
        obtain ⟨ci, _, log2, rfl⟩ := crawlKids_mem _ _ _ _ _ _ k hk
        exact ih _ (lvl + 1) log2 rfl

/-- C30: after `AddChild`, the path of the child is the full path of the
parent at attach time, so the full path of the child is the full path of the
parent followed by ` > ` and the name of the child when the full path of the
parent is non-empty, and the name of the child otherwise. Consequently, in a
tree assembled that way from a root with empty path in which every name on
the way is non-empty, the full path of a node is the names from the root to
the node joined by ` > `; the trees returned by `CrawlServiceTree` are
assembled that way. -/
theorem C30_tree_paths :
    (∀ parent child : ServiceTreeNode,
      (AddChild parent child).2.Path = BuildTreePath parent ∧
      (BuildTreePath parent ≠ "" → BuildTreePath (AddChild parent child).2 =
        BuildTreePath parent ++ " > " ++ child.Name) ∧
      (BuildTreePath parent = "" → BuildTreePath (AddChild parent child).2 = child.Name) ∧
      ChildPathsOK { (AddChild parent child).1 with Children := [(AddChild parent child).2] }) ∧
    (∀ (root : ServiceTreeNode) (rest : List ServiceTreeNode), root.Path = "" →
      AllNodes ChildPathsOK root → IsDescent root rest →
      (∀ m ∈ root :: rest, m.Name ≠ "") →
      BuildTreePath ((root :: rest).getLast (List.cons_ne_nil _ _)) =
        String.intercalate " > " ((root :: rest).map (fun m => m.Name))) ∧
    (∀ lib c srv viewName viewID viewConfig id2Type log data,
      (CrawlServiceTree lib c srv viewName viewID viewConfig id2Type log).1 =
        some (Except.ok data) →
      ∀ r ∈ data.RootNodes, r.Path = "" ∧ AllNodes ChildPathsOK r) := by
  refine ⟨?_, ?_, ?_⟩
  · intro parent child
    refine ⟨rfl, ?_, ?_, ?_⟩
    · intro hne
      show BuildTreePath { child with Path := BuildTreePath parent, Level := parent.Level + 1 }
        = _
      rw [BuildTreePath]
      simp only [hne, if_false]
    · intro he
      show BuildTreePath { child with Path := BuildTreePath parent, Level := parent.Level + 1 }
        = _
      rw [BuildTreePath]
      simp only [he, if_true]
    · intro k hk
      simp only [List.mem_singleton] at hk
      subst hk
      rfl
  · intro root rest hpath hall hdesc hnames
    rw [descent_path rest root hall hdesc hnames, List.map_cons, intercalate_cons,
      List.map_map]
    have hroot : BuildTreePath root = root.Name := by
      rw [BuildTreePath, if_pos hpath]
    rw [hroot]
    rfl
  · intro lib c srv viewName viewID viewConfig id2Type log data hok r hr
    refine ⟨(crawlServiceTree_root_level lib c srv viewName viewID viewConfig id2Type log data
      hok r hr).2, ?_⟩
    obtain ⟨ci, st, log2, rfl⟩ :=
      crawlServiceTree_root lib c srv viewName viewID viewConfig id2Type log data hok r hr
    exact crawlFuel_paths lib c srv viewConfig id2Type _ _ 1 log2 rfl

theorem C30_tree_paths_witness :
    BuildTreePath ((scenarioData.RootNodes.getD 0 (mkNode 0 "" [])).Children.getD 0
      (mkNode 0 "" [])) = "a > c" :=
  (C30_tree_paths.2.1 (scenarioData.RootNodes.getD 0 (mkNode 0 "" []))
    [(scenarioData.RootNodes.getD 0 (mkNode 0 "" [])).Children.getD 0 (mkNode 0 "" [])]
    rfl
    ((C30_tree_paths.2.2 sampleLib sampleCrawler scenarioServer "view" 1
      (mkView [[1], [2], [3]]) [("2", ⟨2, "app", "Application", "", ""⟩)] [] scenarioData rfl
      (scenarioData.RootNodes.getD 0 (mkNode 0 "" [])) (List.Mem.head _)).2)
    ⟨List.Mem.head _, trivial⟩
    (by
      intro m hm
      simp only [List.mem_cons, List.mem_singleton, List.not_mem_nil, or_false] at hm
      rcases hm with rfl | rfl <;> decide)).trans (by decide)


/-! ### Crawler: the parameters of the related search -/

theorem relatedRequest_lookup_more (lib : Lib) (c : ServiceTreeCrawler)
    (node : ServiceTreeNode) (viewConfig : ServiceTreeView) (lvl : Nat) :
    mapLookup (relatedRequest lib c node viewConfig lvl).params "level" = some "1" ∧
    mapLookup (relatedRequest lib c node viewConfig lvl).params "count" =
      some (itoa c.pageSize) ∧
    mapLookup (relatedRequest lib c node viewConfig lvl).params "descendant_ids" =
      (if viewConfig.TopoFlatten.length > lvl + 1 then
        some (String.intercalate "," ((viewConfig.TopoFlatten.drop (lvl + 1)).map itoa))
       else none) := by
  unfold relatedRequest
  simp only
  rw [addAPIAuth_lookup_other _ _ _ _ _ (by decide) (by decide),
    addAPIAuth_lookup_other _ _ _ _ _ (by decide) (by decide),
    addAPIAuth_lookup_other _ _ _ _ _ (by decide) (by decide)]
  unfold crawlNodeChildren.params
  split
  · refine ⟨?_, ?_, ?_⟩ <;>
      simp [convertParams, mapSet, mapLookup, paramString, stringsJoin]
    rfl
  · refine ⟨?_, ?_, ?_⟩ <;>
      simp [convertParams, mapSet, mapLookup, paramString, stringsJoin]
    rfl

/-- C24 (fails on a level with several types): the related search carries
q = the type query over the current level, root_id = the id of the node,
level = 1 and count = the page size, but descendant_ids is the flattened
topology from index currentLevel+1 on, present exactly when the flattened
topology has more than currentLevel+1 entries. For the topology
[[1],[2,3],[4]] at level 1 the crawler sends "3,4" where the deeper levels
hold type 4 only, and for [[1],[2,3]] at level 1 it sends "3" although no
deeper level exists. -/
theorem C24_descendant_ids (lib : Lib) (c : ServiceTreeCrawler) (node : ServiceTreeNode)
    (viewConfig : ServiceTreeView) (lvl : Nat) :
    (mapLookup (relatedRequest lib c node viewConfig lvl).params "q" =
        some (BuildCITypeQuery (viewConfig.Topo.getD lvl [])) ∧
      mapLookup (relatedRequest lib c node viewConfig lvl).params "root_id" =
        some (itoa node.ID) ∧
      mapLookup (relatedRequest lib c node viewConfig lvl).params "level" = some "1" ∧
      mapLookup (relatedRequest lib c node viewConfig lvl).params "count" =
        some (itoa c.pageSize)) ∧
    mapLookup (relatedRequest lib c node viewConfig lvl).params "descendant_ids" =
      (if viewConfig.TopoFlatten.length > lvl + 1 then
        some (String.intercalate "," ((viewConfig.TopoFlatten.drop (lvl + 1)).map itoa))
       else none) ∧
    ((mkView [[1], [2, 3], [4]]).TopoFlatten = (mkView [[1], [2, 3], [4]]).Topo.flatten ∧
      (crawlNodeChildren sampleLib page50Crawler scenarioServer (mkNode 5 "n" [])
        (mkView [[1], [2, 3], [4]]) [] 1 []).2.2 =
        [relatedRequest sampleLib page50Crawler (mkNode 5 "n" [])
          (mkView [[1], [2, 3], [4]]) 1] ∧
      mapLookup (relatedRequest sampleLib page50Crawler (mkNode 5 "n" [])
        (mkView [[1], [2, 3], [4]]) 1).params "descendant_ids" = some "3,4" ∧
      deeperTypeIDs (mkView [[1], [2, 3], [4]]).Topo 1 = [4] ∧
      String.intercalate "," ((deeperTypeIDs (mkView [[1], [2, 3], [4]]).Topo 1).map itoa) =
        "4") ∧
    ((mkView [[1], [2, 3]]).TopoFlatten = (mkView [[1], [2, 3]]).Topo.flatten ∧
      (crawlNodeChildren sampleLib page50Crawler scenarioServer (mkNode 5 "n" [])
        (mkView [[1], [2, 3]]) [] 1 []).2.2 =
        [relatedRequest sampleLib page50Crawler (mkNode 5 "n" []) (mkView [[1], [2, 3]]) 1] ∧
      mapLookup (relatedRequest sampleLib page50Crawler (mkNode 5 "n" [])
        (mkView [[1], [2, 3]]) 1).params "descendant_ids" = some "3" ∧
      deeperTypeIDs (mkView [[1], [2, 3]]).Topo 1 = []) := by
  have hreq : ∀ topo : List (List Int), 1 < topo.length → topo.getD 1 [] ≠ [] →
      (crawlNodeChildren sampleLib page50Crawler scenarioServer (mkNode 5 "n" [])
        (mkView topo) [] 1 []).2.2 =
        [relatedRequest sampleLib page50Crawler (mkNode 5 "n" []) (mkView topo) 1] := by
    intro topo h1 h2
    have hl : mapLookup (relatedRequest sampleLib page50Crawler (mkNode 5 "n" [])
        (mkView topo) 1).params "root_id" = some "5" :=
      (relatedRequest_lookup _ _ _ _ _).2
    have hres := searchCIRelation_result sampleLib page50Crawler scenarioServer
      (mkNode 5 "n" []) (mkView topo) 1 []
      ⟨200, "ok", ⟨[], 0, 0, 1, Any.null, Any.null⟩⟩
      (by
        show (if mapLookup _ "root_id" = some "10" then _ else _) = _
        rw [hl]
        rfl) rfl
    unfold crawlNodeChildren
    rw [crawlFuel_step_empty _ _ _ _ _ _ _ _ _ _ (by decide) h1 h2 hres rfl,
      searchCIRelation_requests]
    rfl
  refine ⟨⟨(relatedRequest_lookup _ _ _ _ _).1, (relatedRequest_lookup _ _ _ _ _).2,
    (relatedRequest_lookup_more _ _ _ _ _).1, (relatedRequest_lookup_more _ _ _ _ _).2.1⟩,
    (relatedRequest_lookup_more _ _ _ _ _).2.2, ⟨rfl, hreq _ (by decide) (by decide), ?_, rfl, ?_⟩,
    ⟨rfl, hreq _ (by decide) (by decide), ?_, rfl⟩⟩
  · rw [(relatedRequest_lookup_more _ _ _ _ _).2.2]
    decide
  · decide
  · rw [(relatedRequest_lookup_more _ _ _ _ _).2.2]
    decide


/-! ### Crawler: the statistics request -/

theorem relatedOnly_refl (lib : Lib) (c : ServiceTreeCrawler) (viewConfig : ServiceTreeView)
    (log : List Request) : RelatedOnly lib c viewConfig log log :=
  ⟨[], by simp, by simp⟩

theorem relatedOnly_trans (lib : Lib) (c : ServiceTreeCrawler) (viewConfig : ServiceTreeView)
    (a b d : List Request) (h1 : RelatedOnly lib c viewConfig a b)
    (h2 : RelatedOnly lib c viewConfig b d) : RelatedOnly lib c viewConfig a d := by
  obtain ⟨r1, rfl, hr1⟩ := h1
  obtain ⟨r2, rfl, hr2⟩ := h2
  refine ⟨r1 ++ r2, by simp, ?_⟩
  intro q hq
  rcases List.mem_append.mp hq with h | h
  · exact hr1 q h
  · exact hr2 q h

theorem relatedOnly_search (lib : Lib) (c : ServiceTreeCrawler) (srv : Server)
    (viewConfig : ServiceTreeView) (node : ServiceTreeNode) (lvl : Nat) (log : List Request) :
    RelatedOnly lib c viewConfig log
      (log ++ (SearchCIRelation lib c.client (srv.related log)
        (crawlNodeChildren.params c node viewConfig lvl)).requests) := by
  rw [searchCIRelation_requests]
  refine ⟨[relatedRequest lib c node viewConfig lvl], rfl, ?_⟩
  intro q hq
  rw [List.mem_singleton] at hq
  exact ⟨node, lvl, hq⟩

theorem crawlKids_log (lib : Lib) (c : ServiceTreeCrawler) (viewConfig : ServiceTreeView)
    (id2Type : GoMap CIType) (lvl : Nat)
    (descend : ServiceTreeNode → List Request →
      ServiceTreeNode × Option String × List Request)
    (hd : ∀ n l, RelatedOnly lib c viewConfig l (descend n l).2.2)
    (node : ServiceTreeNode) (cis : List CIInstance) (log : List Request) :
    RelatedOnly lib c viewConfig log (crawlKids id2Type lvl descend node cis log).2 := by
  induction cis generalizing log with
  | nil => exact relatedOnly_refl _ _ _ _
  | cons ci rest ih =>
    rw [crawlKids]
    exact relatedOnly_trans _ _ _ _ _ _ (hd _ _) (ih _)

theorem crawlFuel_log (lib : Lib) (c : ServiceTreeCrawler) (srv : Server)
    (viewConfig : ServiceTreeView) (id2Type : GoMap CIType) (fuel : Nat)
    (node : ServiceTreeNode) (lvl : Nat) (log : List Request) :
    RelatedOnly lib c viewConfig log
      (crawlNodeChildrenFuel lib c srv viewConfig id2Type fuel node lvl log).2.2 := by
  induction fuel generalizing node lvl log with
  | zero =>
    by_cases hs : Searches c viewConfig lvl
    · cases hres : (SearchCIRelation lib c.client (srv.related log)
          (crawlNodeChildren.params c node viewConfig lvl)).result with
      | error err =>
        rw [crawlFuel_step_error _ _ _ _ _ _ _ _ _ _ hs.1 hs.2.1 hs.2.2 hres]
        exact relatedOnly_search _ _ _ _ _ _ _
      | ok resp =>
        by_cases he : resp.Result = []
        · rw [crawlFuel_step_empty _ _ _ _ _ _ _ _ _ _ hs.1 hs.2.1 hs.2.2 hres he]
          exact relatedOnly_search _ _ _ _ _ _ _
        · rw [crawlFuel_step_exhausted _ _ _ _ _ _ _ _ _ hs hres he]
          exact relatedOnly_search _ _ _ _ _ _ _
    · rcases crawlFuel_step_stop lib c srv viewConfig id2Type 0 node lvl log hs with
        ⟨_, h⟩ | ⟨_, h⟩ <;> rw [h] <;> exact relatedOnly_refl _ _ _ _
  | succ fuel1 ih =>
    by_cases hs : Searches c viewConfig lvl
    · cases hres : (SearchCIRelation lib c.client (srv.related log)
          (crawlNodeChildren.params c node viewConfig lvl)).result with
      | error err =>
        rw [crawlFuel_step_error _ _ _ _ _ _ _ _ _ _ hs.1 hs.2.1 hs.2.2 hres]
        exact relatedOnly_search _ _ _ _ _ _ _
      | ok resp =>
        by_cases he : resp.Result = []
        · rw [crawlFuel_step_empty _ _ _ _ _ _ _ _ _ _ hs.1 hs.2.1 hs.2.2 hres he]
          exact relatedOnly_search _ _ _ _ _ _ _
        · rw [crawlFuel_step_children _ _ _ _ _ _ _ _ _ _ hs.1 hs.2.1 hs.2.2 hres he]
          exact relatedOnly_trans _ _ _ _ _ _ (relatedOnly_search _ _ _ _ _ _ _)
            (crawlKids_log _ _ _ _ _ _ (fun n l => ih n (lvl + 1) l) _ _ _)
    · rcases crawlFuel_step_stop lib c srv viewConfig id2Type (fuel1 + 1) node lvl log hs with
        ⟨_, h⟩ | ⟨_, h⟩ <;> rw [h] <;> exact relatedOnly_refl _ _ _ _

theorem expandRoots_log (lib : Lib) (c : ServiceTreeCrawler) (srv : Server)
    (viewConfig : ServiceTreeView) (id2Type : GoMap CIType)
    (roots : List ServiceTreeNode) (log : List Request) :
    RelatedOnly lib c viewConfig log (expandRoots lib c srv viewConfig id2Type roots log).2 := by
  induction roots generalizing log with
  | nil => exact relatedOnly_refl _ _ _ _
  | cons r rest ih =>
    rw [expandRoots]
    exact relatedOnly_trans _ _ _ _ _ _ (crawlFuel_log _ _ _ _ _ _ _ _ _) (ih _)

theorem expandRoots_frame (lib : Lib) (c : ServiceTreeCrawler) (srv : Server)
    (viewConfig : ServiceTreeView) (id2Type : GoMap CIType)
    (roots : List ServiceTreeNode) (log : List Request) :
    (expandRoots lib c srv viewConfig id2Type roots log).1.map (fun r => (r.ID, r.Statistics)) =
      roots.map (fun r => (r.ID, r.Statistics)) := by
  induction roots generalizing log with
  | nil => rfl
  | cons r rest ih =>
    rw [expandRoots]
    simp only [List.map_cons]
    rw [ih]
    have hf := crawlFuel_frame lib c srv viewConfig id2Type (viewConfig.Topo.length - 1) r 1 log
    unfold crawlNodeChildren
    rw [hf.1, hf.2.2.2.2.2.2.2]


theorem statistics_requests (lib : Lib) (c : ServiceTreeCrawler) (srv : Server)
    (rootNodes : List ServiceTreeNode) (viewConfig : ServiceTreeView) (log : List Request) :
    (GetCIRelationStatistics lib c.client (srv.statistics log)
      [("root_ids", Any.str (stringsJoin (rootNodes.map (fun node => itoa node.ID)) ",")),
       ("level", Any.int (viewConfig.TopoFlatten.length : Int)),
       ("type_ids", Any.ints viewConfig.Leaf),
       ("has_m2m", Any.int 0)]).requests =
      [statisticsRequest lib c rootNodes viewConfig] := by
  unfold GetCIRelationStatistics statisticsRequest
  exact doGet_requests _ _ _ _

theorem statistics_result (lib : Lib) (c : ServiceTreeCrawler) (srv : Server)
    (rootNodes : List ServiceTreeNode) (viewConfig : ServiceTreeView) (log : List Request)
    (resp : Response StatisticsResponse)
    (hresp : srv.statistics log (statisticsRequest lib c rootNodes viewConfig) = Except.ok resp)
    (h200 : resp.StatusCode = 200) :
    (GetCIRelationStatistics lib c.client (srv.statistics log)
      [("root_ids", Any.str (stringsJoin (rootNodes.map (fun node => itoa node.ID)) ",")),
       ("level", Any.int (viewConfig.TopoFlatten.length : Int)),
       ("type_ids", Any.ints viewConfig.Leaf),
       ("has_m2m", Any.int 0)]).result = Except.ok resp.Result := by
  unfold GetCIRelationStatistics
  exact (doGet_result _ _ _ _ resp hresp).2 h200

theorem statsPhase_ok (lib : Lib) (c : ServiceTreeCrawler) (srv : Server)
    (rootNodes : List ServiceTreeNode) (viewConfig : ServiceTreeView) (log : List Request)
    (resp : Response StatisticsResponse)
    (hstats : c.includeStats = true) (hleaf : viewConfig.Leaf ≠ [])
    (hroots : rootNodes ≠ [])
    (hresp : srv.statistics log (statisticsRequest lib c rootNodes viewConfig) = Except.ok resp)
    (h200 : resp.StatusCode = 200) :
    statsPhase lib c srv rootNodes viewConfig log =
      (rootNodes.map (fun node =>
        { node with
          Statistics := some [("total_descendants", GetCount resp.Result (itoa node.ID))] }),
        none, log ++ [statisticsRequest lib c rootNodes viewConfig]) := by
  have hl : viewConfig.Leaf.length > 0 := List.length_pos.mpr hleaf
  have hl0 : ¬ viewConfig.Leaf.length = 0 := Nat.pos_iff_ne_zero.mp hl
  have hr0 : ¬ rootNodes.length = 0 := fun h => hroots (List.length_eq_zero.mp h)
  unfold statsPhase
  rw [if_pos ⟨hstats, hl⟩]
  unfold loadRootNodeStatistics
  rw [if_neg (by simp [hl0, hr0])]
  simp only
  rw [statistics_result lib c srv rootNodes viewConfig log resp hresp h200,
    statistics_requests]

theorem statsPhase_off (lib : Lib) (c : ServiceTreeCrawler) (srv : Server)
    (rootNodes : List ServiceTreeNode) (viewConfig : ServiceTreeView) (log : List Request)
    (hoff : c.includeStats = false ∨ viewConfig.Leaf = []) :
    statsPhase lib c srv rootNodes viewConfig log = (rootNodes, none, log) := by
  unfold statsPhase
  rw [if_neg]
  rintro ⟨h1, h2⟩
  rcases hoff with h | h
  · rw [h] at h1
    cases h1
  · rw [h] at h2
    exact absurd h2 (by decide)

theorem statisticsRequest_lookup (lib : Lib) (c : ServiceTreeCrawler)
    (rootNodes : List ServiceTreeNode) (viewConfig : ServiceTreeView) :
    mapLookup (statisticsRequest lib c rootNodes viewConfig).params "root_ids" =
      some (String.intercalate "," (rootNodes.map (fun node => itoa node.ID))) ∧
    mapLookup (statisticsRequest lib c rootNodes viewConfig).params "level" =
      some (itoa (viewConfig.TopoFlatten.length : Int)) ∧
    mapLookup (statisticsRequest lib c rootNodes viewConfig).params "type_ids" =
      some (String.intercalate "," (viewConfig.Leaf.map itoa)) ∧
    mapLookup (statisticsRequest lib c rootNodes viewConfig).params "has_m2m" = some "0" := by
  unfold statisticsRequest
  simp only
  rw [addAPIAuth_lookup_other _ _ _ _ _ (by decide) (by decide),
    addAPIAuth_lookup_other _ _ _ _ _ (by decide) (by decide),
    addAPIAuth_lookup_other _ _ _ _ _ (by decide) (by decide),
    addAPIAuth_lookup_other _ _ _ _ _ (by decide) (by decide)]
  refine ⟨?_, ?_, ?_, ?_⟩ <;>
    simp [convertParams, mapSet, mapLookup, paramString, stringsJoin]
  rfl

theorem string_append_left_cancel (a x y : String) (h : a ++ x = a ++ y) : x = y := by
  have hd := congrArg String.data h
  simp only [String.data_append] at hd
  exact String.ext (List.append_cancel_left hd)

theorem buildURL_plain (c : CMDBClient) :
    buildURL c "ci/s" = c.baseURL ++ "/" ++ c.apiVersion ++ "/" ++ "ci/s" ∧
    buildURL c "ci_relations/s" = c.baseURL ++ "/" ++ c.apiVersion ++ "/" ++ "ci_relations/s" ∧
    buildURL c "ci_relations/statistics" =
      c.baseURL ++ "/" ++ c.apiVersion ++ "/" ++ "ci_relations/statistics" :=
  ⟨rfl, rfl, rfl⟩

theorem statistics_url_ne (lib : Lib) (c : ServiceTreeCrawler) (viewConfig : ServiceTreeView)
    (rootNodes : List ServiceTreeNode) :
    (rootRequest lib c viewConfig).url ≠ (statisticsRequest lib c rootNodes viewConfig).url ∧
    ∀ node lvl, (relatedRequest lib c node viewConfig lvl).url ≠
      (statisticsRequest lib c rootNodes viewConfig).url := by
  constructor
  · show buildURL c.client "ci/s" ≠ buildURL c.client "ci_relations/statistics"
    rw [(buildURL_plain c.client).1, (buildURL_plain c.client).2.2]
    intro h
    exact absurd (string_append_left_cancel _ _ _ h) (by decide)
  · intro node lvl
    show buildURL c.client "ci_relations/s" ≠ buildURL c.client "ci_relations/statistics"
    rw [(buildURL_plain c.client).2.1, (buildURL_plain c.client).2.2]
    intro h
    exact absurd (string_append_left_cancel _ _ _ h) (by decide)


/-- The requests of `CrawlServiceTree` when the statistics call succeeds,
whatever the worker limit: the root search, one statistics request, then
related searches only. -/
theorem crawlServiceTree_on_log (lib : Lib) (c : ServiceTreeCrawler) (srv : Server)
    (viewName : String) (viewID : Int) (viewConfig : ServiceTreeView)
    (id2Type : GoMap CIType) (log : List Request) (rootResp : CISearchResponse)
    (resp : Response StatisticsResponse)
    (htopo : viewConfig.Topo ≠ [])
    (hstats : c.includeStats = true) (hleaf : viewConfig.Leaf ≠ [])
    (hres : (SearchCI lib c.client (srv.search log)
      (BuildCITypeQuery (viewConfig.Topo.getD 0 [])) c.pageSize false).result =
        Except.ok rootResp)
    (hne : rootResp.Result ≠ [])
    (hresp : srv.statistics (log ++ [rootRequest lib c viewConfig])
      (statisticsRequest lib c (rootResp.Result.map (fun ci => newNode id2Type ci 0))
        viewConfig) = Except.ok resp)
    (h200 : resp.StatusCode = 200) :
    ∃ rest,
      (CrawlServiceTree lib c srv viewName viewID viewConfig id2Type log).2 =
        log ++ rootRequest lib c viewConfig ::
          statisticsRequest lib c (rootResp.Result.map (fun ci => newNode id2Type ci 0))
            viewConfig :: rest ∧
      (∀ q ∈ rest, ∃ node lvl, q = relatedRequest lib c node viewConfig lvl) := by
  have hroots : rootResp.Result.map (fun ci => newNode id2Type ci 0) ≠ [] := by
    intro h
    exact hne (List.map_eq_nil_iff.mp h)
  by_cases hw : 0 < c.maxWorkers
  · have key := crawlServiceTree_eq lib c srv viewName viewID viewConfig id2Type log rootResp
      htopo hres hne hw
    rw [searchCI_root_requests,
      statsPhase_ok lib c srv _ viewConfig _ resp hstats hleaf hroots hresp h200] at key
    obtain ⟨rest, hrest, hall⟩ := expandRoots_log lib c srv viewConfig id2Type
      ((rootResp.Result.map (fun ci => newNode id2Type ci 0)).map (fun node =>
        { node with
          Statistics := some [("total_descendants", GetCount resp.Result (itoa node.ID))] }))
      (log ++ [rootRequest lib c viewConfig] ++
        [statisticsRequest lib c (rootResp.Result.map (fun ci => newNode id2Type ci 0))
          viewConfig])
    refine ⟨rest, ?_, hall⟩
    rw [key]
    simp only at hrest ⊢
    rw [hrest]
    simp
  · have key := crawlServiceTree_stuck lib c srv viewName viewID viewConfig id2Type log
      rootResp htopo hres hne (not_lt.mp hw)
    rw [searchCI_root_requests,
      statsPhase_ok lib c srv _ viewConfig _ resp hstats hleaf hroots hresp h200] at key
    refine ⟨[], ?_, by simp⟩
    rw [key]
    simp

/-- The result of `CrawlServiceTree` when the statistics call succeeds, for a
positive worker limit. -/
theorem crawlServiceTree_on (lib : Lib) (c : ServiceTreeCrawler) (srv : Server)
    (viewName : String) (viewID : Int) (viewConfig : ServiceTreeView)
    (id2Type : GoMap CIType) (log : List Request) (rootResp : CISearchResponse)
    (resp : Response StatisticsResponse)
    (htopo : viewConfig.Topo ≠ [])
    (hstats : c.includeStats = true) (hleaf : viewConfig.Leaf ≠ [])
    (hres : (SearchCI lib c.client (srv.search log)
      (BuildCITypeQuery (viewConfig.Topo.getD 0 [])) c.pageSize false).result =
        Except.ok rootResp)
    (hne : rootResp.Result ≠ [])
    (hresp : srv.statistics (log ++ [rootRequest lib c viewConfig])
      (statisticsRequest lib c (rootResp.Result.map (fun ci => newNode id2Type ci 0))
        viewConfig) = Except.ok resp)
    (h200 : resp.StatusCode = 200)
    (hw : 0 < c.maxWorkers) :
    ∃ data,
      (CrawlServiceTree lib c srv viewName viewID viewConfig id2Type log).1 =
        some (Except.ok data) ∧
      data.RootNodes.map (fun r => (r.ID, r.Statistics)) =
        rootResp.Result.map (fun ci =>
          (ci.ID, some [("total_descendants", GetCount resp.Result (itoa ci.ID))])) := by
  have hroots : rootResp.Result.map (fun ci => newNode id2Type ci 0) ≠ [] := by
    intro h
    exact hne (List.map_eq_nil_iff.mp h)
  have key := crawlServiceTree_eq lib c srv viewName viewID viewConfig id2Type log rootResp
    htopo hres hne hw
  rw [searchCI_root_requests,
    statsPhase_ok lib c srv _ viewConfig _ resp hstats hleaf hroots hresp h200] at key
  refine ⟨_, congrArg Prod.fst key, ?_⟩
  show (expandRoots lib c srv viewConfig id2Type _ _).1.map _ = _
  rw [expandRoots_frame]
  simp only [List.map_map]
  rfl

theorem crawlServiceTree_off (lib : Lib) (c : ServiceTreeCrawler) (srv : Server)
    (viewName : String) (viewID : Int) (viewConfig : ServiceTreeView)
    (id2Type : GoMap CIType) (log : List Request)
    (hoff : c.includeStats = false ∨ viewConfig.Leaf = []) :
    ∃ rest,
      (CrawlServiceTree lib c srv viewName viewID viewConfig id2Type log).2 = log ++ rest ∧
      (∀ q ∈ rest, q = rootRequest lib c viewConfig ∨
        ∃ node lvl, q = relatedRequest lib c node viewConfig lvl) ∧
      ∀ data, (CrawlServiceTree lib c srv viewName viewID viewConfig id2Type log).1 =
        some (Except.ok data) → ∀ r ∈ data.RootNodes, r.Statistics = none := by
  by_cases h0 : viewConfig.Topo.length = 0
  · refine ⟨[], ?_, by simp, ?_⟩
    · unfold CrawlServiceTree
      simp only [h0, if_true, List.append_nil]
    · intro data hd
      unfold CrawlServiceTree at hd
      simp only [h0, if_true] at hd
      cases hd
  · have htopo : viewConfig.Topo ≠ [] := fun h => h0 (by rw [h]; rfl)
    cases hres : (SearchCI lib c.client (srv.search log)
        (BuildCITypeQuery (viewConfig.Topo.getD 0 [])) c.pageSize false).result with
    | error err =>
      refine ⟨[rootRequest lib c viewConfig], ?_, by simp, ?_⟩
      · unfold CrawlServiceTree
        simp only [h0, if_false, hres, searchCI_root_requests]
      · intro data hd
        unfold CrawlServiceTree at hd
        simp only [h0, if_false, hres] at hd
        cases hd
    | ok rootResp =>
      by_cases h1 : rootResp.Result.length = 0
      · refine ⟨[rootRequest lib c viewConfig], ?_, by simp, ?_⟩
        · unfold CrawlServiceTree
          simp only [h0, if_false, hres, h1, if_true, searchCI_root_requests]
        · intro data hd
          unfold CrawlServiceTree at hd
          simp only [h0, if_false, hres, h1, if_true] at hd
          cases hd
          intro r hr
          cases hr
      · have hne : rootResp.Result ≠ [] := fun h => h1 (by rw [h]; rfl)
        by_cases hw : 0 < c.maxWorkers
        · rw [crawlServiceTree_eq lib c srv viewName viewID viewConfig id2Type log rootResp
            htopo hres hne hw, searchCI_root_requests,
            statsPhase_off lib c srv _ viewConfig _ hoff]
          obtain ⟨rest, hrest, hall⟩ := expandRoots_log lib c srv viewConfig id2Type
            (rootResp.Result.map (fun ci => newNode id2Type ci 0))
            (log ++ [rootRequest lib c viewConfig])
          refine ⟨rootRequest lib c viewConfig :: rest, ?_, ?_, ?_⟩
          · simp only at hrest ⊢
            rw [hrest]
            simp
          · intro q hq
            rcases List.mem_cons.mp hq with h | h
            · exact Or.inl h
            · exact Or.inr (hall q h)
          · intro data hd r hr
            have hd2 := (Except.ok.inj (Option.some.inj hd)).symm
            have hR : data.RootNodes = (expandRoots lib c srv viewConfig id2Type
                (rootResp.Result.map (fun ci => newNode id2Type ci 0))
                (log ++ [rootRequest lib c viewConfig])).1 := by
              rw [hd2]
              rfl
            rw [hR] at hr
            have hf := expandRoots_frame lib c srv viewConfig id2Type
              (rootResp.Result.map (fun ci => newNode id2Type ci 0))
              (log ++ [rootRequest lib c viewConfig])
            have hm : (r.ID, r.Statistics) ∈
                (expandRoots lib c srv viewConfig id2Type
                  (rootResp.Result.map (fun ci => newNode id2Type ci 0))
                  (log ++ [rootRequest lib c viewConfig])).1.map
                    (fun r => (r.ID, r.Statistics)) :=
              List.mem_map.mpr ⟨r, hr, rfl⟩
            rw [hf] at hm
            obtain ⟨n, hn, hnr⟩ := List.mem_map.mp hm
            obtain ⟨ci, _, rfl⟩ := List.mem_map.mp hn
            exact (congrArg Prod.snd hnr).symm
        · rw [crawlServiceTree_stuck lib c srv viewName viewID viewConfig id2Type log rootResp
            htopo hres hne (not_lt.mp hw), searchCI_root_requests,
            statsPhase_off lib c srv _ viewConfig _ hoff]
          refine ⟨[rootRequest lib c viewConfig], rfl, by simp, ?_⟩
          intro data hd
          cases hd

/-- C26: with statistics enabled, at least one leaf type, at least one root
and a statistics call that succeeds, `CrawlServiceTree` sends exactly one
request to the statistics endpoint (right after the root search, every later
request being a related search), with root_ids = the root ids comma-joined in
root order, level = the length of the flattened topology and type_ids = the
leaf type ids; after the statistics phase every root carries exactly the
mapping total_descendants = `GetCount` of its id in decimal, which is 0 for
an id missing from the response, and so does every root of the result that
the call returns (it returns one when the worker limit is positive). With
statistics disabled or no leaf type, no request goes to the statistics
endpoint, the statistics phase leaves the roots as they are, and no root of
a result has a mapping. -/
theorem C26_root_statistics (lib : Lib) (c : ServiceTreeCrawler) (srv : Server)
    (viewName : String) (viewID : Int) (viewConfig : ServiceTreeView)
    (id2Type : GoMap CIType) (log : List Request) :
    (∀ (rootResp : CISearchResponse) (resp : Response StatisticsResponse),
      viewConfig.Topo ≠ [] → c.includeStats = true → viewConfig.Leaf ≠ [] →
      (SearchCI lib c.client (srv.search log)
        (BuildCITypeQuery (viewConfig.Topo.getD 0 [])) c.pageSize false).result =
          Except.ok rootResp →
      rootResp.Result ≠ [] →
      srv.statistics (log ++ [rootRequest lib c viewConfig])
        (statisticsRequest lib c (rootResp.Result.map (fun ci => newNode id2Type ci 0))
          viewConfig) = Except.ok resp →
      resp.StatusCode = 200 →
      (∃ rest statReq,
        (CrawlServiceTree lib c srv viewName viewID viewConfig id2Type log).2 =
          log ++ rootRequest lib c viewConfig :: statReq :: rest ∧
        statReq.url = buildURL c.client "ci_relations/statistics" ∧
        (rootRequest lib c viewConfig).url ≠ buildURL c.client "ci_relations/statistics" ∧
        (∀ q ∈ rest, q.url ≠ buildURL c.client "ci_relations/statistics") ∧
        mapLookup statReq.params "root_ids" =
          some (String.intercalate "," (rootResp.Result.map (fun ci => itoa ci.ID))) ∧
        mapLookup statReq.params "level" =
          some (itoa (viewConfig.TopoFlatten.length : Int)) ∧
        mapLookup statReq.params "type_ids" =
          some (String.intercalate "," (viewConfig.Leaf.map itoa))) ∧
      (statsPhase lib c srv (rootResp.Result.map (fun ci => newNode id2Type ci 0)) viewConfig
        (log ++ [rootRequest lib c viewConfig])).1 =
        rootResp.Result.map (fun ci =>
          { newNode id2Type ci 0 with
            Statistics := some [("total_descendants", GetCount resp.Result (itoa ci.ID))] }) ∧
      (0 < c.maxWorkers →
        ∃ data, (CrawlServiceTree lib c srv viewName viewID viewConfig id2Type log).1 =
          some (Except.ok data)) ∧
      (∀ data, (CrawlServiceTree lib c srv viewName viewID viewConfig id2Type log).1 =
          some (Except.ok data) →
        data.RootNodes.map (fun r => (r.ID, r.Statistics)) =
          rootResp.Result.map (fun ci =>
            (ci.ID, some [("total_descendants", GetCount resp.Result (itoa ci.ID))])) ∧
        (∀ r ∈ data.RootNodes, r.Statistics =
          some [("total_descendants", GetCount resp.Result (itoa r.ID))]))) ∧
    (∀ (stats : StatisticsResponse) (rootID : String),
      (∀ d, stats.Data = some d → mapLookup d rootID = none) → GetCount stats rootID = 0) ∧
    ((c.includeStats = false ∨ viewConfig.Leaf = []) →
      (∃ rest,
        (CrawlServiceTree lib c srv viewName viewID viewConfig id2Type log).2 = log ++ rest ∧
        ∀ q ∈ rest, q.url ≠ buildURL c.client "ci_relations/statistics") ∧
      (∀ data, (CrawlServiceTree lib c srv viewName viewID viewConfig id2Type log).1 =
        some (Except.ok data) → ∀ r ∈ data.RootNodes, r.Statistics = none) ∧
      (∀ roots lg, statsPhase lib c srv roots viewConfig lg = (roots, none, lg))) := by
  have hurl := statistics_url_ne lib c viewConfig []
  refine ⟨?_, ?_, ?_⟩
  · intro rootResp resp htopo hstats hleaf hres hne hresp h200
    have hroots : rootResp.Result.map (fun ci => newNode id2Type ci 0) ≠ [] := by
      intro h
      exact hne (List.map_eq_nil_iff.mp h)
    obtain ⟨rest, hlog, hall⟩ := crawlServiceTree_on_log lib c srv viewName viewID
      viewConfig id2Type log rootResp resp htopo hstats hleaf hres hne hresp h200
    have hl := statisticsRequest_lookup lib c
      (rootResp.Result.map (fun ci => newNode id2Type ci 0)) viewConfig
    have hmapOf : ∀ data,
        (CrawlServiceTree lib c srv viewName viewID viewConfig id2Type log).1 =
          some (Except.ok data) →
        data.RootNodes.map (fun r => (r.ID, r.Statistics)) =
          rootResp.Result.map (fun ci =>
            (ci.ID, some [("total_descendants", GetCount resp.Result (itoa ci.ID))])) := by
      intro data hok
      by_cases hw : 0 < c.maxWorkers
      · obtain ⟨data2, hok2, hmap⟩ := crawlServiceTree_on lib c srv viewName viewID
          viewConfig id2Type log rootResp resp htopo hstats hleaf hres hne hresp h200 hw
        rw [hok] at hok2
        cases hok2
        exact hmap
      · have key := congrArg Prod.fst
          (crawlServiceTree_stuck lib c srv viewName viewID viewConfig id2Type log rootResp
            htopo hres hne (not_lt.mp hw))
        rw [hok] at key
        cases key
    refine ⟨⟨rest, _, hlog, rfl, hurl.1, ?_, ?_, hl.2.1, hl.2.2.1⟩, ?_, ?_, ?_⟩
    · intro q hq
      obtain ⟨node, lvl, rfl⟩ := hall q hq
      exact hurl.2 node lvl
    · rw [hl.1]
      simp only [List.map_map]
      rfl
    · rw [statsPhase_ok lib c srv _ viewConfig _ resp hstats hleaf hroots hresp h200]
      simp only [List.map_map]
      rfl
    · intro hw
      obtain ⟨data, hok, _⟩ := crawlServiceTree_on lib c srv viewName viewID
        viewConfig id2Type log rootResp resp htopo hstats hleaf hres hne hresp h200 hw
      exact ⟨data, hok⟩
    · intro data hok
      have hmap := hmapOf data hok
      refine ⟨hmap, ?_⟩
      intro r hr
      have hm : (r.ID, r.Statistics) ∈ data.RootNodes.map (fun r => (r.ID, r.Statistics)) :=
        List.mem_map.mpr ⟨r, hr, rfl⟩
      rw [hmap] at hm
      obtain ⟨ci, _, hci⟩ := List.mem_map.mp hm
      have h1 := congrArg Prod.fst hci
      have h2 := congrArg Prod.snd hci
      simp only at h1 h2
      rw [← h2, h1]
  · intro stats rootID h
    unfold GetCount
    cases hd : stats.Data with
    | none => rfl
    | some d => simp only [h d hd]
  · intro hoff
    obtain ⟨rest, hrest, hall, hnone⟩ := crawlServiceTree_off lib c srv viewName viewID
      viewConfig id2Type log hoff
    refine ⟨⟨rest, hrest, ?_⟩, hnone,
      fun roots lg => statsPhase_off lib c srv roots viewConfig lg hoff⟩
    intro q hq
    rcases hall q hq with rfl | ⟨node, lvl, rfl⟩
    · exact hurl.1
    · exact hurl.2 node lvl

theorem C26_root_statistics_witness :
    (∃ data,
      (CrawlServiceTree sampleLib sampleCrawler statsServer "view" 1 leafView [] []).1 =
        some (Except.ok data) ∧
      data.RootNodes.map (fun r => (r.ID, r.Statistics)) =
        [(10, some [("total_descendants", 4)]), (11, some [("total_descendants", 0)])]) ∧
    (∃ rest statReq,
      (CrawlServiceTree sampleLib sampleCrawler statsServer "view" 1 leafView [] []).2 =
        rootRequest sampleLib sampleCrawler leafView :: statReq :: rest ∧
      mapLookup statReq.params "root_ids" = some "10,11") ∧
    (∀ data, (CrawlServiceTree sampleLib { sampleCrawler with includeStats := false }
      statsServer "view" 1 leafView [] []).1 = some (Except.ok data) →
      ∀ r ∈ data.RootNodes, r.Statistics = none) := by
  have h := (C26_root_statistics sampleLib sampleCrawler statsServer "view" 1 leafView [] []).1
    ⟨[mkInstance 10 1 "a", mkInstance 11 1 "b"], 2, 2, 1⟩
    ⟨200, "ok", ⟨some [("10", Any.float64 4)], none⟩⟩
    (by decide) rfl (by decide)
    (searchCI_root_result sampleLib sampleCrawler statsServer leafView []
      ⟨200, "ok", ⟨[mkInstance 10 1 "a", mkInstance 11 1 "b"], 2, 2, 1⟩⟩ rfl rfl)
    (by simp) rfl rfl
  obtain ⟨⟨rest, statReq, hlog, _, _, _, hids, _, _⟩, _, hret, hdata⟩ := h
  refine ⟨?_, ⟨rest, statReq, by simpa using hlog, ?_⟩, ?_⟩
  · obtain ⟨data, hok⟩ := hret (by decide)
    refine ⟨data, hok, ?_⟩
    rw [(hdata data hok).1]
    decide
  · rw [hids]
    rfl
  · exact ((C26_root_statistics sampleLib { sampleCrawler with includeStats := false }
      statsServer "view" 1 leafView [] []).2.2 (Or.inl rfl)).2.1

/-! ### Tree keys -/

theorem split_part (sep : List Char) (h : Char) (t : List Char) (hsep : sep = h :: t)
    (p : List Char) (hp : h ∉ p) (cur rest : List Char) :
    stringsSplit.loop sep 0 cur (p ++ rest) = stringsSplit.loop sep 0 (p.reverse ++ cur) rest := by
  induction p generalizing cur with
  | nil => rfl
  | cons a p ih =>
    have ha : a ≠ h := fun e => hp (by rw [e]; exact List.mem_cons_self _ _)
    have hp2 : h ∉ p := fun e => hp (List.mem_cons_of_mem _ e)
    have hpre : sep.isPrefixOf (a :: (p ++ rest)) = false := by
      rw [hsep]
      simp [List.isPrefixOf, Ne.symm ha]
    rw [List.cons_append, stringsSplit.loop, hpre]
    simp only [Bool.false_eq_true, if_false]
    rw [ih hp2]
    simp

theorem split_skip (sep : List Char) (u cur rest : List Char) :
    stringsSplit.loop sep u.length cur (u ++ rest) = stringsSplit.loop sep 0 cur rest := by
  induction u with
  | nil => rfl
  | cons a u ih =>
    rw [List.length_cons, List.cons_append, stringsSplit.loop]
    exact ih

theorem split_sep (sep : List Char) (h : Char) (t : List Char) (hsep : sep = h :: t)
    (cur rest : List Char) :
    stringsSplit.loop sep 0 cur (sep ++ rest) =
      cur.reverse :: stringsSplit.loop sep 0 [] rest := by
  subst hsep
  have hpre : (h :: t).isPrefixOf (h :: (t ++ rest)) = true := by
    simp [List.isPrefixOf]
  rw [List.cons_append, stringsSplit.loop, hpre]
  simp only [if_true, List.length_cons, Nat.add_sub_cancel]
  rw [split_skip]

theorem split_join (sep : List Char) (h : Char) (t : List Char) (hsep : sep = h :: t)
    (ps : List (List Char)) (hps : ∀ q ∈ ps, h ∉ q) (p : List Char) (hp : h ∉ p)
    (cur : List Char) :
    stringsSplit.loop sep 0 cur (p ++ (ps.map (fun x => sep ++ x)).flatten) =
      (cur.reverse ++ p) :: ps := by
  induction ps generalizing p cur with
  | nil =>
    rw [split_part sep h t hsep p hp]
    simp [stringsSplit.loop]
  | cons q qs ih =>
    rw [split_part sep h t hsep p hp]
    simp only [List.map_cons, List.flatten_cons, List.append_assoc]
    rw [split_sep sep h t hsep,
      ih (fun x hx => hps x (List.mem_cons_of_mem _ hx)) q (hps q (List.mem_cons_self _ _))]
    simp

theorem stringsSplit_join (sep : String) (h : Char) (t : List Char)
    (hsep : sep.toList = h :: t) (p : String) (ps : List String)
    (hall : ∀ q ∈ p :: ps, h ∉ q.toList) :
    stringsSplit (stringsJoin (p :: ps) sep) sep = p :: ps := by
  have hne : sep ≠ "" := by
    intro e
    rw [e] at hsep
    cases hsep
  unfold stringsSplit stringsJoin
  rw [if_neg hne, intercalate_cons]
  have hdata : (p ++ String.join (ps.map (fun x => sep ++ x))).toList =
      p.toList ++ ((ps.map String.toList).map (fun x => sep.toList ++ x)).flatten := by
    simp [String.join_eq, List.map_map, Function.comp_def]
  rw [hdata, split_join sep.toList h t hsep (ps.map String.toList)
    (by
      intro q hq
      obtain ⟨s, hs, rfl⟩ := List.mem_map.mp hq
      exact hall s (List.mem_cons_of_mem _ hs))
    p.toList (hall p (List.mem_cons_self _ _)) []]
  simp [List.map_map, Function.comp_def]

theorem digitChar_spec (k : Nat) (hk : k < 10) :
    (Nat.digitChar k).isDigit = true ∧ (Nat.digitChar k).toNat - 48 = k := by
  interval_cases k <;> exact ⟨rfl, rfl⟩

theorem toDigitsCore_parse (fuel : Nat) :
    ∀ (n : Nat) (ds : List Char), n < fuel →
      atoi.digits (Nat.toDigitsCore 10 fuel n ds) 0 = atoi.digits ds n := by
  induction fuel with
  | zero =>
    intro n ds hf
    omega
  | succ f ih =>
    intro n ds hf
    have hd := digitChar_spec (n % 10) (Nat.mod_lt _ (by decide))
    rw [Nat.toDigitsCore]
    split
    · rename_i h0
      rw [atoi.digits, if_pos hd.1, hd.2]
      congr 1
      omega
    · rename_i h0
      rw [ih (n / 10) _ (by omega), atoi.digits, if_pos hd.1, hd.2]
      congr 1
      omega

theorem toDigitsCore_shape (fuel : Nat) :
    ∀ (n : Nat) (ds : List Char), 0 < fuel →
      ∃ ch pre, Nat.toDigitsCore 10 fuel n ds = ch :: pre ++ ds ∧
        ∀ x ∈ ch :: pre, x.isDigit = true := by
  induction fuel with
  | zero =>
    intro n ds hf
    omega
  | succ f ih =>
    intro n ds _
    have hd := digitChar_spec (n % 10) (Nat.mod_lt _ (by decide))
    rw [Nat.toDigitsCore]
    split
    · refine ⟨Nat.digitChar (n % 10), [], rfl, ?_⟩
      intro x hx
      rw [List.mem_singleton] at hx
      rw [hx]
      exact hd.1
    · rename_i h0
      cases f with
      | zero =>
        refine ⟨Nat.digitChar (n % 10), [], rfl, ?_⟩
        intro x hx
        rw [List.mem_singleton] at hx
        rw [hx]
        exact hd.1
      | succ g =>
        obtain ⟨ch, pre, heq, hall⟩ := ih (n / 10) (Nat.digitChar (n % 10) :: ds)
          (Nat.succ_pos _)
        refine ⟨ch, pre ++ [Nat.digitChar (n % 10)], ?_, ?_⟩
        · rw [heq]
          simp
        · intro x hx
          rcases List.mem_cons.mp hx with h | h
          · exact hall x (by rw [h]; exact List.mem_cons_self _ _)
          · rcases List.mem_append.mp h with h2 | h2
            · exact hall x (List.mem_cons_of_mem _ h2)
            · rw [List.mem_singleton] at h2
              rw [h2]
              exact hd.1

theorem repr_shape (m : Nat) :
    ∃ ch pre, (Nat.repr m).toList = ch :: pre ∧ (∀ x ∈ ch :: pre, x.isDigit = true) ∧
      atoi.digits (ch :: pre) 0 = some m := by
  obtain ⟨ch, pre, heq, hall⟩ := toDigitsCore_shape (m + 1) m [] (Nat.succ_pos _)
  have hp := toDigitsCore_parse (m + 1) m [] (Nat.lt_succ_self _)
  rw [heq, List.append_nil] at hp
  rw [List.append_nil] at heq
  exact ⟨ch, pre, heq, hall, hp⟩

theorem itoa_chars (n : Int) : ∀ x ∈ (itoa n).toList, x.isDigit = true ∨ x = '-' := by
  intro x hx
  cases n with
  | ofNat m =>
    obtain ⟨ch, pre, heq, hall, _⟩ := repr_shape m
    rw [itoa, heq] at hx
    exact Or.inl (hall x hx)
  | negSucc m =>
    obtain ⟨ch, pre, heq, hall, _⟩ := repr_shape (m + 1)
    rw [itoa, String.toList, String.data_append] at hx
    rcases List.mem_append.mp hx with h | h
    · right
      simpa using h
    · rw [← String.toList, heq] at h
      exact Or.inl (hall x h)

theorem atoi_itoa (n : Int) (h : IsGoInt n) : atoi (itoa n) = some n := by
  cases n with
  | ofNat m =>
    obtain ⟨ch, pre, heq, hall, hp⟩ := repr_shape m
    have hch := hall ch (List.mem_cons_self _ _)
    have h1 : ch ≠ '-' := fun e => by rw [e] at hch; exact absurd hch (by decide)
    have h2 : ch ≠ '+' := fun e => by rw [e] at hch; exact absurd hch (by decide)
    unfold atoi
    rw [itoa, heq]
    simp only [List.head?_cons, Option.some.injEq, h1, h2, or_self, if_false,
      reduceCtorEq, hp]
    have hr := h.2
    simp only [Int.ofNat_eq_coe] at hr ⊢
    rw [if_neg (by omega)]
  | negSucc m =>
    obtain ⟨ch, pre, heq, hall, hp⟩ := repr_shape (m + 1)
    have hl : (itoa (Int.negSucc m)).toList = '-' :: ch :: pre := by
      rw [itoa, String.toList, String.data_append, ← String.toList, ← String.toList, heq]
      rfl
    unfold atoi
    rw [hl]
    simp only [List.head?_cons, true_or, if_true, List.tail_cons, reduceCtorEq, if_false, hp]
    have hr := h.1
    rw [Int.negSucc_eq] at hr ⊢
    rw [if_neg (by push_cast; omega)]
    push_cast
    rfl

theorem itoa_no (n : Int) (x : Char) (hd : x.isDigit = false) (hm : x ≠ '-') :
    x ∉ (itoa n).toList := by
  intro hx
  rcases itoa_chars n x hx with h | h
  · rw [h] at hd
    cases hd
  · exact hm h

theorem segment_text (seg : TreeKeySegment) :
    itoa seg.CIID ++ "%" ++ itoa seg.TypeID ++ "%" ++ seg.Meta =
      stringsJoin [itoa seg.CIID, itoa seg.TypeID, seg.Meta] "%" := by
  unfold stringsJoin
  rw [intercalate_cons]
  apply String.ext
  simp [String.join_eq]

theorem segment_no (seg : TreeKeySegment) (x : Char) (hd : x.isDigit = false)
    (hm : x ≠ '-') (hp : x ≠ '%') (hmeta : x ∉ seg.Meta.toList) :
    x ∉ (itoa seg.CIID ++ "%" ++ itoa seg.TypeID ++ "%" ++ seg.Meta).toList := by
  have h1 := itoa_no seg.CIID x hd hm
  have h2 := itoa_no seg.TypeID x hd hm
  simp only [String.toList, String.data_append, List.mem_append, not_or] at h1 h2 hmeta ⊢
  refine ⟨⟨⟨⟨h1, ?_⟩, h2⟩, ?_⟩, hmeta⟩
  · intro h
    exact hp (by simpa using h)
  · intro h
    exact hp (by simpa using h)

theorem parseSegment_build (seg : TreeKeySegment)
    (hint : IsGoInt seg.CIID ∧ IsGoInt seg.TypeID) (hmeta : '%' ∉ seg.Meta.toList) :
    ParseTreeKey.segment (itoa seg.CIID ++ "%" ++ itoa seg.TypeID ++ "%" ++ seg.Meta) =
      Except.ok seg := by
  have hsplit : stringsSplit
      (itoa seg.CIID ++ "%" ++ itoa seg.TypeID ++ "%" ++ seg.Meta) "%" =
      [itoa seg.CIID, itoa seg.TypeID, seg.Meta] := by
    rw [segment_text]
    apply stringsSplit_join "%" '%' [] rfl
    intro q hq
    simp only [List.mem_cons, List.mem_singleton, List.not_mem_nil, or_false] at hq
    rcases hq with rfl | rfl | rfl
    · exact itoa_no _ _ (by decide) (by decide)
    · exact itoa_no _ _ (by decide) (by decide)
    · exact hmeta
  unfold ParseTreeKey.segment
  rw [hsplit]
  simp only [atoi_itoa _ hint.1, atoi_itoa _ hint.2]

theorem parseLoop_build (segments : List TreeKeySegment)
    (hint : ∀ seg ∈ segments, IsGoInt seg.CIID ∧ IsGoInt seg.TypeID)
    (hmeta : ∀ seg ∈ segments, '%' ∉ seg.Meta.toList) :
    ParseTreeKey.loop (segments.map
      (fun seg => itoa seg.CIID ++ "%" ++ itoa seg.TypeID ++ "%" ++ seg.Meta)) =
      Except.ok segments := by
  induction segments with
  | nil => rfl
  | cons seg rest ih =>
    rw [List.map_cons, ParseTreeKey.loop,
      parseSegment_build seg (hint seg (List.mem_cons_self _ _))
        (hmeta seg (List.mem_cons_self _ _))]
    simp only
    rw [ih (fun s hs => hint s (List.mem_cons_of_mem _ hs))
      (fun s hs => hmeta s (List.mem_cons_of_mem _ hs))]

theorem buildTreeKey_ne_empty (seg : TreeKeySegment) (rest : List TreeKeySegment) :
    BuildTreeKey (seg :: rest) ≠ "" := by
  unfold BuildTreeKey stringsJoin
  rw [if_neg (by simp)]
  simp only [List.map_cons]
  rw [intercalate_cons]
  intro h
  have hl := congrArg String.length h
  simp only [String.length_append] at hl
  have h1 : ("%" : String).length = 1 := rfl
  have h0 : ("" : String).length = 0 := rfl
  omega

/-- C27: tree-key round trip. For every non-empty list of segments whose ids
are Go ints and whose meta strings contain none of the characters percent,
at-sign and caret, `ParseTreeKey (BuildTreeKey segments)` succeeds and returns
exactly `segments`; `BuildTreeKey` of the empty list is the empty string, and
`ParseTreeKey` of the empty string returns no segments and no error. -/
theorem C27_tree_key_round_trip (segments : List TreeKeySegment)
    (hne : segments ≠ [])
    (hint : ∀ seg ∈ segments, IsGoInt seg.CIID ∧ IsGoInt seg.TypeID)
    (hmeta : ∀ seg ∈ segments, ∀ ch ∈ seg.Meta.toList, ch ≠ '%' ∧ ch ≠ '@' ∧ ch ≠ '^') :
    ParseTreeKey (BuildTreeKey segments) = Except.ok segments ∧
    BuildTreeKey [] = "" ∧
    ParseTreeKey "" = Except.ok [] := by
  refine ⟨?_, rfl, rfl⟩
  cases segments with
  | nil => exact absurd rfl hne
  | cons seg rest =>
    unfold ParseTreeKey
    rw [if_neg (buildTreeKey_ne_empty seg rest)]
    have hb : BuildTreeKey (seg :: rest) =
        stringsJoin ((seg :: rest).map
          (fun seg => itoa seg.CIID ++ "%" ++ itoa seg.TypeID ++ "%" ++ seg.Meta)) "@^@" := by
      unfold BuildTreeKey
      rw [if_neg (by simp)]
    rw [hb, List.map_cons, stringsSplit_join "@^@" '@' ['^', '@'] rfl]
    · exact parseLoop_build (seg :: rest) hint
        (fun s hs h => (hmeta s hs _ h).1 rfl)
    · intro q hq
      have hq2 : q ∈ (seg :: rest).map
          (fun seg => itoa seg.CIID ++ "%" ++ itoa seg.TypeID ++ "%" ++ seg.Meta) := hq
      obtain ⟨s, hs, rfl⟩ := List.mem_map.mp hq2
      exact segment_no s '@' (by decide) (by decide) (by decide)
        (fun h => (hmeta s hs _ h).2.1 rfl)

theorem C27_tree_key_round_trip_witness :
    ParseTreeKey (BuildTreeKey [⟨12, 3, "a b"⟩, ⟨-7, 40, ""⟩]) =
      Except.ok [⟨12, 3, "a b"⟩, ⟨-7, 40, ""⟩] ∧
    BuildTreeKey [] = "" ∧
    ParseTreeKey "" = Except.ok [] :=
  C27_tree_key_round_trip [⟨12, 3, "a b"⟩, ⟨-7, 40, ""⟩] (by simp)
    (by
      intro seg hseg
      simp only [List.mem_cons, List.mem_singleton, List.not_mem_nil, or_false] at hseg
      rcases hseg with rfl | rfl <;>
        exact ⟨by unfold IsGoInt; decide, by unfold IsGoInt; decide⟩)
    (by
      intro seg hseg
      simp only [List.mem_cons, List.mem_singleton, List.not_mem_nil, or_false] at hseg
      rcases hseg with rfl | rfl <;> decide)

end CMDB
